import Mathlib

/-!
# Scene loading and scene bounds of the CUDA path tracer (`src/scene.cpp`)

A shallow embedding of `Scene::Scene`, `Scene::loadMaterial`, `Scene::loadGeom`,
`Scene::loadObjMesh` and `Scene::loadCamera`.

* `float` values are elements of a linearly ordered field `F` (exact arithmetic);
  the two infinities that seed the bounding-box folds are the extra points of `Ext F`.
* The input stream `fp_in` is the list of the lines still unread plus its `good` flag.
* `operator[]` past the end of a `std::vector` is undefined behaviour; it is the
  error `Err.vectorIndex`, so every loader returns in `Except Err`.
* Library and helper code that is not part of `scene.cpp` (the tokenizer, `atoi`,
  `atof`, the matrix helpers, the mesh importer, `tan`/`atan`/`sqrt`) and the values of
  default-initialised objects are the fields of `Env`.
-/

namespace PathTracer

set_option linter.dupNamespace false

/-! ## Vectors and matrices (glm) -/

/-- Two components, as `glm::vec2` / `glm::ivec2`. -/
structure Vec2 (α : Type) where
  x : α
  y : α
deriving DecidableEq

/-- Three components, as `glm::vec3`. -/
structure Vec3 (α : Type) where
  x : α
  y : α
  z : α
deriving DecidableEq

/-- Four components, as `glm::vec4`. -/
structure Vec4 (α : Type) where
  x : α
  y : α
  z : α
  w : α
deriving DecidableEq

/-- Column-major 4x4 matrix, as `glm::mat4`: `c0 .. c3` are the columns `m[0] .. m[3]`. -/
structure Mat4 (α : Type) where
  c0 : Vec4 α
  c1 : Vec4 α
  c2 : Vec4 α
  c3 : Vec4 α
deriving DecidableEq

/-- Errors that end a load: undefined behaviour and exceptions of the C++ code. -/
inductive Err where
  /-- `tokens[i]` with `i` past the end of the token vector -/
  | vectorIndex
  /-- the scene file could not be opened -/
  | notOpen
  /-- signed overflow of an `int` product -/
  | intOverflow
  /-- `std::vector::resize` with a negative `int` converted to `size_t` throws -/
  | lengthError
  /-- the model's loop budget ran out (never the code's own result) -/
  | outOfFuel
deriving DecidableEq

section Model

variable {F : Type} [LinearOrderedField F]

/-- The constructor `glm::vec3()`: all components zero. -/
def Vec3.zero : Vec3 F := ⟨0, 0, 0⟩

/-- The conversion `glm::vec4(v, w)`. -/
def Vec4.ofVec3 (v : Vec3 F) (w : F) : Vec4 F := ⟨v.x, v.y, v.z, w⟩

/-- The conversion `glm::vec3(v)` of a `vec4`: drops `w`. -/
def Vec4.toVec3 (v : Vec4 F) : Vec3 F := ⟨v.x, v.y, v.z⟩

/-- The product `m * v` of glm: the combination of the columns of `m` weighted by `v`. -/
def Mat4.mulVec (m : Mat4 F) (v : Vec4 F) : Vec4 F :=
  ⟨m.c0.x * v.x + m.c1.x * v.y + m.c2.x * v.z + m.c3.x * v.w,
   m.c0.y * v.x + m.c1.y * v.y + m.c2.y * v.z + m.c3.y * v.w,
   m.c0.z * v.x + m.c1.z * v.y + m.c2.z * v.z + m.c3.z * v.w,
   m.c0.w * v.x + m.c1.w * v.y + m.c2.w * v.z + m.c3.w * v.w⟩

/-- The identity matrix `glm::mat4(1.0f)`. -/
def Mat4.identity : Mat4 F :=
  ⟨⟨1, 0, 0, 0⟩, ⟨0, 1, 0, 0⟩, ⟨0, 0, 1, 0⟩, ⟨0, 0, 0, 1⟩⟩

/-- The difference `a - b` of two `glm::vec3`. -/
def Vec3.sub (a b : Vec3 F) : Vec3 F := ⟨a.x - b.x, a.y - b.y, a.z - b.z⟩

/-- The product `glm::dot(a, b)`. -/
def Vec3.dot (a b : Vec3 F) : F := a.x * b.x + a.y * b.y + a.z * b.z

/-- The product `glm::cross(a, b)`. -/
def Vec3.cross (a b : Vec3 F) : Vec3 F :=
  ⟨a.y * b.z - b.y * a.z, a.z * b.x - b.z * a.x, a.x * b.y - b.x * a.y⟩

/-- The function `glm::normalize(v) = v * inversesqrt(dot(v, v))`, over a given square root. -/
def Vec3.normalize (sqrt : F → F) (v : Vec3 F) : Vec3 F :=
  ⟨v.x * (1 / sqrt (v.dot v)), v.y * (1 / sqrt (v.dot v)), v.z * (1 / sqrt (v.dot v))⟩

/-! ## Scene data (scene.h, sceneStructs.h) -/

/-- Modelled from the spec: the `specular` member of `Material` (sceneStructs.h is not
under src/): specular exponent and specular color. -/
structure Specular (F : Type) where
  exponent : F
  color : Vec3 F
deriving DecidableEq

/-- Modelled from the spec: `struct Material` (sceneStructs.h is not under src/): base
color, specular color and exponent, reflectivity, refractivity, index of refraction,
emittance; the field names are the ones `loadMaterial` assigns. -/
structure Material (F : Type) where
  color : Vec3 F
  specular : Specular F
  hasReflective : F
  hasRefractive : F
  indexOfRefraction : F
  emittance : F
deriving DecidableEq

/-- Modelled from the spec: `enum GeomType` (sceneStructs.h is not under src/): the three
shape kinds the code names, and every other value the enum object can hold. -/
inductive GeomType where
  | SPHERE
  | CUBE
  | TRIANGLE
  | OTHER (tag : Nat)
deriving DecidableEq

/-- Modelled from the spec: the `triangle` member of `Geom` (sceneStructs.h is not under
src/): exactly 3 vertices and 3 normals, `vertices[0..2]` and `normals[0..2]`. -/
structure Triangle (F : Type) where
  vertices : Fin 3 → Vec3 F
  normals : Fin 3 → Vec3 F

/-- Modelled from the spec: `struct Geom` (sceneStructs.h is not under src/): shape kind,
material id, translation / rotation / scale, the world transform with its inverse and
inverse-transpose, and the triangle payload. -/
structure Geom (F : Type) where
  type : GeomType
  materialid : Int
  translation : Vec3 F
  rotation : Vec3 F
  scale : Vec3 F
  transform : Mat4 F
  inverseTransform : Mat4 F
  invTranspose : Mat4 F
  triangle : Triangle F

/-- Modelled from the spec: `struct Camera` (sceneStructs.h is not under src/); the field
names are the ones `loadCamera` assigns. -/
structure Camera (F : Type) where
  resolution : Vec2 Int
  position : Vec3 F
  lookAt : Vec3 F
  view : Vec3 F
  up : Vec3 F
  right : Vec3 F
  fov : Vec2 F
  pixelLength : Vec2 F
  focalDistance : F
  lensRadius : F

/-- Modelled from the spec: `struct RenderState` (sceneStructs.h is not under src/): the
camera, iteration count, trace depth, the pixel accumulation buffer and the image name. -/
structure RenderState (F : Type) where
  camera : Camera F
  iterations : Int
  traceDepth : Int
  image : List (Vec3 F)
  imageName : String

/-- A `float` that may also be one of the two infinities
`std::numeric_limits<float>::infinity()` and its negation. -/
inductive Ext (F : Type) where
  | negInf
  | fin (v : F)
  | posInf
deriving DecidableEq

/-- Modelled from the spec: the type of `Scene::boundary` (scene.h is not under src/):
an axis-aligned box given by its min and max corner. -/
structure BoundingBox (F : Type) where
  min_xyz : Vec3 (Ext F)
  max_xyz : Vec3 (Ext F)
deriving DecidableEq

/-- The input stream `fp_in`: the lines not yet read, and the result of `good()`. -/
structure IStream where
  lines : List String
  good : Bool
deriving DecidableEq

/-- Modelled from the spec: the mesh importer `ObjLoader` (model_loader.hpp is not under
src/): readiness flag, shape count, per-shape face count, per-(shape, face) vertex count,
and per-(shape, flattened vertex index) position and normal accessors. -/
structure ObjLoader (F : Type) where
  isReady : Bool
  numShapes : Nat
  numFaces : Nat → Nat
  numVertices : Nat → Nat → Nat
  getVertexPos : Nat → Nat → Vec3 F
  getNormalVec : Nat → Nat → Vec3 F

/-- What `scene.cpp` takes from outside: helpers of `utilityCore`, libc, glm and the mesh
importer, and the values that default-initialised objects start with. -/
structure Env (F : Type) where
  /-- `utilityCore::tokenizeString` -/
  tokenizeString : String → List String
  /-- libc `atoi` -/
  atoi : String → Int
  /-- `atoi` returns a 32-bit `int` -/
  atoi_int : ∀ s, -2 ^ 31 ≤ atoi s ∧ atoi s < 2 ^ 31
  /-- libc `atof`, converted to `float` -/
  atof : String → F
  /-- `utilityCore::buildTransformationMatrix(translation, rotation, scale)` -/
  buildTransformationMatrix : Vec3 F → Vec3 F → Vec3 F → Mat4 F
  /-- `glm::inverse` -/
  inverse : Mat4 F → Mat4 F
  /-- `glm::inverseTranspose` -/
  inverseTranspose : Mat4 F → Mat4 F
  /-- `ObjLoader loader(file_path, material_path)` -/
  objLoader : String → String → ObjLoader F
  /-- `tan` -/
  tan : F → F
  /-- `atan` -/
  atan : F → F
  /-- `sqrt`, inside `glm::normalize` -/
  sqrt : F → F
  /-- the constant `PI` -/
  PI : F
  /-- the object `Material newMaterial;` before any assignment -/
  newMaterial : Material F
  /-- the object `Geom newGeom;` before any assignment -/
  newGeom : Geom F
  /-- the object `Geom geom_triangle;` before any assignment -/
  geom_triangle : Geom F
  /-- the local `float fovy;` before any assignment -/
  fovy : F
  /-- the member `Scene::state` before any assignment -/
  state : RenderState F
  /-- the member `Scene::boundary` before any assignment -/
  boundary : BoundingBox F

/-- The members of `class Scene` that `scene.cpp` reads and writes. -/
structure Scene (F : Type) where
  fp_in : IStream
  materials : List (Material F)
  geoms : List (Geom F)
  state : RenderState F
  boundary : BoundingBox F

/-- Modelled from the spec: `utilityCore::safeGetline` (utilities.cpp is not under src/):
hands out the next line of the stream; at the end of the stream the line is empty and
the stream stops being `good`. -/
def safeGetline (fp_in : IStream) : IStream × String :=
  match fp_in.lines with
  | [] => ({ fp_in with good := false }, "")
  | line :: rest => ({ fp_in with lines := rest }, line)

/-- The access `tokens[i]` of a `std::vector<string>`. -/
def tokenAt (tokens : List String) (i : Nat) : Except Err String :=
  match tokens.get? i with
  | some t => .ok t
  | none => .error .vectorIndex

/-! ## Scene::loadMaterial -/

/-- The body of the `for` loop of `loadMaterial` after tokenizing: one property line. -/
def materialProperty (env : Env F) (tokens : List String) (newMaterial : Material F) :
    Except Err (Material F) := do
  let key ← tokenAt tokens 0
  if key = "RGB" then
    let r ← tokenAt tokens 1
    let g ← tokenAt tokens 2
    let b ← tokenAt tokens 3
    pure { newMaterial with color := ⟨env.atof r, env.atof g, env.atof b⟩ }
  else if key = "SPECEX" then
    let e ← tokenAt tokens 1
    pure { newMaterial with specular := { newMaterial.specular with exponent := env.atof e } }
  else if key = "SPECRGB" then
    let r ← tokenAt tokens 1
    let g ← tokenAt tokens 2
    let b ← tokenAt tokens 3
    pure { newMaterial with
      specular := { newMaterial.specular with color := ⟨env.atof r, env.atof g, env.atof b⟩ } }
  else if key = "REFL" then
    let v ← tokenAt tokens 1
    pure { newMaterial with hasReflective := env.atof v }
  else if key = "REFR" then
    let v ← tokenAt tokens 1
    pure { newMaterial with hasRefractive := env.atof v }
  else if key = "REFRIOR" then
    let v ← tokenAt tokens 1
    pure { newMaterial with indexOfRefraction := env.atof v }
  else if key = "EMITTANCE" then
    let v ← tokenAt tokens 1
    pure { newMaterial with emittance := env.atof v }
  else
    pure newMaterial

/-- The loop `for (int i = 0; i < 7; i++)` of `loadMaterial`, with `n` rounds to go. -/
def materialLoop (env : Env F) : Nat → IStream → Material F → Except Err (IStream × Material F)
  | 0, fp_in, newMaterial => pure (fp_in, newMaterial)
  | n + 1, fp_in, newMaterial => do
    let (fp_in, line) := safeGetline fp_in
    let newMaterial ← materialProperty env (env.tokenizeString line) newMaterial
    materialLoop env n fp_in newMaterial

/-- The function `Scene::loadMaterial`: the scene afterwards and the returned `int`. The
comparison `id != materials.size()` converts the `int` to the 64-bit `size_t`. -/
def loadMaterial (env : Env F) (materialid : String) (sc : Scene F) :
    Except Err (Scene F × Int) :=
  let id := env.atoi materialid
  if id % 2 ^ 64 ≠ (sc.materials.length : Int) then
    pure (sc, -1)
  else do
    let (fp_in, newMaterial) ← materialLoop env 7 sc.fp_in env.newMaterial
    pure ({ sc with fp_in := fp_in, materials := sc.materials ++ [newMaterial] }, 1)

/-! ## Scene::loadObjMesh -/

/-- The loop `for (int vert_id = 0; vert_id < 3; ++vert_id)` of `loadObjMesh`: every
round declares a new `Geom geom_triangle`, sets its type and the one vertex and normal
`vert_id`, and pushes it to `mesh`. -/
def vertexLoop (env : Env F) (loader : ObjLoader F) (shape_id idx_offset : Nat)
    (mesh : List (Geom F)) : List (Geom F) :=
  (List.finRange 3).foldl (fun mesh vert_id =>
    let geom_triangle := env.geom_triangle
    let geom_triangle := { geom_triangle with type := GeomType.TRIANGLE }
    let geom_triangle := { geom_triangle with
      triangle := { geom_triangle.triangle with
        vertices := Function.update geom_triangle.triangle.vertices vert_id
          (loader.getVertexPos shape_id (idx_offset + vert_id.val)) } }
    let geom_triangle := { geom_triangle with
      triangle := { geom_triangle.triangle with
        normals := Function.update geom_triangle.triangle.normals vert_id
          (loader.getNormalVec shape_id (idx_offset + vert_id.val)) } }
    mesh ++ [geom_triangle]) mesh

/-- One round of the loop over `face_id` of `loadObjMesh`, on the pair
`(mesh, idx_offset)`; a face that is not a triangle takes the `continue`. -/
def faceStep (env : Env F) (loader : ObjLoader F) (shape_id : Nat)
    (st : List (Geom F) × Nat) (face_id : Nat) : List (Geom F) × Nat :=
  let num_vertices := loader.numVertices shape_id face_id
  if num_vertices ≠ 3 then
    st
  else
    (vertexLoop env loader shape_id st.2 st.1, st.2 + num_vertices)

/-- One round of the loop over `shape_id` of `loadObjMesh`: `idx_offset` starts at 0. -/
def shapeStep (env : Env F) (loader : ObjLoader F) (mesh : List (Geom F)) (shape_id : Nat) :
    List (Geom F) :=
  ((List.range (loader.numFaces shape_id)).foldl (faceStep env loader shape_id) (mesh, 0)).1

/-- The function `Scene::loadObjMesh`. -/
def loadObjMesh (env : Env F) (file_path material_path : String) : List (Geom F) :=
  let mesh : List (Geom F) := []
  let loader := env.objLoader file_path material_path
  if !loader.isReady then
    mesh
  else
    (List.range loader.numShapes).foldl (shapeStep env loader) mesh

/-! ## Scene::loadGeom -/

/-- The object-type line of `loadGeom` after tokenizing: `(mesh, is_objMesh, newGeom)`. -/
def geomTypeLine (env : Env F) (tokens : List String) (newGeom : Geom F) :
    Except Err (List (Geom F) × Bool × Geom F) := do
  let key ← tokenAt tokens 0
  if key = "sphere" then
    pure ([], false, { newGeom with type := GeomType.SPHERE })
  else if key = "cube" then
    pure ([], false, { newGeom with type := GeomType.CUBE })
  else if key = "mesh_obj" then
    let file_path ← tokenAt tokens 1
    let material_path ← tokenAt tokens 2
    pure (loadObjMesh env file_path material_path, true, newGeom)
  else
    pure ([], false, newGeom)

/-- The body of the transformation loop of `loadGeom` after tokenizing: one line. -/
def transformLine (env : Env F) (tokens : List String) (newGeom : Geom F) :
    Except Err (Geom F) := do
  let key ← tokenAt tokens 0
  if key = "TRANS" then
    let a ← tokenAt tokens 1
    let b ← tokenAt tokens 2
    let c ← tokenAt tokens 3
    pure { newGeom with translation := ⟨env.atof a, env.atof b, env.atof c⟩ }
  else if key = "ROTAT" then
    let a ← tokenAt tokens 1
    let b ← tokenAt tokens 2
    let c ← tokenAt tokens 3
    pure { newGeom with rotation := ⟨env.atof a, env.atof b, env.atof c⟩ }
  else if key = "SCALE" then
    let a ← tokenAt tokens 1
    let b ← tokenAt tokens 2
    let c ← tokenAt tokens 3
    pure { newGeom with scale := ⟨env.atof a, env.atof b, env.atof c⟩ }
  else
    pure newGeom

/-- The loop `while (!line.empty() && fp_in.good())` of `loadGeom`, entered with the line
read last; `fuel` bounds the number of rounds. -/
def transformLoop (env : Env F) : Nat → IStream → String → Geom F →
    Except Err (IStream × Geom F)
  | 0, _, _, _ => .error .outOfFuel
  | fuel + 1, fp_in, line, newGeom =>
    if line ≠ "" ∧ fp_in.good = true then do
      let newGeom ← transformLine env (env.tokenizeString line) newGeom
      let (fp_in, line) := safeGetline fp_in
      transformLoop env fuel fp_in line newGeom
    else
      pure (fp_in, newGeom)

/-- The body of the loop `for (auto &geom_triangle : mesh)` of `loadGeom`: the triangle as
it is pushed to `geoms`. -/
def bakeTriangle (env : Env F) (newGeom geom_triangle : Geom F) : Geom F :=
  let geom_triangle := { geom_triangle with
    materialid := newGeom.materialid
    translation := newGeom.translation
    rotation := newGeom.rotation
    scale := newGeom.scale
    transform :=
      env.buildTransformationMatrix newGeom.translation newGeom.rotation newGeom.scale }
  let geom_triangle := { geom_triangle with
    inverseTransform := env.inverse geom_triangle.transform }
  let geom_triangle := { geom_triangle with
    invTranspose := env.inverseTranspose geom_triangle.transform }
  { geom_triangle with
    triangle :=
      { vertices := fun i =>
          (geom_triangle.transform.mulVec
            (Vec4.ofVec3 (geom_triangle.triangle.vertices i) 1)).toVec3
        normals := fun i =>
          (geom_triangle.invTranspose.mulVec
            (Vec4.ofVec3 (geom_triangle.triangle.normals i) 0)).toVec3 } }

/-- The function `Scene::loadGeom`: the scene afterwards and the returned `int`. -/
def loadGeom (env : Env F) (objectid : String) (sc : Scene F) : Except Err (Scene F × Int) := do
  let _id := env.atoi objectid
  let newGeom := env.newGeom
  -- load object type
  let (fp_in, line) := safeGetline sc.fp_in
  let (mesh, is_objMesh, newGeom) ←
    if line ≠ "" ∧ fp_in.good = true then
      geomTypeLine env (env.tokenizeString line) newGeom
    else
      pure ([], false, newGeom)
  -- link material
  let (fp_in, line) := safeGetline fp_in
  let newGeom ←
    if line ≠ "" ∧ fp_in.good = true then do
      let m ← tokenAt (env.tokenizeString line) 1
      pure { newGeom with materialid := env.atoi m }
    else
      pure newGeom
  -- load transformations
  let (fp_in, line) := safeGetline fp_in
  let (fp_in, newGeom) ← transformLoop env (fp_in.lines.length + 2) fp_in line newGeom
  if is_objMesh then
    pure ({ sc with fp_in := fp_in, geoms := sc.geoms ++ mesh.map (bakeTriangle env newGeom) }, 1)
  else
    let newGeom := { newGeom with
      transform :=
        env.buildTransformationMatrix newGeom.translation newGeom.rotation newGeom.scale }
    let newGeom := { newGeom with inverseTransform := env.inverse newGeom.transform }
    let newGeom := { newGeom with invTranspose := env.inverseTranspose newGeom.transform }
    pure ({ sc with fp_in := fp_in, geoms := sc.geoms ++ [newGeom] }, 1)

/-! ## Scene::loadCamera -/

/-- The body of the static-property loop of `loadCamera` after tokenizing: one line, on
the render state and the local `fovy`. -/
def cameraStaticLine (env : Env F) (tokens : List String) (st : RenderState F × F) :
    Except Err (RenderState F × F) := do
  let state := st.1
  let fovy := st.2
  let key ← tokenAt tokens 0
  if key = "RES" then
    let a ← tokenAt tokens 1
    let b ← tokenAt tokens 2
    pure ({ state with camera := { state.camera with
      resolution := ⟨env.atoi a, env.atoi b⟩ } }, fovy)
  else if key = "FOVY" then
    let a ← tokenAt tokens 1
    pure (state, env.atof a)
  else if key = "ITERATIONS" then
    let a ← tokenAt tokens 1
    pure ({ state with iterations := env.atoi a }, fovy)
  else if key = "DEPTH" then
    let a ← tokenAt tokens 1
    pure ({ state with traceDepth := env.atoi a }, fovy)
  else if key = "FILE" then
    let a ← tokenAt tokens 1
    pure ({ state with imageName := a }, fovy)
  else if key = "FOCALDIST" then
    let a ← tokenAt tokens 1
    pure ({ state with camera := { state.camera with focalDistance := env.atof a } }, fovy)
  else if key = "LENRADIUS" then
    let a ← tokenAt tokens 1
    pure ({ state with camera := { state.camera with lensRadius := env.atof a } }, fovy)
  else
    pure (state, fovy)

/-- The loop `for (int i = 0; i < num_static_prop; i++)` of `loadCamera`, with `n` rounds
to go. -/
def cameraStaticLoop (env : Env F) : Nat → IStream → RenderState F × F →
    Except Err (IStream × (RenderState F × F))
  | 0, fp_in, st => pure (fp_in, st)
  | n + 1, fp_in, st => do
    let (fp_in, line) := safeGetline fp_in
    let st ← cameraStaticLine env (env.tokenizeString line) st
    cameraStaticLoop env n fp_in st

/-- The body of the `EYE` / `LOOKAT` / `UP` loop of `loadCamera` after tokenizing. -/
def cameraVectorLine (env : Env F) (tokens : List String) (camera : Camera F) :
    Except Err (Camera F) := do
  let key ← tokenAt tokens 0
  if key = "EYE" then
    let a ← tokenAt tokens 1
    let b ← tokenAt tokens 2
    let c ← tokenAt tokens 3
    pure { camera with position := ⟨env.atof a, env.atof b, env.atof c⟩ }
  else if key = "LOOKAT" then
    let a ← tokenAt tokens 1
    let b ← tokenAt tokens 2
    let c ← tokenAt tokens 3
    pure { camera with lookAt := ⟨env.atof a, env.atof b, env.atof c⟩ }
  else if key = "UP" then
    let a ← tokenAt tokens 1
    let b ← tokenAt tokens 2
    let c ← tokenAt tokens 3
    pure { camera with up := ⟨env.atof a, env.atof b, env.atof c⟩ }
  else
    pure camera

/-- The loop `while (!line.empty() && fp_in.good())` of `loadCamera`, entered with the
line read last; `fuel` bounds the number of rounds. -/
def cameraVectorLoop (env : Env F) : Nat → IStream → String → Camera F →
    Except Err (IStream × Camera F)
  | 0, _, _, _ => .error .outOfFuel
  | fuel + 1, fp_in, line, camera =>
    if line ≠ "" ∧ fp_in.good = true then do
      let camera ← cameraVectorLine env (env.tokenizeString line) camera
      let (fp_in, line) := safeGetline fp_in
      cameraVectorLoop env fuel fp_in line camera
    else
      pure (fp_in, camera)

/-- The number of static camera properties: `DEPTH_OF_FIELD` is commented out in
static_config.h, so the `#else` branch is compiled. -/
def num_static_prop : Nat := 5

/-- The call `image.resize(arraylen)` followed by `std::fill(.., glm::vec3())`. -/
def resizeAndFill (image : List (Vec3 F)) (arraylen : Nat) : List (Vec3 F) :=
  ((image.take arraylen) ++ List.replicate (arraylen - image.length) Vec3.zero).map
    (fun _ => Vec3.zero)

/-- The tail of `loadCamera` after both loops: field of view, `right`, `pixelLength`,
`view`, in the order of the source, on the camera and the local `fovy`. -/
def cameraDerive (env : Env F) (camera : Camera F) (fovy : F) : Camera F :=
  -- calculate fov based on resolution
  let yscaled := env.tan (fovy * (env.PI / 180))
  let xscaled := (yscaled * (camera.resolution.x : F)) / (camera.resolution.y : F)
  let fovx := (env.atan xscaled * 180) / env.PI
  let camera := { camera with fov := ⟨fovx, fovy⟩ }
  let camera := { camera with right := (camera.view.cross camera.up).normalize env.sqrt }
  let camera := { camera with
    pixelLength := ⟨2 * xscaled / (camera.resolution.x : F),
                    2 * yscaled / (camera.resolution.y : F)⟩ }
  { camera with view := (camera.lookAt.sub camera.position).normalize env.sqrt }

/-- The function `Scene::loadCamera`: the scene afterwards and the returned `int`. -/
def loadCamera (env : Env F) (sc : Scene F) : Except Err (Scene F × Int) := do
  let state := sc.state
  let fovy := env.fovy
  -- load static properties
  let (fp_in, (state, fovy)) ← cameraStaticLoop env num_static_prop sc.fp_in (state, fovy)
  let (fp_in, line) := safeGetline fp_in
  let (fp_in, camera) ←
    cameraVectorLoop env (fp_in.lines.length + 2) fp_in line state.camera
  let camera := cameraDerive env camera fovy
  -- set up render camera stuff
  let arraylen := camera.resolution.x * camera.resolution.y
  if arraylen < -2 ^ 31 ∨ 2 ^ 31 ≤ arraylen then
    .error .intOverflow
  else if arraylen < 0 then
    .error .lengthError
  else
    let state := { state with
      camera := camera, image := resizeAndFill state.image arraylen.toNat }
    pure ({ sc with fp_in := fp_in, state := state }, 1)

/-! ## Scene::Scene -/

/-- The loop `while (fp_in.good())` of the constructor; `fuel` bounds the rounds. -/
def sceneLoop (env : Env F) : Nat → Scene F → Except Err (Scene F)
  | 0, _ => .error .outOfFuel
  | fuel + 1, sc =>
    if sc.fp_in.good = true then
      let (fp_in, line) := safeGetline sc.fp_in
      let sc := { sc with fp_in := fp_in }
      if line ≠ "" then do
        let tokens := env.tokenizeString line
        let key ← tokenAt tokens 0
        if key = "MATERIAL" then
          let materialid ← tokenAt tokens 1
          let (sc, _) ← loadMaterial env materialid sc
          sceneLoop env fuel sc
        else if key = "OBJECT" then
          let objectid ← tokenAt tokens 1
          let (sc, _) ← loadGeom env objectid sc
          sceneLoop env fuel sc
        else if key = "CAMERA" then
          let (sc, _) ← loadCamera env sc
          sceneLoop env fuel sc
        else
          sceneLoop env fuel sc
      else
        sceneLoop env fuel sc
    else
      pure sc

/-- The comparison `a < b` of two floats that may be infinite. -/
def Ext.lt : Ext F → Ext F → Bool
  | .negInf, .negInf => false
  | .negInf, _ => true
  | .fin _, .negInf => false
  | .fin a, .fin b => decide (a < b)
  | .fin _, .posInf => true
  | .posInf, _ => false

/-- The function `std::min(a, b)`: `b` when `b < a`, else `a`. -/
def Ext.min (a b : Ext F) : Ext F := if Ext.lt b a then b else a

/-- The function `std::max(a, b)`: `b` when `a < b`, else `a`. -/
def Ext.max (a b : Ext F) : Ext F := if Ext.lt a b then b else a

/-- The six running extremes `x_min, x_max, y_min, y_max, z_min, z_max` of the bounding
computation (the per-geometry ones and the `scene_` ones alike). -/
structure Extremes (F : Type) where
  x_min : Ext F
  x_max : Ext F
  y_min : Ext F
  y_max : Ext F
  z_min : Ext F
  z_max : Ext F
deriving DecidableEq

/-- The initial values: `+infinity` for every minimum, `-infinity` for every maximum. -/
def Extremes.init : Extremes F :=
  ⟨.posInf, .negInf, .posInf, .negInf, .posInf, .negInf⟩

/-- The six `std::min` / `std::max` updates of the cube and sphere loops with one
transformed point. -/
def Extremes.addPoint (e : Extremes F) (p : Vec3 F) : Extremes F :=
  { x_min := Ext.min e.x_min (.fin p.x)
    x_max := Ext.max e.x_max (.fin p.x)
    y_min := Ext.min e.y_min (.fin p.y)
    y_max := Ext.max e.y_max (.fin p.y)
    z_min := Ext.min e.z_min (.fin p.z)
    z_max := Ext.max e.z_max (.fin p.z) }

/-- The call `*std::min_element` on a vector of three floats: the first smallest. -/
def minElement3 (a b c : F) : F :=
  let smallest := a
  let smallest := if b < smallest then b else smallest
  if c < smallest then c else smallest

/-- The call `*std::max_element` on a vector of three floats: the first largest. -/
def maxElement3 (a b c : F) : F :=
  let largest := a
  let largest := if largest < b then b else largest
  if largest < c then c else largest

/-- The corners `box_vertices` of the unit cube. -/
def box_vertices : List (Vec3 F) :=
  [⟨-0.5, -0.5, -0.5⟩, ⟨-0.5, -0.5, 0.5⟩, ⟨-0.5, 0.5, -0.5⟩, ⟨-0.5, 0.5, 0.5⟩,
   ⟨0.5, -0.5, -0.5⟩, ⟨0.5, -0.5, 0.5⟩, ⟨0.5, 0.5, -0.5⟩, ⟨0.5, 0.5, 0.5⟩]

/-- The points `sphere_endpoints` of the sphere of radius 0.5 on the principal axes. -/
def sphere_endpoints : List (Vec3 F) :=
  [⟨0.5, 0, 0⟩, ⟨-0.5, 0, 0⟩, ⟨0, 0.5, 0⟩, ⟨0, -0.5, 0⟩, ⟨0, 0, 0.5⟩, ⟨0, 0, -0.5⟩]

/-- The body of the loop `for (const auto &geom : geoms)` up to the scene update: the
six extremes of one geometry. -/
def geomExtremes (geom : Geom F) : Extremes F :=
  match geom.type with
  | .TRIANGLE =>
    -- triangles have already been transformed in world coordinates
    let v := geom.triangle.vertices
    { x_min := .fin (minElement3 (v 0).x (v 1).x (v 2).x)
      y_min := .fin (minElement3 (v 0).y (v 1).y (v 2).y)
      z_min := .fin (minElement3 (v 0).z (v 1).z (v 2).z)
      x_max := .fin (maxElement3 (v 0).x (v 1).x (v 2).x)
      y_max := .fin (maxElement3 (v 0).y (v 1).y (v 2).y)
      z_max := .fin (maxElement3 (v 0).z (v 1).z (v 2).z) }
  | .CUBE =>
    box_vertices.foldl (fun e vertex =>
      e.addPoint (geom.transform.mulVec (Vec4.ofVec3 vertex 1)).toVec3) Extremes.init
  | .SPHERE =>
    sphere_endpoints.foldl (fun e endpoint =>
      e.addPoint (geom.transform.mulVec (Vec4.ofVec3 endpoint 1)).toVec3) Extremes.init
  | .OTHER _ =>
    -- unknown geom type
    ⟨.fin 0, .fin 0, .fin 0, .fin 0, .fin 0, .fin 0⟩

/-- The six updates of the `scene_` extremes with the extremes of one geometry. -/
def sceneStep (scene : Extremes F) (geom : Geom F) : Extremes F :=
  let e := geomExtremes geom
  { x_min := Ext.min scene.x_min e.x_min
    x_max := Ext.max scene.x_max e.x_max
    y_min := Ext.min scene.y_min e.y_min
    y_max := Ext.max scene.y_max e.y_max
    z_min := Ext.min scene.z_min e.z_min
    z_max := Ext.max scene.z_max e.z_max }

/-- The block `if (!geoms.empty()) { ... }` that ends the constructor: the boundary is
assigned only when there is a geometry. -/
def computeBoundary (sc : Scene F) : Scene F :=
  if !sc.geoms.isEmpty then
    let scene := sc.geoms.foldl sceneStep Extremes.init
    { sc with boundary :=
        { min_xyz := ⟨scene.x_min, scene.y_min, scene.z_min⟩
          max_xyz := ⟨scene.x_max, scene.y_max, scene.z_max⟩ } }
  else
    sc

/-- The members of a `Scene` object when the body of the constructor starts, `fp_in`
opened on the lines of the file. -/
def Scene.start (env : Env F) (lines : List String) : Scene F :=
  { fp_in := ⟨lines, true⟩, materials := [], geoms := [],
    state := env.state, boundary := env.boundary }

/-- The constructor `Scene::Scene(filename)`; `file` is the content of the named file as
a list of lines, `none` when the file cannot be opened. -/
def Scene.Scene (env : Env F) (file : Option (List String)) : Except Err (Scene F) :=
  match file with
  | none => .error .notOpen
  | some lines => do
    let sc ← sceneLoop env (lines.length + 2) (Scene.start env lines)
    pure (computeBoundary sc)

end Model

/-! ## Scene files made of MATERIAL blocks -/

section Blocks

variable {F : Type}

/-- A MATERIAL block of a scene file: the header line, the property lines, and the
number of blank lines that follow the block. -/
structure MaterialBlock where
  header : String
  props : List String
  blanks : Nat

/-- The lines of a block in file order. -/
def MaterialBlock.lines (b : MaterialBlock) : List String :=
  b.header :: (b.props ++ List.replicate b.blanks "")

/-- The number of value tokens a MATERIAL property key needs (scene file grammar). -/
def materialArity (key : String) : Nat :=
  if key = "RGB" ∨ key = "SPECRGB" then 3
  else if key = "SPECEX" ∨ key = "REFL" ∨ key = "REFR" ∨ key = "REFRIOR" ∨ key = "EMITTANCE"
  then 1
  else 0

/-- A well-formed property line: a key followed by at least the values the key needs. -/
def wellFormedProperty (env : Env F) (line : String) : Bool :=
  match env.tokenizeString line with
  | [] => false
  | key :: args => decide (materialArity key ≤ args.length)

/-- A well-formed MATERIAL block declared with id `id`: the header is `MATERIAL id`,
followed by 7 well-formed property lines. -/
def MaterialBlock.wellFormed (env : Env F) (b : MaterialBlock) (id : Nat) : Bool :=
  decide (b.header ≠ "") &&
  (match env.tokenizeString b.header with
   | key :: idtok :: _ => decide (key = "MATERIAL") && decide (env.atoi idtok = (id : Int))
   | _ => false) &&
  decide (b.props.length = 7) &&
  b.props.all (wellFormedProperty env)

/-- Well-formed blocks whose ids are `start, start + 1, ...` in that order. -/
def wellFormedBlocks (env : Env F) : Nat → List MaterialBlock → Bool
  | _, [] => true
  | start, b :: bs => b.wellFormed env start && wellFormedBlocks env (start + 1) bs

/-- The value tokens of the last line among `props` whose key is `key`. -/
def lastProperty (env : Env F) (key : String) : List String → Option (List String)
  | [] => none
  | p :: ps =>
    match lastProperty env key ps with
    | some args => some args
    | none =>
      match env.tokenizeString p with
      | k :: args => if k = key then some args else none
      | [] => none

/-- The vector a property line states, `dflt` when there is no such line. -/
def vec3Of (env : Env F) (dflt : Vec3 F) : Option (List String) → Vec3 F
  | some (a :: b :: c :: _) => ⟨env.atof a, env.atof b, env.atof c⟩
  | _ => dflt

/-- The scalar a property line states, `dflt` when there is no such line. -/
def scalarOf (env : Env F) (dflt : F) : Option (List String) → F
  | some (a :: _) => env.atof a
  | _ => dflt

/-- The property values of a MATERIAL block, read off its lines key by key: every field
holds the values of the last line with its key, and the value of a fresh `Material`
when the block has no such line. -/
def blockMaterial (env : Env F) (props : List String) : Material F :=
  { color := vec3Of env env.newMaterial.color (lastProperty env "RGB" props)
    specular :=
      { exponent := scalarOf env env.newMaterial.specular.exponent
          (lastProperty env "SPECEX" props)
        color := vec3Of env env.newMaterial.specular.color (lastProperty env "SPECRGB" props) }
    hasReflective := scalarOf env env.newMaterial.hasReflective (lastProperty env "REFL" props)
    hasRefractive := scalarOf env env.newMaterial.hasRefractive (lastProperty env "REFR" props)
    indexOfRefraction :=
      scalarOf env env.newMaterial.indexOfRefraction (lastProperty env "REFRIOR" props)
    emittance := scalarOf env env.newMaterial.emittance (lastProperty env "EMITTANCE" props) }

/-- The keys of the MATERIAL property lines (scene file grammar). -/
def materialKeys : List String :=
  ["RGB", "SPECEX", "SPECRGB", "REFL", "REFR", "REFRIOR", "EMITTANCE"]

/-- A well-formed MATERIAL property line with a key among `materialKeys`. -/
def materialPropertyLine (env : Env F) (line : String) : Bool :=
  match env.tokenizeString line with
  | [] => false
  | key :: args => decide (key ∈ materialKeys) && decide (materialArity key ≤ args.length)

/-- The rounds of the top-level loop that read a list of MATERIAL blocks: one for each
block and one for each blank line after it. -/
def blockRounds : List MaterialBlock → Nat
  | [] => 0
  | b :: bs => (1 + b.blanks) + blockRounds bs

/-! ## Scene files: OBJECT blocks -/

/-- The number of value tokens a transformation key needs (scene file grammar). -/
def transformArity (key : String) : Nat :=
  if key = "TRANS" ∨ key = "ROTAT" ∨ key = "SCALE" then 3 else 0

/-- A well-formed transformation line: not empty, a key followed by at least the values
the key needs. -/
def wellFormedTransform (env : Env F) (line : String) : Bool :=
  decide (line ≠ "") &&
  (match env.tokenizeString line with
   | [] => false
   | key :: args => decide (transformArity key ≤ args.length))

/-- The translation, rotation and scale an OBJECT block states, read off its lines key
by key (the last line with a key wins, a key with no line leaves the field of `g`). -/
def blockGeom (env : Env F) (g : Geom F) (trans : List String) : Geom F :=
  { g with
    translation := vec3Of env g.translation (lastProperty env "TRANS" trans)
    rotation := vec3Of env g.rotation (lastProperty env "ROTAT" trans)
    scale := vec3Of env g.scale (lastProperty env "SCALE" trans) }

/-- The composed world transform of an OBJECT block with the transformation lines
`trans`. -/
def blockTransform (env : Env F) (trans : List String) : Mat4 F :=
  env.buildTransformationMatrix
    (vec3Of env env.newGeom.translation (lastProperty env "TRANS" trans))
    (vec3Of env env.newGeom.rotation (lastProperty env "ROTAT" trans))
    (vec3Of env env.newGeom.scale (lastProperty env "SCALE" trans))

/-- The stream after a block that ends at the lines `rest`: the blank line that ends the
block is consumed, and at the end of the file the stream is no longer good. -/
def afterBlock (rest : List String) : IStream :=
  match rest with
  | [] => ⟨[], false⟩
  | _ :: r => ⟨r, true⟩

/-! ## Scene files: CAMERA blocks -/

/-- The number of value tokens a static camera property key needs (scene file grammar). -/
def staticArity (key : String) : Nat :=
  if key = "RES" then 2
  else if key = "FOVY" ∨ key = "ITERATIONS" ∨ key = "DEPTH" ∨ key = "FILE" ∨
    key = "FOCALDIST" ∨ key = "LENRADIUS" then 1
  else 0

/-- A well-formed static camera line: a key followed by at least the values it needs. -/
def wellFormedStatic (env : Env F) (line : String) : Bool :=
  match env.tokenizeString line with
  | [] => false
  | key :: args => decide (staticArity key ≤ args.length)

/-- The number of value tokens a camera vector key needs (scene file grammar). -/
def vectorArity (key : String) : Nat :=
  if key = "EYE" ∨ key = "LOOKAT" ∨ key = "UP" then 3 else 0

/-- A well-formed camera vector line: not empty, a key followed by at least the values
the key needs. -/
def wellFormedVector (env : Env F) (line : String) : Bool :=
  decide (line ≠ "") &&
  (match env.tokenizeString line with
   | [] => false
   | key :: args => decide (vectorArity key ≤ args.length))

/-- The integer a property line states, `dflt` when there is no such line. -/
def intOf (env : Env F) (dflt : Int) : Option (List String) → Int
  | some (a :: _) => env.atoi a
  | _ => dflt

/-- The resolution a `RES` line states, `dflt` when there is no such line. -/
def resolutionOf (env : Env F) (dflt : Vec2 Int) : Option (List String) → Vec2 Int
  | some (a :: b :: _) => ⟨env.atoi a, env.atoi b⟩
  | _ => dflt

/-- The name a `FILE` line states, `dflt` when there is no such line. -/
def nameOf (dflt : String) : Option (List String) → String
  | some (a :: _) => a
  | _ => dflt

/-- The render state and the local `fovy` after the static lines of a CAMERA block, read
off the lines key by key (the last line with a key wins, a key with no line leaves the
value that was there). -/
def blockStatic (env : Env F) (st : RenderState F × F) (statics : List String) :
    RenderState F × F :=
  ({ st.1 with
      camera := { st.1.camera with
        resolution := resolutionOf env st.1.camera.resolution (lastProperty env "RES" statics)
        focalDistance :=
          scalarOf env st.1.camera.focalDistance (lastProperty env "FOCALDIST" statics)
        lensRadius := scalarOf env st.1.camera.lensRadius (lastProperty env "LENRADIUS" statics) }
      iterations := intOf env st.1.iterations (lastProperty env "ITERATIONS" statics)
      traceDepth := intOf env st.1.traceDepth (lastProperty env "DEPTH" statics)
      imageName := nameOf st.1.imageName (lastProperty env "FILE" statics) },
   scalarOf env st.2 (lastProperty env "FOVY" statics))

/-- The camera after the `EYE` / `LOOKAT` / `UP` lines of a CAMERA block, read off the
lines key by key. -/
def blockCamera (env : Env F) (camera : Camera F) (vectors : List String) : Camera F :=
  { camera with
    position := vec3Of env camera.position (lastProperty env "EYE" vectors)
    lookAt := vec3Of env camera.lookAt (lastProperty env "LOOKAT" vectors)
    up := vec3Of env camera.up (lastProperty env "UP" vectors) }

/-! ## Minimum and maximum of a list of extended floats -/

/-- The matrix `T` applied to the point `p` taken as a homogeneous point with w = 1:
the expression `glm::vec3(T * glm::vec4(p, 1.0f))`. -/
def transformPoint [LinearOrderedField F] (T : Mat4 F) (p : Vec3 F) : Vec3 F :=
  (T.mulVec (Vec4.ofVec3 p 1)).toVec3

/-- The value `m` is the minimum of the list `xs`: a member that no member is below. -/
def IsMinOf (m : Ext F) (xs : List (Ext F)) [LinearOrderedField F] : Prop :=
  m ∈ xs ∧ ∀ x ∈ xs, Ext.lt x m = false

/-- The value `m` is the maximum of the list `xs`: a member that no member is above. -/
def IsMaxOf (m : Ext F) (xs : List (Ext F)) [LinearOrderedField F] : Prop :=
  m ∈ xs ∧ ∀ x ∈ xs, Ext.lt m x = false

end Blocks

/-! ## An environment for the examples -/

section Example

variable {F : Type} [LinearOrderedField F]

/-- Splits a line at blanks; `cur` holds the characters of the token being read,
last one first. -/
def tokenizeChars : List Char → List Char → List String
  | [], cur => if cur = [] then [] else [String.mk cur.reverse]
  | c :: cs, cur =>
    if c = ' ' then
      (if cur = [] then tokenizeChars cs [] else String.mk cur.reverse :: tokenizeChars cs [])
    else
      tokenizeChars cs (c :: cur)

/-- The value of the leading decimal digits of a text, continuing from `acc`. -/
def digitsValue : List Char → Nat → Nat
  | [], acc => acc
  | c :: cs, acc => if c.isDigit then digitsValue cs (10 * acc + (c.toNat - 48)) else acc

/-- A decimal `atoi`: an optional minus sign and digits, wrapped to 32 bits. -/
def exampleAtoi (s : String) : Int :=
  let v : Int :=
    match s.data with
    | '-' :: cs => -(digitsValue cs 0 : Int)
    | cs => (digitsValue cs 0 : Int)
  (v + 2 ^ 31) % 2 ^ 32 - 2 ^ 31

/-- The digits of an unsigned decimal text as `(mantissa, number of decimals)`;
`seen` is `some k` once the point was read and `k` decimals followed it. -/
def decimalValue : List Char → Nat → Option Nat → Nat × Nat
  | [], acc, seen => (acc, seen.getD 0)
  | c :: cs, acc, seen =>
    if c.isDigit then
      decimalValue cs (10 * acc + (c.toNat - 48)) (seen.map (· + 1))
    else if c = '.' ∧ seen = none then
      decimalValue cs acc (some 0)
    else
      (acc, seen.getD 0)

/-- A decimal `atof`: an optional minus sign, digits, and an optional fraction. -/
def exampleAtof (s : String) : F :=
  match s.data with
  | '-' :: cs => -(((decimalValue cs 0 none).1 : F) / 10 ^ (decimalValue cs 0 none).2)
  | cs => ((decimalValue cs 0 none).1 : F) / 10 ^ (decimalValue cs 0 none).2

/-- The transform of an object that is not rotated: scale, then translation. -/
def unrotatedTransform (translation _rotation scale : Vec3 F) : Mat4 F :=
  ⟨⟨scale.x, 0, 0, 0⟩, ⟨0, scale.y, 0, 0⟩, ⟨0, 0, scale.z, 0⟩,
   ⟨translation.x, translation.y, translation.z, 1⟩⟩

/-- The inverse of a matrix of the form `unrotatedTransform t r s`. -/
def unrotatedInverse (m : Mat4 F) : Mat4 F :=
  ⟨⟨1 / m.c0.x, 0, 0, 0⟩, ⟨0, 1 / m.c1.y, 0, 0⟩, ⟨0, 0, 1 / m.c2.z, 0⟩,
   ⟨-(m.c3.x / m.c0.x), -(m.c3.y / m.c1.y), -(m.c3.z / m.c2.z), 1⟩⟩

/-- The transpose of a matrix. -/
def Mat4.transpose (m : Mat4 F) : Mat4 F :=
  ⟨⟨m.c0.x, m.c1.x, m.c2.x, m.c3.x⟩, ⟨m.c0.y, m.c1.y, m.c2.y, m.c3.y⟩,
   ⟨m.c0.z, m.c1.z, m.c2.z, m.c3.z⟩, ⟨m.c0.w, m.c1.w, m.c2.w, m.c3.w⟩⟩

/-- The product of two matrices: the columns of `b` mapped by `a`. -/
def Mat4.mul (a b : Mat4 F) : Mat4 F :=
  ⟨a.mulVec b.c0, a.mulVec b.c1, a.mulVec b.c2, a.mulVec b.c3⟩

/-- An importer for the examples: `triangle.obj` is one shape of one triangle,
`quad_triangle.obj` one shape of a quad followed by a triangle, any other path is not
ready; vertex `i` of shape `s` is at `(i, i + 1, s)` with normal `(0, 0, 1)`. -/
def exampleLoader (file_path _material_path : String) : ObjLoader F :=
  { isReady := file_path = "triangle.obj" ∨ file_path = "quad_triangle.obj"
    numShapes := 1
    numFaces := fun _ => if file_path = "triangle.obj" then 1 else 2
    numVertices := fun _ face_id =>
      if file_path = "triangle.obj" then 3 else if face_id = 0 then 4 else 3
    getVertexPos := fun shape_id i => ⟨(i : F), (i : F) + 1, (shape_id : F)⟩
    getNormalVec := fun _ _ => ⟨0, 0, 1⟩ }

/-- A zero-initialised `Geom`. -/
def zeroGeom : Geom F :=
  { type := .OTHER 0, materialid := 0, translation := Vec3.zero, rotation := Vec3.zero,
    scale := Vec3.zero,
    transform := ⟨⟨0, 0, 0, 0⟩, ⟨0, 0, 0, 0⟩, ⟨0, 0, 0, 0⟩, ⟨0, 0, 0, 0⟩⟩,
    inverseTransform := ⟨⟨0, 0, 0, 0⟩, ⟨0, 0, 0, 0⟩, ⟨0, 0, 0, 0⟩, ⟨0, 0, 0, 0⟩⟩,
    invTranspose := ⟨⟨0, 0, 0, 0⟩, ⟨0, 0, 0, 0⟩, ⟨0, 0, 0, 0⟩, ⟨0, 0, 0, 0⟩⟩,
    triangle := { vertices := fun _ => Vec3.zero, normals := fun _ => Vec3.zero } }

/-- A zero-initialised `RenderState`. -/
def zeroState : RenderState F :=
  { camera :=
      { resolution := ⟨0, 0⟩, position := Vec3.zero, lookAt := Vec3.zero, view := Vec3.zero,
        up := Vec3.zero, right := Vec3.zero, fov := ⟨0, 0⟩, pixelLength := ⟨0, 0⟩,
        focalDistance := 0, lensRadius := 0 },
    iterations := 0, traceDepth := 0, image := [], imageName := "" }

/-- The box with both corners at the origin. -/
def zeroBox : BoundingBox F :=
  { min_xyz := ⟨.fin 0, .fin 0, .fin 0⟩, max_xyz := ⟨.fin 0, .fin 0, .fin 0⟩ }

/-- Record `k` of the mesh `loadObjMesh` returns for `triangle.obj` in the environment of
the examples. -/
def exampleRecord (k : Fin 3) : Geom F :=
  { (zeroGeom : Geom F) with
    type := .TRIANGLE
    triangle :=
      { vertices := Function.update (fun _ => Vec3.zero) k ⟨(k.val : F), (k.val : F) + 1, 0⟩
        normals := Function.update (fun _ => Vec3.zero) k ⟨0, 0, 1⟩ } }

/-- A geometry of the given shape kind and world transform, zero elsewhere. -/
def exampleGeom (type : GeomType) (transform : Mat4 F) : Geom F :=
  { (zeroGeom : Geom F) with type := type, transform := transform }

/-- The transform of an object scaled by 2 at the origin. -/
def scaleByTwo : Mat4 F :=
  ⟨⟨2, 0, 0, 0⟩, ⟨0, 2, 0, 0⟩, ⟨0, 0, 2, 0⟩, ⟨0, 0, 0, 1⟩⟩

/-- The transform of an object translated by (3, 0, 0). -/
def translateByThree : Mat4 F :=
  ⟨⟨1, 0, 0, 0⟩, ⟨0, 1, 0, 0⟩, ⟨0, 0, 1, 0⟩, ⟨3, 0, 0, 1⟩⟩

/-- The rotation about the z axis by the angle with cosine 3/5 and sine 4/5. -/
def rotateAboutZ : Mat4 F :=
  ⟨⟨3 / 5, 4 / 5, 0, 0⟩, ⟨-(4 / 5), 3 / 5, 0, 0⟩, ⟨0, 0, 1, 0⟩, ⟨0, 0, 0, 1⟩⟩

theorem exampleAtoi_int (s : String) : -2 ^ 31 ≤ exampleAtoi s ∧ exampleAtoi s < 2 ^ 31 := by
  have h1 := Int.emod_nonneg ((match s.data with
    | '-' :: cs => -(digitsValue cs 0 : Int)
    | cs => (digitsValue cs 0 : Int)) + 2 ^ 31) (show (2 ^ 32 : Int) ≠ 0 by norm_num)
  have h2 := Int.emod_lt_of_pos ((match s.data with
    | '-' :: cs => -(digitsValue cs 0 : Int)
    | cs => (digitsValue cs 0 : Int)) + 2 ^ 31) (show (0 : Int) < 2 ^ 32 by norm_num)
  simp only [exampleAtoi]
  constructor <;> linarith

/-- The environment of the examples: tokens are separated by blanks, numbers are
decimal, objects are not rotated, fresh objects are zero-initialised; the functions
`tan`, `atan`, `sqrt` and the constant `PI` are given. -/
def exampleEnv (tan atan sqrt : F → F) (PI : F) : Env F :=
  { tokenizeString := fun line => tokenizeChars line.data []
    atoi := exampleAtoi
    atoi_int := exampleAtoi_int
    atof := exampleAtof
    buildTransformationMatrix := unrotatedTransform
    inverse := unrotatedInverse
    inverseTranspose := fun m => (unrotatedInverse m).transpose
    objLoader := exampleLoader
    tan := tan
    atan := atan
    sqrt := sqrt
    PI := PI
    newMaterial := ⟨Vec3.zero, ⟨0, Vec3.zero⟩, 0, 0, 0, 0⟩
    newGeom := zeroGeom
    geom_triangle := zeroGeom
    fovy := 0
    state := zeroState
    boundary := zeroBox }

/-- The environment of the examples over the real numbers. -/
noncomputable def realEnv : Env ℝ := exampleEnv Real.tan Real.arctan Real.sqrt Real.pi

/-- A scene file of two MATERIAL blocks, the first followed by a blank line. -/
def exampleMaterials : List MaterialBlock :=
  [{ header := "MATERIAL 0",
     props := ["RGB 1 0.5 0", "SPECEX 0", "SPECRGB 0 0 0", "REFL 0", "REFR 0", "REFRIOR 0",
       "EMITTANCE 5"],
     blanks := 1 },
   { header := "MATERIAL 1",
     props := ["RGB .98 .98 .98", "SPECEX 0", "SPECRGB .98 .98 .98", "REFL 1", "REFR 0",
       "REFRIOR 1.5", "EMITTANCE 0"],
     blanks := 0 }]

/-- The lines of a CAMERA block after its header. -/
def exampleCamera : List String :=
  ["RES 800 600", "FOVY 45", "ITERATIONS 5000", "DEPTH 8", "FILE cornell",
   "EYE 0.0 5 10.5", "LOOKAT 0 5 0", "UP 0 1 0"]

/-- A scene file with two CAMERA blocks: the first looks along z, the second along x. -/
def twoCameras : List String :=
  ["CAMERA", "RES 800 600", "FOVY 45", "ITERATIONS 5000", "DEPTH 8", "FILE cornell",
   "EYE 0 0 0", "LOOKAT 0 0 1", "UP 0 1 0", "",
   "CAMERA", "RES 800 600", "FOVY 45", "ITERATIONS 5000", "DEPTH 8", "FILE cornell",
   "EYE 0 0 0", "LOOKAT 1 0 0", "UP 0 1 0"]

/-- A CAMERA block, after its header, whose resolution product 65536 · 65536 = 2^32 does
not fit an `int`. -/
def hugeCamera : List String :=
  ["RES 65536 65536", "FOVY 45", "ITERATIONS 5000", "DEPTH 8", "FILE cornell",
   "EYE 0.0 5 10.5", "LOOKAT 0 5 0", "UP 0 1 0"]

/-- A well-formed MATERIAL block that states the id 5. -/
def strayMaterial : List String :=
  ["MATERIAL 5", "RGB .35 .85 .35", "SPECEX 0", "SPECRGB 0 0 0", "REFL 0", "REFR 0",
   "REFRIOR 0", "EMITTANCE 0"]

/-- A blank line and the MATERIAL block with id 2 that follow the stray block. -/
def thirdMaterial : MaterialBlock :=
  { header := "MATERIAL 2",
    props := ["RGB .85 .35 .35", "SPECEX 0", "SPECRGB 0 0 0", "REFL 0", "REFR 0", "REFRIOR 0",
      "EMITTANCE 0"],
    blanks := 0 }

/-- The materials of `exampleMaterials` as they are loaded. -/
noncomputable def exampleLoaded : List (Material ℝ) :=
  exampleMaterials.map (fun b => blockMaterial realEnv b.props)

end Example

/-! ## Lemmas on the parsing loops -/

section Lemmas

variable {F : Type}

theorem lastProperty_append (env : Env F) (key : String) (props : List String) (p : String) :
    lastProperty env key (props ++ [p]) =
      match env.tokenizeString p with
      | k :: args => if k = key then some args else lastProperty env key props
      | [] => lastProperty env key props := by
  induction props with
  | nil =>
    cases h : env.tokenizeString p with
    | nil => simp [lastProperty, h]
    | cons k args => simp [lastProperty, h]
  | cons q qs ih =>
    have hstep : lastProperty env key (q :: (qs ++ [p])) =
        match lastProperty env key (qs ++ [p]) with
        | some args => some args
        | none =>
          match env.tokenizeString q with
          | k :: args => if k = key then some args else none
          | [] => none := rfl
    rw [List.cons_append, hstep, ih]
    cases h : env.tokenizeString p with
    | nil => rfl
    | cons k args =>
      by_cases hk : k = key
      · simp [hk]
      · simp [hk, lastProperty]

theorem blockMaterial_nil (env : Env F) : blockMaterial env [] = env.newMaterial := by
  simp [blockMaterial, lastProperty, vec3Of, scalarOf]

theorem materialProperty_block (env : Env F) (props : List String) (p : String)
    (hwf : wellFormedProperty env p = true) :
    materialProperty env (env.tokenizeString p) (blockMaterial env props)
      = .ok (blockMaterial env (props ++ [p])) := by
  unfold wellFormedProperty at hwf
  unfold blockMaterial
  simp only [lastProperty_append]
  cases htok : env.tokenizeString p with
  | nil => simp [htok] at hwf
  | cons key args =>
    simp only [htok, decide_eq_true_eq] at hwf
    by_cases h1 : key = "RGB"
    · subst h1
      obtain ⟨r, g, b, rest, rfl⟩ : ∃ r g b rest, args = r :: g :: b :: rest := by
        match args, hwf with
        | r :: g :: b :: rest, _ => exact ⟨r, g, b, rest, rfl⟩
      simp [materialProperty, tokenAt, vec3Of, scalarOf, bind, Except.bind, pure, Except.pure]
    by_cases h2 : key = "SPECEX"
    · subst h2
      obtain ⟨a, rest, rfl⟩ : ∃ a rest, args = a :: rest := by
        match args, hwf with
        | a :: rest, _ => exact ⟨a, rest, rfl⟩
      simp [materialProperty, tokenAt, vec3Of, scalarOf, bind, Except.bind, pure, Except.pure]
    by_cases h3 : key = "SPECRGB"
    · subst h3
      obtain ⟨r, g, b, rest, rfl⟩ : ∃ r g b rest, args = r :: g :: b :: rest := by
        match args, hwf with
        | r :: g :: b :: rest, _ => exact ⟨r, g, b, rest, rfl⟩
      simp [materialProperty, tokenAt, vec3Of, scalarOf, bind, Except.bind, pure, Except.pure]
    by_cases h4 : key = "REFL"
    · subst h4
      obtain ⟨a, rest, rfl⟩ : ∃ a rest, args = a :: rest := by
        match args, hwf with
        | a :: rest, _ => exact ⟨a, rest, rfl⟩
      simp [materialProperty, tokenAt, vec3Of, scalarOf, bind, Except.bind, pure, Except.pure]
    by_cases h5 : key = "REFR"
    · subst h5
      obtain ⟨a, rest, rfl⟩ : ∃ a rest, args = a :: rest := by
        match args, hwf with
        | a :: rest, _ => exact ⟨a, rest, rfl⟩
      simp [materialProperty, tokenAt, vec3Of, scalarOf, bind, Except.bind, pure, Except.pure]
    by_cases h6 : key = "REFRIOR"
    · subst h6
      obtain ⟨a, rest, rfl⟩ : ∃ a rest, args = a :: rest := by
        match args, hwf with
        | a :: rest, _ => exact ⟨a, rest, rfl⟩
      simp [materialProperty, tokenAt, vec3Of, scalarOf, bind, Except.bind, pure, Except.pure]
    by_cases h7 : key = "EMITTANCE"
    · subst h7
      obtain ⟨a, rest, rfl⟩ : ∃ a rest, args = a :: rest := by
        match args, hwf with
        | a :: rest, _ => exact ⟨a, rest, rfl⟩
      simp [materialProperty, tokenAt, vec3Of, scalarOf, bind, Except.bind, pure, Except.pure]
    simp [materialProperty, tokenAt, h1, h2, h3, h4, h5, h6, h7, bind, Except.bind, pure,
      Except.pure]

theorem materialLoop_block (env : Env F) (ps done rest : List String) (good : Bool)
    (hwf : ps.all (wellFormedProperty env) = true) :
    materialLoop env ps.length ⟨ps ++ rest, good⟩ (blockMaterial env done)
      = .ok (⟨rest, good⟩, blockMaterial env (done ++ ps)) := by
  induction ps generalizing done with
  | nil => simp [materialLoop, pure, Except.pure]
  | cons p ps ih =>
    simp only [List.all_cons, Bool.and_eq_true] at hwf
    simp only [List.length_cons, materialLoop, safeGetline, List.cons_append]
    rw [materialProperty_block env done p hwf.1]
    simp only [bind, Except.bind]
    rw [ih (done ++ [p]) hwf.2]
    simp

theorem blockGeom_nil (env : Env F) (g : Geom F) : blockGeom env g [] = g := by
  simp [blockGeom, lastProperty, vec3Of]

theorem transformLine_block (env : Env F) (g : Geom F) (props : List String) (p : String)
    (hwf : wellFormedTransform env p = true) :
    transformLine env (env.tokenizeString p) (blockGeom env g props)
      = .ok (blockGeom env g (props ++ [p])) := by
  unfold wellFormedTransform at hwf
  unfold blockGeom
  simp only [lastProperty_append]
  cases htok : env.tokenizeString p with
  | nil => simp [htok] at hwf
  | cons key args =>
    simp only [htok, decide_eq_true_eq, Bool.and_eq_true] at hwf
    replace hwf := hwf.2
    by_cases h1 : key = "TRANS"
    · subst h1
      obtain ⟨r, g, b, rest, rfl⟩ : ∃ r g b rest, args = r :: g :: b :: rest := by
        match args, hwf with
        | r :: g :: b :: rest, _ => exact ⟨r, g, b, rest, rfl⟩
      simp [transformLine, tokenAt, vec3Of, bind, Except.bind, pure, Except.pure]
    by_cases h2 : key = "ROTAT"
    · subst h2
      obtain ⟨r, g, b, rest, rfl⟩ : ∃ r g b rest, args = r :: g :: b :: rest := by
        match args, hwf with
        | r :: g :: b :: rest, _ => exact ⟨r, g, b, rest, rfl⟩
      simp [transformLine, tokenAt, vec3Of, bind, Except.bind, pure, Except.pure]
    by_cases h3 : key = "SCALE"
    · subst h3
      obtain ⟨r, g, b, rest, rfl⟩ : ∃ r g b rest, args = r :: g :: b :: rest := by
        match args, hwf with
        | r :: g :: b :: rest, _ => exact ⟨r, g, b, rest, rfl⟩
      simp [transformLine, tokenAt, vec3Of, bind, Except.bind, pure, Except.pure]
    simp [transformLine, tokenAt, h1, h2, h3, bind, Except.bind, pure, Except.pure]

theorem transformLoop_block (env : Env F) (g : Geom F) (ps : List String) :
    ∀ (done rest : List String) (fuel : Nat),
      (rest = [] ∨ ∃ r, rest = "" :: r) →
      ps.all (wellFormedTransform env) = true →
      ps.length + 1 ≤ fuel →
      transformLoop env fuel (safeGetline ⟨ps ++ rest, true⟩).1
          (safeGetline ⟨ps ++ rest, true⟩).2 (blockGeom env g done)
        = .ok (afterBlock rest, blockGeom env g (done ++ ps)) := by
  induction ps with
  | nil =>
    intro done rest fuel hrest _ hfuel
    obtain ⟨f, rfl⟩ : ∃ f, fuel = f + 1 := ⟨fuel - 1, by omega⟩
    rcases hrest with rfl | ⟨r, rfl⟩
    · simp [transformLoop, safeGetline, afterBlock, pure, Except.pure]
    · simp [transformLoop, safeGetline, afterBlock, pure, Except.pure]
  | cons p ps ih =>
    intro done rest fuel hrest hwf hfuel
    simp only [List.all_cons, Bool.and_eq_true] at hwf
    obtain ⟨f, rfl⟩ : ∃ f, fuel = f + 1 := ⟨fuel - 1, by simp at hfuel; omega⟩
    have hp : p ≠ "" := by
      have := hwf.1
      simp only [wellFormedTransform, Bool.and_eq_true, decide_eq_true_eq] at this
      exact this.1
    have hstep := transformLine_block env g done p hwf.1
    have hih := ih (done ++ [p]) rest f hrest hwf.2 (by simp at hfuel; omega)
    simp only [List.cons_append, safeGetline, transformLoop, ne_eq, hp, not_false_eq_true,
      and_self, if_true, hstep, bind, Except.bind]
    simp only [safeGetline] at hih
    rw [List.append_assoc] at hih
    exact hih

theorem loadGeom_mesh_block [LinearOrderedField F] (env : Env F) (sc : Scene F)
    (objectid typeLine matLine file_path material_path mkey mtok : String)
    (more more2 trans rest : List String)
    (hfp : sc.fp_in = ⟨typeLine :: matLine :: (trans ++ rest), true⟩)
    (hrest : rest = [] ∨ ∃ r, rest = "" :: r)
    (htype : typeLine ≠ "")
    (htok : env.tokenizeString typeLine = "mesh_obj" :: file_path :: material_path :: more)
    (hmat : matLine ≠ "")
    (hmtok : env.tokenizeString matLine = mkey :: mtok :: more2)
    (htrans : trans.all (wellFormedTransform env) = true) :
    loadGeom env objectid sc =
      .ok ({ sc with
              fp_in := afterBlock rest
              geoms := sc.geoms ++ (loadObjMesh env file_path material_path).map
                (bakeTriangle env
                  (blockGeom env { env.newGeom with materialid := env.atoi mtok } trans)) },
           1) := by
  have hfuel : trans.length + 1 ≤ (safeGetline ⟨trans ++ rest, true⟩).1.lines.length + 2 := by
    cases h : trans ++ rest with
    | nil =>
      have := congrArg List.length h
      simp only [List.length_append, List.length_nil] at this
      simp only [safeGetline]
      omega
    | cons a l =>
      have := congrArg List.length h
      simp only [List.length_append, List.length_cons] at this
      simp only [safeGetline]
      omega
  have hloop := transformLoop_block env { env.newGeom with materialid := env.atoi mtok } trans
    [] rest ((safeGetline ⟨trans ++ rest, true⟩).1.lines.length + 2) hrest htrans hfuel
  rw [blockGeom_nil] at hloop
  simp only [safeGetline, List.nil_append] at hloop
  simp only [loadGeom, hfp, safeGetline, ne_eq, htype, not_false_eq_true, and_self, if_true,
    htok, geomTypeLine, tokenAt, List.get?_cons_zero, List.get?_cons_succ, bind, Except.bind,
    pure, Except.pure, hmat, hmtok, (by decide : ¬ ("mesh_obj" = "sphere")),
    (by decide : ¬ ("mesh_obj" = "cube")), if_false, hloop]

theorem blockStatic_nil (env : Env F) (st : RenderState F × F) : blockStatic env st [] = st := by
  simp [blockStatic, lastProperty, scalarOf, intOf, resolutionOf, nameOf]

theorem blockCamera_nil (env : Env F) (camera : Camera F) : blockCamera env camera [] = camera := by
  simp [blockCamera, lastProperty, vec3Of]

theorem cameraStaticLine_block (env : Env F) (st : RenderState F × F) (props : List String)
    (p : String) (hwf : wellFormedStatic env p = true) :
    cameraStaticLine env (env.tokenizeString p) (blockStatic env st props)
      = .ok (blockStatic env st (props ++ [p])) := by
  unfold wellFormedStatic at hwf
  unfold blockStatic
  simp only [lastProperty_append]
  cases htok : env.tokenizeString p with
  | nil => simp [htok] at hwf
  | cons key args =>
    simp only [htok, decide_eq_true_eq] at hwf
    by_cases h1 : key = "RES"
    · subst h1
      obtain ⟨a, b, rest, rfl⟩ : ∃ a b rest, args = a :: b :: rest := by
        match args, hwf with
        | a :: b :: rest, _ => exact ⟨a, b, rest, rfl⟩
      simp [cameraStaticLine, tokenAt, vec3Of, scalarOf, intOf, resolutionOf, nameOf, bind, Except.bind,
        pure, Except.pure]
    by_cases h2 : key = "FOVY"
    · subst h2
      obtain ⟨a, rest, rfl⟩ : ∃ a rest, args = a :: rest := by
        match args, hwf with
        | a :: rest, _ => exact ⟨a, rest, rfl⟩
      simp [cameraStaticLine, tokenAt, vec3Of, scalarOf, intOf, resolutionOf, nameOf, bind, Except.bind,
        pure, Except.pure]
    by_cases h3 : key = "ITERATIONS"
    · subst h3
      obtain ⟨a, rest, rfl⟩ : ∃ a rest, args = a :: rest := by
        match args, hwf with
        | a :: rest, _ => exact ⟨a, rest, rfl⟩
      simp [cameraStaticLine, tokenAt, vec3Of, scalarOf, intOf, resolutionOf, nameOf, bind, Except.bind,
        pure, Except.pure]
    by_cases h4 : key = "DEPTH"
    · subst h4
      obtain ⟨a, rest, rfl⟩ : ∃ a rest, args = a :: rest := by
        match args, hwf with
        | a :: rest, _ => exact ⟨a, rest, rfl⟩
      simp [cameraStaticLine, tokenAt, vec3Of, scalarOf, intOf, resolutionOf, nameOf, bind, Except.bind,
        pure, Except.pure]
    by_cases h5 : key = "FILE"
    · subst h5
      obtain ⟨a, rest, rfl⟩ : ∃ a rest, args = a :: rest := by
        match args, hwf with
        | a :: rest, _ => exact ⟨a, rest, rfl⟩
      simp [cameraStaticLine, tokenAt, vec3Of, scalarOf, intOf, resolutionOf, nameOf, bind, Except.bind,
        pure, Except.pure]
    by_cases h6 : key = "FOCALDIST"
    · subst h6
      obtain ⟨a, rest, rfl⟩ : ∃ a rest, args = a :: rest := by
        match args, hwf with
        | a :: rest, _ => exact ⟨a, rest, rfl⟩
      simp [cameraStaticLine, tokenAt, vec3Of, scalarOf, intOf, resolutionOf, nameOf, bind, Except.bind,
        pure, Except.pure]
    by_cases h7 : key = "LENRADIUS"
    · subst h7
      obtain ⟨a, rest, rfl⟩ : ∃ a rest, args = a :: rest := by
        match args, hwf with
        | a :: rest, _ => exact ⟨a, rest, rfl⟩
      simp [cameraStaticLine, tokenAt, vec3Of, scalarOf, intOf, resolutionOf, nameOf, bind, Except.bind,
        pure, Except.pure]
    simp [cameraStaticLine, tokenAt, h1, h2, h3, h4, h5, h6, h7, bind, Except.bind, pure,
      Except.pure]

theorem cameraStaticLoop_block (env : Env F) (st : RenderState F × F)
    (ps done rest : List String) (good : Bool)
    (hwf : ps.all (wellFormedStatic env) = true) :
    cameraStaticLoop env ps.length ⟨ps ++ rest, good⟩ (blockStatic env st done)
      = .ok (⟨rest, good⟩, blockStatic env st (done ++ ps)) := by
  induction ps generalizing done with
  | nil => simp [cameraStaticLoop, pure, Except.pure]
  | cons p ps ih =>
    simp only [List.all_cons, Bool.and_eq_true] at hwf
    simp only [List.length_cons, cameraStaticLoop, safeGetline, List.cons_append]
    rw [cameraStaticLine_block env st done p hwf.1]
    simp only [bind, Except.bind]
    rw [ih (done ++ [p]) hwf.2]
    simp

theorem cameraVectorLine_block (env : Env F) (camera : Camera F) (props : List String)
    (p : String) (hwf : wellFormedVector env p = true) :
    cameraVectorLine env (env.tokenizeString p) (blockCamera env camera props)
      = .ok (blockCamera env camera (props ++ [p])) := by
  unfold wellFormedVector at hwf
  unfold blockCamera
  simp only [lastProperty_append]
  cases htok : env.tokenizeString p with
  | nil => simp [htok] at hwf
  | cons key args =>
    simp only [htok, decide_eq_true_eq, Bool.and_eq_true] at hwf
    replace hwf := hwf.2
    by_cases h1 : key = "EYE"
    · subst h1
      obtain ⟨a, b, c, rest, rfl⟩ : ∃ a b c rest, args = a :: b :: c :: rest := by
        match args, hwf with
        | a :: b :: c :: rest, _ => exact ⟨a, b, c, rest, rfl⟩
      simp [cameraVectorLine, tokenAt, vec3Of, scalarOf, intOf, resolutionOf, nameOf, bind, Except.bind,
        pure, Except.pure]
    by_cases h2 : key = "LOOKAT"
    · subst h2
      obtain ⟨a, b, c, rest, rfl⟩ : ∃ a b c rest, args = a :: b :: c :: rest := by
        match args, hwf with
        | a :: b :: c :: rest, _ => exact ⟨a, b, c, rest, rfl⟩
      simp [cameraVectorLine, tokenAt, vec3Of, scalarOf, intOf, resolutionOf, nameOf, bind, Except.bind,
        pure, Except.pure]
    by_cases h3 : key = "UP"
    · subst h3
      obtain ⟨a, b, c, rest, rfl⟩ : ∃ a b c rest, args = a :: b :: c :: rest := by
        match args, hwf with
        | a :: b :: c :: rest, _ => exact ⟨a, b, c, rest, rfl⟩
      simp [cameraVectorLine, tokenAt, vec3Of, scalarOf, intOf, resolutionOf, nameOf, bind, Except.bind,
        pure, Except.pure]
    simp [cameraVectorLine, tokenAt, h1, h2, h3, bind, Except.bind, pure, Except.pure]

theorem cameraVectorLoop_block (env : Env F) (camera : Camera F) (ps : List String) :
    ∀ (done rest : List String) (fuel : Nat),
      (rest = [] ∨ ∃ r, rest = "" :: r) →
      ps.all (wellFormedVector env) = true →
      ps.length + 1 ≤ fuel →
      cameraVectorLoop env fuel (safeGetline ⟨ps ++ rest, true⟩).1
          (safeGetline ⟨ps ++ rest, true⟩).2 (blockCamera env camera done)
        = .ok (afterBlock rest, blockCamera env camera (done ++ ps)) := by
  induction ps with
  | nil =>
    intro done rest fuel hrest _ hfuel
    obtain ⟨f, rfl⟩ : ∃ f, fuel = f + 1 := ⟨fuel - 1, by omega⟩
    rcases hrest with rfl | ⟨r, rfl⟩
    · simp [cameraVectorLoop, safeGetline, afterBlock, pure, Except.pure]
    · simp [cameraVectorLoop, safeGetline, afterBlock, pure, Except.pure]
  | cons p ps ih =>
    intro done rest fuel hrest hwf hfuel
    simp only [List.all_cons, Bool.and_eq_true] at hwf
    obtain ⟨f, rfl⟩ : ∃ f, fuel = f + 1 := ⟨fuel - 1, by simp at hfuel; omega⟩
    have hp : p ≠ "" := by
      have := hwf.1
      simp only [wellFormedVector, Bool.and_eq_true, decide_eq_true_eq] at this
      exact this.1
    have hstep := cameraVectorLine_block env camera done p hwf.1
    have hih := ih (done ++ [p]) rest f hrest hwf.2 (by simp at hfuel; omega)
    simp only [List.cons_append, safeGetline, cameraVectorLoop, ne_eq, hp, not_false_eq_true,
      and_self, if_true, hstep, bind, Except.bind]
    simp only [safeGetline] at hih
    rw [List.append_assoc] at hih
    exact hih

theorem loadCamera_block [LinearOrderedField F] (env : Env F) (sc : Scene F)
    (statics vectors rest : List String)
    (hfp : sc.fp_in = ⟨statics ++ (vectors ++ rest), true⟩)
    (hrest : rest = [] ∨ ∃ r, rest = "" :: r)
    (hlen : statics.length = num_static_prop)
    (hstatics : statics.all (wellFormedStatic env) = true)
    (hvectors : vectors.all (wellFormedVector env) = true)
    (hres0 : 0 ≤ (blockStatic env (sc.state, env.fovy) statics).1.camera.resolution.x *
      (blockStatic env (sc.state, env.fovy) statics).1.camera.resolution.y)
    (hres1 : (blockStatic env (sc.state, env.fovy) statics).1.camera.resolution.x *
      (blockStatic env (sc.state, env.fovy) statics).1.camera.resolution.y < 2 ^ 31) :
    loadCamera env sc =
      .ok ({ sc with
              fp_in := afterBlock rest
              state := { (blockStatic env (sc.state, env.fovy) statics).1 with
                camera := cameraDerive env
                  (blockCamera env (blockStatic env (sc.state, env.fovy) statics).1.camera
                    vectors)
                  (blockStatic env (sc.state, env.fovy) statics).2
                image := resizeAndFill (blockStatic env (sc.state, env.fovy) statics).1.image
                  ((blockStatic env (sc.state, env.fovy) statics).1.camera.resolution.x *
                    (blockStatic env (sc.state, env.fovy) statics).1.camera.resolution.y).toNat } },
           1) := by
  have hfuel : vectors.length + 1
      ≤ (safeGetline ⟨vectors ++ rest, true⟩).1.lines.length + 2 := by
    cases h : vectors ++ rest with
    | nil =>
      have := congrArg List.length h
      simp only [List.length_append, List.length_nil] at this
      simp only [safeGetline]
      omega
    | cons a l =>
      have := congrArg List.length h
      simp only [List.length_append, List.length_cons] at this
      simp only [safeGetline]
      omega
  have hs := cameraStaticLoop_block env (sc.state, env.fovy) statics [] (vectors ++ rest) true
    hstatics
  rw [blockStatic_nil, hlen, List.nil_append] at hs
  have hv := cameraVectorLoop_block env
    (blockStatic env (sc.state, env.fovy) statics).1.camera vectors [] rest
    ((safeGetline ⟨vectors ++ rest, true⟩).1.lines.length + 2) hrest hvectors hfuel
  rw [blockCamera_nil, List.nil_append] at hv
  have hlo : ¬ ((blockStatic env (sc.state, env.fovy) statics).1.camera.resolution.x *
      (blockStatic env (sc.state, env.fovy) statics).1.camera.resolution.y < -2 ^ 31 ∨
      2 ^ 31 ≤ (blockStatic env (sc.state, env.fovy) statics).1.camera.resolution.x *
      (blockStatic env (sc.state, env.fovy) statics).1.camera.resolution.y) := by
    omega
  have hneg : ¬ ((blockStatic env (sc.state, env.fovy) statics).1.camera.resolution.x *
      (blockStatic env (sc.state, env.fovy) statics).1.camera.resolution.y < 0) := by
    omega
  have hres : ∀ (c : Camera F) (fovy : F),
      (cameraDerive env c fovy).resolution = c.resolution := fun _ _ => rfl
  simp only [loadCamera, hfp, hs, bind, Except.bind, hv, hres, blockCamera, hlo, hneg,
    if_false, pure, Except.pure]

theorem loadCamera_loops [LinearOrderedField F] (env : Env F) (sc : Scene F)
    (statics vectors rest : List String)
    (hfp : sc.fp_in = ⟨statics ++ (vectors ++ rest), true⟩)
    (hrest : rest = [] ∨ ∃ r, rest = "" :: r)
    (hlen : statics.length = num_static_prop)
    (hstatics : statics.all (wellFormedStatic env) = true)
    (hvectors : vectors.all (wellFormedVector env) = true) :
    loadCamera env sc =
      if (blockStatic env (sc.state, env.fovy) statics).1.camera.resolution.x *
          (blockStatic env (sc.state, env.fovy) statics).1.camera.resolution.y < -2 ^ 31 ∨
        2 ^ 31 ≤ (blockStatic env (sc.state, env.fovy) statics).1.camera.resolution.x *
          (blockStatic env (sc.state, env.fovy) statics).1.camera.resolution.y then
        .error .intOverflow
      else if (blockStatic env (sc.state, env.fovy) statics).1.camera.resolution.x *
          (blockStatic env (sc.state, env.fovy) statics).1.camera.resolution.y < 0 then
        .error .lengthError
      else
        .ok ({ sc with
                fp_in := afterBlock rest
                state := { (blockStatic env (sc.state, env.fovy) statics).1 with
                  camera := cameraDerive env
                    (blockCamera env (blockStatic env (sc.state, env.fovy) statics).1.camera
                      vectors)
                    (blockStatic env (sc.state, env.fovy) statics).2
                  image := resizeAndFill
                    (blockStatic env (sc.state, env.fovy) statics).1.image
                    ((blockStatic env (sc.state, env.fovy) statics).1.camera.resolution.x *
                      (blockStatic env (sc.state, env.fovy) statics).1.camera.resolution.y).toNat } },
             1) := by
  have hfuel : vectors.length + 1
      ≤ (safeGetline ⟨vectors ++ rest, true⟩).1.lines.length + 2 := by
    cases h : vectors ++ rest with
    | nil =>
      have := congrArg List.length h
      simp only [List.length_append, List.length_nil] at this
      simp only [safeGetline]
      omega
    | cons a l =>
      have := congrArg List.length h
      simp only [List.length_append, List.length_cons] at this
      simp only [safeGetline]
      omega
  have hs := cameraStaticLoop_block env (sc.state, env.fovy) statics [] (vectors ++ rest) true
    hstatics
  rw [blockStatic_nil, hlen, List.nil_append] at hs
  have hv := cameraVectorLoop_block env
    (blockStatic env (sc.state, env.fovy) statics).1.camera vectors [] rest
    ((safeGetline ⟨vectors ++ rest, true⟩).1.lines.length + 2) hrest hvectors hfuel
  rw [blockCamera_nil, List.nil_append] at hv
  have hres : ∀ (c : Camera F) (fovy : F),
      (cameraDerive env c fovy).resolution = c.resolution := fun _ _ => rfl
  simp only [loadCamera, hfp, hs, bind, Except.bind, hv, hres, blockCamera, pure, Except.pure]

theorem resizeAndFill_length [LinearOrderedField F] (image : List (Vec3 F)) (n : Nat) :
    (resizeAndFill image n).length = n := by
  simp only [resizeAndFill, List.length_map, List.length_append, List.length_take,
    List.length_replicate]
  omega

theorem resizeAndFill_zero [LinearOrderedField F] (image : List (Vec3 F)) (n : Nat) :
    ∀ v ∈ resizeAndFill image n, v = Vec3.zero := by
  intro v hv
  simp only [resizeAndFill, List.mem_map] at hv
  obtain ⟨_, _, h⟩ := hv
  exact h.symm

theorem sceneLoop_blanks [LinearOrderedField F] (env : Env F) (k fuel : Nat) (rest : List String)
    (ms : List (Material F)) (gs : List (Geom F)) (st : RenderState F) (bd : BoundingBox F) :
    sceneLoop env (fuel + k) ⟨⟨List.replicate k "" ++ rest, true⟩, ms, gs, st, bd⟩
      = sceneLoop env fuel ⟨⟨rest, true⟩, ms, gs, st, bd⟩ := by
  induction k with
  | zero => simp
  | succ k ih =>
    rw [← Nat.add_assoc, List.replicate_succ, List.cons_append]
    simp only [sceneLoop, safeGetline, ne_eq, not_true_eq_false, if_false, if_true]
    exact ih

theorem sceneLoop_eof [LinearOrderedField F] (env : Env F) (fuel : Nat)
    (ms : List (Material F)) (gs : List (Geom F)) (st : RenderState F) (bd : BoundingBox F) :
    sceneLoop env (fuel + 2) ⟨⟨[], true⟩, ms, gs, st, bd⟩ = .ok ⟨⟨[], false⟩, ms, gs, st, bd⟩ := by
  simp [sceneLoop, safeGetline, pure, Except.pure]

theorem sceneLoop_camera [LinearOrderedField F] (env : Env F) (fuel : Nat)
    (line : String) (lines more : List String)
    (ms : List (Material F)) (gs : List (Geom F)) (st : RenderState F) (bd : BoundingBox F)
    (hne : line ≠ "") (htok : env.tokenizeString line = "CAMERA" :: more) :
    sceneLoop env (fuel + 1) ⟨⟨line :: lines, true⟩, ms, gs, st, bd⟩
      = (loadCamera env ⟨⟨lines, true⟩, ms, gs, st, bd⟩).bind
          (fun r => sceneLoop env fuel r.1) := by
  rw [sceneLoop]
  simp only [safeGetline, if_true, ne_eq, hne, not_false_eq_true, htok, tokenAt,
    List.get?_cons_zero, bind, Except.bind, pure, Except.pure,
    (by decide : ¬ ("CAMERA" = "MATERIAL")), (by decide : ¬ ("CAMERA" = "OBJECT")), if_false]

theorem sceneLoop_done [LinearOrderedField F] (env : Env F) (fuel : Nat)
    (lines : List String)
    (ms : List (Material F)) (gs : List (Geom F)) (st : RenderState F) (bd : BoundingBox F) :
    sceneLoop env (fuel + 1) ⟨⟨lines, false⟩, ms, gs, st, bd⟩
      = .ok ⟨⟨lines, false⟩, ms, gs, st, bd⟩ := by
  simp [sceneLoop, pure, Except.pure]

theorem sceneLoop_materialBlocks [LinearOrderedField F] (env : Env F) (blocks : List MaterialBlock) :
    ∀ (fuel : Nat) (ms : List (Material F)) (gs : List (Geom F)) (st : RenderState F)
      (bd : BoundingBox F),
      wellFormedBlocks env ms.length blocks = true →
      (blocks.flatMap MaterialBlock.lines).length + 2 ≤ fuel →
      sceneLoop env fuel ⟨⟨blocks.flatMap MaterialBlock.lines, true⟩, ms, gs, st, bd⟩
        = .ok ⟨⟨[], false⟩, ms ++ blocks.map (fun b => blockMaterial env b.props), gs, st, bd⟩ := by
  induction blocks with
  | nil =>
    intro fuel ms gs st bd _ hfuel
    obtain ⟨f, rfl⟩ : ∃ f, fuel = f + 2 := ⟨fuel - 2, by simp at hfuel; omega⟩
    simpa using sceneLoop_eof env f ms gs st bd
  | cons b bs ih =>
    intro fuel ms gs st bd hwf hfuel
    simp only [wellFormedBlocks, MaterialBlock.wellFormed, Bool.and_eq_true,
      decide_eq_true_eq] at hwf
    obtain ⟨⟨⟨⟨hne, hhead⟩, h7⟩, hprops⟩, hrest⟩ := hwf
    simp only [List.flatMap_cons, MaterialBlock.lines, List.length_append, List.length_cons,
      List.length_replicate, h7] at hfuel
    obtain ⟨f, rfl⟩ : ∃ f, fuel = (f + b.blanks) + 1 :=
      ⟨fuel - 1 - b.blanks, by omega⟩
    cases htok : env.tokenizeString b.header with
    | nil => simp [htok] at hhead
    | cons key more =>
      cases more with
      | nil => simp [htok] at hhead
      | cons idtok more =>
        simp only [htok, Bool.and_eq_true, decide_eq_true_eq] at hhead
        obtain ⟨hkey, hid⟩ := hhead
        subst hkey
        have hmod : env.atoi idtok % 2 ^ 64 = (ms.length : Int) := by
          rw [hid]
          have hr := (env.atoi_int idtok).2
          rw [hid] at hr
          omega
        have hloop := materialLoop_block env b.props []
          (List.replicate b.blanks "" ++ bs.flatMap MaterialBlock.lines) true hprops
        rw [h7, blockMaterial_nil] at hloop
        simp only [List.flatMap_cons, MaterialBlock.lines, List.cons_append, List.append_assoc]
        rw [sceneLoop]
        simp only [safeGetline, if_true, ne_eq, hne, not_false_eq_true, htok, tokenAt,
          List.get?_cons_zero, List.get?_cons_succ, bind, Except.bind, loadMaterial, hmod,
          not_true_eq_false, if_false, hloop, pure, Except.pure, List.nil_append]
        rw [sceneLoop_blanks]
        have hwf2 : wellFormedBlocks env (ms ++ [blockMaterial env b.props]).length bs
            = true := by
          simpa using hrest
        have := ih f (ms ++ [blockMaterial env b.props]) gs st bd hwf2 (by omega)
        rw [this]
        simp

/-! ## Lemmas on the bounding computation -/

theorem Ext.min_posInf [LinearOrderedField F] (a : Ext F) : Ext.min .posInf a = a := by
  cases a <;> simp [Ext.min, Ext.lt]

theorem Ext.max_negInf [LinearOrderedField F] (a : Ext F) : Ext.max .negInf a = a := by
  cases a <;> simp [Ext.max, Ext.lt]

theorem Ext.min_fin [LinearOrderedField F] (a b : F) :
    Ext.min (.fin a) (.fin b) = .fin (Min.min a b) := by
  simp only [Ext.min, Ext.lt]
  by_cases h : b < a
  · simp [h, min_eq_right (le_of_lt h)]
  · simp [h, min_eq_left (not_lt.mp h)]

theorem Ext.max_fin [LinearOrderedField F] (a b : F) :
    Ext.max (.fin a) (.fin b) = .fin (Max.max a b) := by
  simp only [Ext.max, Ext.lt]
  by_cases h : a < b
  · simp [h, max_eq_right (le_of_lt h)]
  · simp [h, max_eq_left (not_lt.mp h)]

theorem Ext.lt_irrefl [LinearOrderedField F] (a : Ext F) : Ext.lt a a = false := by
  cases a <;> simp [Ext.lt]

theorem Ext.lt_asymm [LinearOrderedField F] {a b : Ext F} (h : Ext.lt a b = true) :
    Ext.lt b a = false := by
  cases a <;> cases b <;> simp_all [Ext.lt]
  exact le_of_lt h

theorem Ext.not_lt_trans [LinearOrderedField F] {a b c : Ext F} (hab : Ext.lt b a = false)
    (hbc : Ext.lt c b = false) : Ext.lt c a = false := by
  cases a <;> cases b <;> cases c <;> simp_all [Ext.lt]
  exact le_trans hab hbc

theorem Ext.min_le_left [LinearOrderedField F] (a b : Ext F) :
    Ext.lt a (Ext.min a b) = false := by
  unfold Ext.min
  by_cases h : Ext.lt b a = true
  · simp [h, Ext.lt_asymm h]
  · simp [h, Ext.lt_irrefl]

theorem Ext.min_le_right [LinearOrderedField F] (a b : Ext F) :
    Ext.lt b (Ext.min a b) = false := by
  unfold Ext.min
  by_cases h : Ext.lt b a = true
  · simp [h, Ext.lt_irrefl]
  · simp [h]

theorem Ext.min_choice [LinearOrderedField F] (a b : Ext F) :
    Ext.min a b = a ∨ Ext.min a b = b := by
  unfold Ext.min
  by_cases h : Ext.lt b a = true
  · simp [h]
  · simp [h]

theorem Ext.le_max_left [LinearOrderedField F] (a b : Ext F) :
    Ext.lt (Ext.max a b) a = false := by
  unfold Ext.max
  by_cases h : Ext.lt a b = true
  · simp [h, Ext.lt_asymm h]
  · simp [h, Ext.lt_irrefl]

theorem Ext.le_max_right [LinearOrderedField F] (a b : Ext F) :
    Ext.lt (Ext.max a b) b = false := by
  unfold Ext.max
  by_cases h : Ext.lt a b = true
  · simp [h, Ext.lt_irrefl]
  · simp [h]

theorem Ext.max_choice [LinearOrderedField F] (a b : Ext F) :
    Ext.max a b = a ∨ Ext.max a b = b := by
  unfold Ext.max
  by_cases h : Ext.lt a b = true
  · simp [h]
  · simp [h]

theorem Ext.eq_posInf_of_not_lt [LinearOrderedField F] {a : Ext F}
    (h : Ext.lt a .posInf = false) : a = .posInf := by
  cases a <;> simp_all [Ext.lt]

theorem Ext.eq_negInf_of_not_lt [LinearOrderedField F] {a : Ext F}
    (h : Ext.lt .negInf a = false) : a = .negInf := by
  cases a <;> simp_all [Ext.lt]

theorem foldl_min_bounds [LinearOrderedField F] (xs : List (Ext F)) :
    ∀ acc : Ext F,
      (xs.foldl Ext.min acc = acc ∨ xs.foldl Ext.min acc ∈ xs) ∧
      Ext.lt acc (xs.foldl Ext.min acc) = false ∧
      ∀ x ∈ xs, Ext.lt x (xs.foldl Ext.min acc) = false := by
  induction xs with
  | nil => intro acc; simp [Ext.lt_irrefl]
  | cons x xs ih =>
    intro acc
    obtain ⟨h1, h2, h3⟩ := ih (Ext.min acc x)
    simp only [List.foldl_cons, List.mem_cons]
    refine ⟨?_, Ext.not_lt_trans h2 (Ext.min_le_left acc x), ?_⟩
    · rcases h1 with h1 | h1
      · rcases Ext.min_choice acc x with h | h
        · left; rw [h1, h]
        · right; left; rw [h1, h]
      · right; right; exact h1
    · intro y hy
      rcases hy with rfl | hy
      · exact Ext.not_lt_trans h2 (Ext.min_le_right acc y)
      · exact h3 y hy

theorem foldl_max_bounds [LinearOrderedField F] (xs : List (Ext F)) :
    ∀ acc : Ext F,
      (xs.foldl Ext.max acc = acc ∨ xs.foldl Ext.max acc ∈ xs) ∧
      Ext.lt (xs.foldl Ext.max acc) acc = false ∧
      ∀ x ∈ xs, Ext.lt (xs.foldl Ext.max acc) x = false := by
  induction xs with
  | nil => intro acc; simp [Ext.lt_irrefl]
  | cons x xs ih =>
    intro acc
    obtain ⟨h1, h2, h3⟩ := ih (Ext.max acc x)
    simp only [List.foldl_cons, List.mem_cons]
    refine ⟨?_, Ext.not_lt_trans (Ext.le_max_left acc x) h2, ?_⟩
    · rcases h1 with h1 | h1
      · rcases Ext.max_choice acc x with h | h
        · left; rw [h1, h]
        · right; left; rw [h1, h]
      · right; right; exact h1
    · intro y hy
      rcases hy with rfl | hy
      · exact Ext.not_lt_trans (Ext.le_max_right acc y) h2
      · exact h3 y hy

theorem foldl_min_isMinOf [LinearOrderedField F] (xs : List (Ext F)) (hne : xs ≠ []) :
    IsMinOf (xs.foldl Ext.min .posInf) xs := by
  obtain ⟨h1, _, h3⟩ := foldl_min_bounds xs .posInf
  refine ⟨?_, h3⟩
  rcases h1 with h1 | h1
  · cases xs with
    | nil => exact absurd rfl hne
    | cons x xs =>
      have hx := h3 x (List.mem_cons_self x xs)
      rw [h1] at hx
      rw [h1, ← Ext.eq_posInf_of_not_lt hx]
      exact List.mem_cons_self x xs
  · exact h1

theorem foldl_max_isMaxOf [LinearOrderedField F] (xs : List (Ext F)) (hne : xs ≠ []) :
    IsMaxOf (xs.foldl Ext.max .negInf) xs := by
  obtain ⟨h1, _, h3⟩ := foldl_max_bounds xs .negInf
  refine ⟨?_, h3⟩
  rcases h1 with h1 | h1
  · cases xs with
    | nil => exact absurd rfl hne
    | cons x xs =>
      have hx := h3 x (List.mem_cons_self x xs)
      rw [h1] at hx
      rw [h1, ← Ext.eq_negInf_of_not_lt hx]
      exact List.mem_cons_self x xs
  · exact h1

theorem foldl_sceneStep [LinearOrderedField F] (geoms : List (Geom F)) :
    ∀ e : Extremes F, geoms.foldl sceneStep e =
      { x_min := (geoms.map (fun g => (geomExtremes g).x_min)).foldl Ext.min e.x_min
        x_max := (geoms.map (fun g => (geomExtremes g).x_max)).foldl Ext.max e.x_max
        y_min := (geoms.map (fun g => (geomExtremes g).y_min)).foldl Ext.min e.y_min
        y_max := (geoms.map (fun g => (geomExtremes g).y_max)).foldl Ext.max e.y_max
        z_min := (geoms.map (fun g => (geomExtremes g).z_min)).foldl Ext.min e.z_min
        z_max := (geoms.map (fun g => (geomExtremes g).z_max)).foldl Ext.max e.z_max } := by
  induction geoms with
  | nil => intro e; rfl
  | cons g gs ih =>
    intro e
    simp only [List.foldl_cons, List.map_cons, ih]
    rfl

theorem foldl_min_of_fin [LinearOrderedField F] (xs : List (Ext F)) (hne : xs ≠ [])
    (hfin : ∀ x ∈ xs, ∃ v, x = Ext.fin v) :
    ∃ m : F, xs.foldl Ext.min .posInf = .fin m ∧ Ext.fin m ∈ xs ∧
      ∀ v : F, Ext.fin v ∈ xs → m ≤ v := by
  obtain ⟨hmem, hle⟩ := foldl_min_isMinOf xs hne
  obtain ⟨m, hm⟩ := hfin _ hmem
  refine ⟨m, hm, hm ▸ hmem, ?_⟩
  intro v hv
  have := hle _ hv
  rw [hm] at this
  simpa [Ext.lt] using this

theorem foldl_max_of_fin [LinearOrderedField F] (xs : List (Ext F)) (hne : xs ≠ [])
    (hfin : ∀ x ∈ xs, ∃ v, x = Ext.fin v) :
    ∃ m : F, xs.foldl Ext.max .negInf = .fin m ∧ Ext.fin m ∈ xs ∧
      ∀ v : F, Ext.fin v ∈ xs → v ≤ m := by
  obtain ⟨hmem, hle⟩ := foldl_max_isMaxOf xs hne
  obtain ⟨m, hm⟩ := hfin _ hmem
  refine ⟨m, hm, hm ▸ hmem, ?_⟩
  intro v hv
  have := hle _ hv
  rw [hm] at this
  simpa [Ext.lt] using this

theorem foldl_addPoint [LinearOrderedField F] (f : Vec3 F → Vec3 F) (ps : List (Vec3 F)) :
    ∀ e : Extremes F, ps.foldl (fun e v => e.addPoint (f v)) e =
      { x_min := (ps.map (fun v => Ext.fin (f v).x)).foldl Ext.min e.x_min
        x_max := (ps.map (fun v => Ext.fin (f v).x)).foldl Ext.max e.x_max
        y_min := (ps.map (fun v => Ext.fin (f v).y)).foldl Ext.min e.y_min
        y_max := (ps.map (fun v => Ext.fin (f v).y)).foldl Ext.max e.y_max
        z_min := (ps.map (fun v => Ext.fin (f v).z)).foldl Ext.min e.z_min
        z_max := (ps.map (fun v => Ext.fin (f v).z)).foldl Ext.max e.z_max } := by
  induction ps with
  | nil => intro e; rfl
  | cons p ps ih =>
    intro e
    simp only [List.foldl_cons, List.map_cons, ih]
    rfl

/-- The coordinate `c` of the images of the points `ps`: the fold of `std::min` from
`+infinity` is the least of them, the fold of `std::max` from `-infinity` the greatest. -/
theorem coordinate_extremes [LinearOrderedField F] (c : Vec3 F → F) (ps : List (Vec3 F))
    (hne : ps ≠ []) :
    ∃ lo hi : F,
      (ps.map (fun v => Ext.fin (c v))).foldl Ext.min .posInf = .fin lo ∧
      (ps.map (fun v => Ext.fin (c v))).foldl Ext.max .negInf = .fin hi ∧
      (∃ v ∈ ps, c v = lo) ∧ (∃ v ∈ ps, c v = hi) ∧
      ∀ v ∈ ps, lo ≤ c v ∧ c v ≤ hi := by
  have hne2 : ps.map (fun v => Ext.fin (c v)) ≠ [] := fun h => hne (List.map_eq_nil_iff.mp h)
  have hfin : ∀ x ∈ ps.map (fun v => Ext.fin (c v)), ∃ v, x = Ext.fin v := by
    intro x hx
    obtain ⟨v, _, rfl⟩ := List.mem_map.mp hx
    exact ⟨_, rfl⟩
  obtain ⟨lo, h1, h2, h3⟩ := foldl_min_of_fin _ hne2 hfin
  obtain ⟨hi, k1, k2, k3⟩ := foldl_max_of_fin _ hne2 hfin
  obtain ⟨v, hv, hv2⟩ := List.mem_map.mp h2
  obtain ⟨u, hu, hu2⟩ := List.mem_map.mp k2
  refine ⟨lo, hi, h1, k1, ⟨v, hv, Ext.fin.inj hv2⟩, ⟨u, hu, Ext.fin.inj hu2⟩, ?_⟩
  intro w hw
  exact ⟨h3 _ (List.mem_map.mpr ⟨w, hw, rfl⟩), k3 _ (List.mem_map.mpr ⟨w, hw, rfl⟩)⟩

theorem affine_ge_corners [LinearOrderedField F] (a b c d m : F)
    (h : ∀ sx sy sz : F, (sx = -(1 / 2) ∨ sx = 1 / 2) → (sy = -(1 / 2) ∨ sy = 1 / 2) →
      (sz = -(1 / 2) ∨ sz = 1 / 2) → m ≤ a * sx + b * sy + c * sz + d)
    (x y z : F) (hx0 : -(1 / 2) ≤ x) (hx1 : x ≤ 1 / 2) (hy0 : -(1 / 2) ≤ y) (hy1 : y ≤ 1 / 2)
    (hz0 : -(1 / 2) ≤ z) (hz1 : z ≤ 1 / 2) :
    m ≤ a * x + b * y + c * z + d := by
  have hA : ∃ sx : F, (sx = -(1 / 2) ∨ sx = 1 / 2) ∧ a * sx ≤ a * x := by
    rcases le_total 0 a with ha | ha
    · exact ⟨-(1 / 2), Or.inl rfl, mul_le_mul_of_nonneg_left hx0 ha⟩
    · exact ⟨1 / 2, Or.inr rfl, mul_le_mul_of_nonpos_left hx1 ha⟩
  have hB : ∃ sy : F, (sy = -(1 / 2) ∨ sy = 1 / 2) ∧ b * sy ≤ b * y := by
    rcases le_total 0 b with hb | hb
    · exact ⟨-(1 / 2), Or.inl rfl, mul_le_mul_of_nonneg_left hy0 hb⟩
    · exact ⟨1 / 2, Or.inr rfl, mul_le_mul_of_nonpos_left hy1 hb⟩
  have hC : ∃ sz : F, (sz = -(1 / 2) ∨ sz = 1 / 2) ∧ c * sz ≤ c * z := by
    rcases le_total 0 c with hc | hc
    · exact ⟨-(1 / 2), Or.inl rfl, mul_le_mul_of_nonneg_left hz0 hc⟩
    · exact ⟨1 / 2, Or.inr rfl, mul_le_mul_of_nonpos_left hz1 hc⟩
  obtain ⟨sx, hsx, h1⟩ := hA
  obtain ⟨sy, hsy, h2⟩ := hB
  obtain ⟨sz, hsz, h3⟩ := hC
  have := h sx sy sz hsx hsy hsz
  linarith

theorem affine_le_corners [LinearOrderedField F] (a b c d m : F)
    (h : ∀ sx sy sz : F, (sx = -(1 / 2) ∨ sx = 1 / 2) → (sy = -(1 / 2) ∨ sy = 1 / 2) →
      (sz = -(1 / 2) ∨ sz = 1 / 2) → a * sx + b * sy + c * sz + d ≤ m)
    (x y z : F) (hx0 : -(1 / 2) ≤ x) (hx1 : x ≤ 1 / 2) (hy0 : -(1 / 2) ≤ y) (hy1 : y ≤ 1 / 2)
    (hz0 : -(1 / 2) ≤ z) (hz1 : z ≤ 1 / 2) :
    a * x + b * y + c * z + d ≤ m := by
  have hA : ∃ sx : F, (sx = -(1 / 2) ∨ sx = 1 / 2) ∧ a * x ≤ a * sx := by
    rcases le_total 0 a with ha | ha
    · exact ⟨1 / 2, Or.inr rfl, mul_le_mul_of_nonneg_left hx1 ha⟩
    · exact ⟨-(1 / 2), Or.inl rfl, mul_le_mul_of_nonpos_left hx0 ha⟩
  have hB : ∃ sy : F, (sy = -(1 / 2) ∨ sy = 1 / 2) ∧ b * y ≤ b * sy := by
    rcases le_total 0 b with hb | hb
    · exact ⟨1 / 2, Or.inr rfl, mul_le_mul_of_nonneg_left hy1 hb⟩
    · exact ⟨-(1 / 2), Or.inl rfl, mul_le_mul_of_nonpos_left hy0 hb⟩
  have hC : ∃ sz : F, (sz = -(1 / 2) ∨ sz = 1 / 2) ∧ c * z ≤ c * sz := by
    rcases le_total 0 c with hc | hc
    · exact ⟨1 / 2, Or.inr rfl, mul_le_mul_of_nonneg_left hz1 hc⟩
    · exact ⟨-(1 / 2), Or.inl rfl, mul_le_mul_of_nonpos_left hz0 hc⟩
  obtain ⟨sx, hsx, h1⟩ := hA
  obtain ⟨sy, hsy, h2⟩ := hB
  obtain ⟨sz, hsz, h3⟩ := hC
  have := h sx sy sz hsx hsy hsz
  linarith

theorem corner_mem_box_vertices [LinearOrderedField F] (sx sy sz : F)
    (hx : sx = -(1 / 2) ∨ sx = 1 / 2) (hy : sy = -(1 / 2) ∨ sy = 1 / 2)
    (hz : sz = -(1 / 2) ∨ sz = 1 / 2) :
    (⟨sx, sy, sz⟩ : Vec3 F) ∈ (box_vertices : List (Vec3 F)) := by
  have e1 : (-0.5 : F) = -(1 / 2) := by norm_num
  have e2 : (0.5 : F) = 1 / 2 := by norm_num
  rcases hx with rfl | rfl <;> rcases hy with rfl | rfl <;> rcases hz with rfl | rfl <;>
    simp [box_vertices, e1, e2]

theorem sq_le_quarter [LinearOrderedField F] (x r : F) (hr : 0 ≤ r)
    (h : x * x + r ≤ (1 / 2) ^ 2) : -(1 / 2) ≤ x ∧ x ≤ 1 / 2 := by
  have hx : x * x ≤ (1 / 2) * (1 / 2) := by nlinarith
  have habs := abs_le_of_sq_le_sq' (a := x) (b := 1 / 2) (by nlinarith) (by norm_num)
  exact ⟨by linarith [habs.1], habs.2⟩

theorem axis_points_min [LinearOrderedField F] (s t : F) :
    min (min (min (min (min (s * (1 / 2) + t) (s * -(1 / 2) + t)) t) t) t) t = t - |s| / 2 ∧
    min (min (min (min (min t t) (s * (1 / 2) + t)) (s * -(1 / 2) + t)) t) t = t - |s| / 2 ∧
    min (min (min (min (min t t) t) t) (s * (1 / 2) + t)) (s * -(1 / 2) + t) = t - |s| / 2 := by
  rcases le_total 0 s with h | h
  · have h1 : s * -(1 / 2) + t ≤ s * (1 / 2) + t := by linarith
    have h2 : s * -(1 / 2) + t ≤ t := by linarith
    have h3 : t ≤ s * (1 / 2) + t := by linarith
    have e : s * -(1 / 2) + t = t - s / 2 := by ring
    rw [abs_of_nonneg h]
    simp only [min_self, min_eq_right h1, min_eq_left h2, min_eq_left h3, min_eq_right h2]
    exact ⟨e, e, e⟩
  · have h1 : s * (1 / 2) + t ≤ s * -(1 / 2) + t := by linarith
    have h2 : s * (1 / 2) + t ≤ t := by linarith
    have h3 : t ≤ s * -(1 / 2) + t := by linarith
    have e : s * (1 / 2) + t = t - -s / 2 := by ring
    rw [abs_of_nonpos h]
    simp only [min_self, min_eq_left h1, min_eq_left h2, min_eq_right h2]
    exact ⟨e, e, e⟩

theorem axis_points_max [LinearOrderedField F] (s t : F) :
    max (max (max (max (max (s * (1 / 2) + t) (s * -(1 / 2) + t)) t) t) t) t = t + |s| / 2 ∧
    max (max (max (max (max t t) (s * (1 / 2) + t)) (s * -(1 / 2) + t)) t) t = t + |s| / 2 ∧
    max (max (max (max (max t t) t) t) (s * (1 / 2) + t)) (s * -(1 / 2) + t) = t + |s| / 2 := by
  rcases le_total 0 s with h | h
  · have h1 : s * -(1 / 2) + t ≤ s * (1 / 2) + t := by linarith
    have h2 : s * -(1 / 2) + t ≤ t := by linarith
    have h3 : t ≤ s * (1 / 2) + t := by linarith
    have e : s * (1 / 2) + t = t + s / 2 := by ring
    rw [abs_of_nonneg h]
    simp only [max_self, max_eq_left h1, max_eq_left h3, max_eq_right h3]
    exact ⟨e, e, e⟩
  · have h1 : s * (1 / 2) + t ≤ s * -(1 / 2) + t := by linarith
    have h2 : s * (1 / 2) + t ≤ t := by linarith
    have h3 : t ≤ s * -(1 / 2) + t := by linarith
    have e : s * -(1 / 2) + t = t + -s / 2 := by ring
    rw [abs_of_nonpos h]
    simp only [max_self, max_eq_right h1, max_eq_left h2, max_eq_left h3, max_eq_right h3]
    exact ⟨e, e, e⟩

theorem scaled_coordinate_bounds [LinearOrderedField F] (s t x : F)
    (hx0 : -(1 / 2) ≤ x) (hx1 : x ≤ 1 / 2) :
    t - |s| / 2 ≤ s * x + t ∧ s * x + t ≤ t + |s| / 2 := by
  rcases le_total 0 s with h | h
  · rw [abs_of_nonneg h]
    have h1 := mul_le_mul_of_nonneg_left hx0 h
    have h2 := mul_le_mul_of_nonneg_left hx1 h
    constructor <;> linarith
  · rw [abs_of_nonpos h]
    have h1 := mul_le_mul_of_nonpos_left hx0 h
    have h2 := mul_le_mul_of_nonpos_left hx1 h
    constructor <;> linarith

theorem minElement3_le [LinearOrderedField F] (a b c : F) :
    minElement3 a b c ≤ a ∧ minElement3 a b c ≤ b ∧ minElement3 a b c ≤ c := by
  simp only [minElement3]
  split_ifs <;> refine ⟨?_, ?_, ?_⟩ <;> linarith

theorem le_maxElement3 [LinearOrderedField F] (a b c : F) :
    a ≤ maxElement3 a b c ∧ b ≤ maxElement3 a b c ∧ c ≤ maxElement3 a b c := by
  simp only [maxElement3]
  split_ifs <;> refine ⟨?_, ?_, ?_⟩ <;> linarith

theorem geomExtremes_finite [LinearOrderedField F] (g : Geom F) :
    ∃ lo hi : Vec3 F,
      geomExtremes g = ⟨.fin lo.x, .fin hi.x, .fin lo.y, .fin hi.y, .fin lo.z, .fin hi.z⟩ ∧
      lo.x ≤ hi.x ∧ lo.y ≤ hi.y ∧ lo.z ≤ hi.z := by
  have points : ∀ ps : List (Vec3 F), ps ≠ [] →
      ∃ lo hi : Vec3 F,
        ps.foldl (fun e v => e.addPoint (transformPoint g.transform v)) Extremes.init
          = ⟨.fin lo.x, .fin hi.x, .fin lo.y, .fin hi.y, .fin lo.z, .fin hi.z⟩ ∧
        lo.x ≤ hi.x ∧ lo.y ≤ hi.y ∧ lo.z ≤ hi.z := by
    intro ps hne
    obtain ⟨lx, hx, a1, a2, ⟨v, hv, _⟩, _, a5⟩ :=
      coordinate_extremes (fun v => (transformPoint g.transform v).x) ps hne
    obtain ⟨ly, hy, b1, b2, _, _, b5⟩ :=
      coordinate_extremes (fun v => (transformPoint g.transform v).y) ps hne
    obtain ⟨lz, hz, c1, c2, _, _, c5⟩ :=
      coordinate_extremes (fun v => (transformPoint g.transform v).z) ps hne
    refine ⟨⟨lx, ly, lz⟩, ⟨hx, hy, hz⟩, ?_, le_trans (a5 v hv).1 (a5 v hv).2,
      le_trans (b5 v hv).1 (b5 v hv).2, le_trans (c5 v hv).1 (c5 v hv).2⟩
    have hfold := foldl_addPoint (transformPoint g.transform) ps Extremes.init
    simp only [Extremes.init] at hfold
    rw [a1, a2, b1, b2, c1, c2] at hfold
    exact hfold
  cases htype : g.type with
  | TRIANGLE =>
    refine ⟨⟨minElement3 (g.triangle.vertices 0).x (g.triangle.vertices 1).x
        (g.triangle.vertices 2).x,
      minElement3 (g.triangle.vertices 0).y (g.triangle.vertices 1).y (g.triangle.vertices 2).y,
      minElement3 (g.triangle.vertices 0).z (g.triangle.vertices 1).z
        (g.triangle.vertices 2).z⟩,
      ⟨maxElement3 (g.triangle.vertices 0).x (g.triangle.vertices 1).x (g.triangle.vertices 2).x,
      maxElement3 (g.triangle.vertices 0).y (g.triangle.vertices 1).y (g.triangle.vertices 2).y,
      maxElement3 (g.triangle.vertices 0).z (g.triangle.vertices 1).z
        (g.triangle.vertices 2).z⟩, ?_, ?_, ?_, ?_⟩
    · simp only [geomExtremes, htype]
    · exact le_trans (minElement3_le _ _ _).1 (le_maxElement3 _ _ _).1
    · exact le_trans (minElement3_le _ _ _).1 (le_maxElement3 _ _ _).1
    · exact le_trans (minElement3_le _ _ _).1 (le_maxElement3 _ _ _).1
  | CUBE =>
    obtain ⟨lo, hi, h, hle⟩ := points box_vertices (by simp [box_vertices])
    exact ⟨lo, hi, by simpa only [geomExtremes, htype] using h, hle⟩
  | SPHERE =>
    obtain ⟨lo, hi, h, hle⟩ := points sphere_endpoints (by simp [sphere_endpoints])
    exact ⟨lo, hi, by simpa only [geomExtremes, htype] using h, hle⟩
  | OTHER tag =>
    exact ⟨⟨0, 0, 0⟩, ⟨0, 0, 0⟩, by simp only [geomExtremes, htype], le_refl _, le_refl _,
      le_refl _⟩

theorem scene_coordinate [LinearOrderedField F] (gs : List (Geom F)) (hne : gs ≠ [])
    (cmin cmax : Geom F → Ext F)
    (hfin : ∀ g ∈ gs, ∃ a b : F, cmin g = .fin a ∧ cmax g = .fin b ∧ a ≤ b) :
    ∃ lo hi : F,
      (gs.map cmin).foldl Ext.min .posInf = .fin lo ∧
      (gs.map cmax).foldl Ext.max .negInf = .fin hi ∧ lo ≤ hi ∧
      ∀ g ∈ gs, ∀ a b : F, cmin g = .fin a → cmax g = .fin b → lo ≤ a ∧ b ≤ hi := by
  have hne1 : gs.map cmin ≠ [] := fun h => hne (List.map_eq_nil_iff.mp h)
  have hne2 : gs.map cmax ≠ [] := fun h => hne (List.map_eq_nil_iff.mp h)
  have hfin1 : ∀ x ∈ gs.map cmin, ∃ v, x = Ext.fin v := by
    intro x hx
    obtain ⟨g, hg, rfl⟩ := List.mem_map.mp hx
    obtain ⟨a, _, ha, _⟩ := hfin g hg
    exact ⟨a, ha⟩
  have hfin2 : ∀ x ∈ gs.map cmax, ∃ v, x = Ext.fin v := by
    intro x hx
    obtain ⟨g, hg, rfl⟩ := List.mem_map.mp hx
    obtain ⟨_, b, _, hb, _⟩ := hfin g hg
    exact ⟨b, hb⟩
  obtain ⟨lo, h1, h2, h3⟩ := foldl_min_of_fin _ hne1 hfin1
  obtain ⟨hi, k1, k2, k3⟩ := foldl_max_of_fin _ hne2 hfin2
  have hall : ∀ g ∈ gs, ∀ a b : F, cmin g = .fin a → cmax g = .fin b → lo ≤ a ∧ b ≤ hi := by
    intro g hg a b ha hb
    exact ⟨h3 a (ha ▸ List.mem_map.mpr ⟨g, hg, rfl⟩), k3 b (hb ▸ List.mem_map.mpr ⟨g, hg, rfl⟩)⟩
  refine ⟨lo, hi, h1, k1, ?_, hall⟩
  obtain ⟨g1, hg1, hg1e⟩ := List.mem_map.mp h2
  obtain ⟨a, b, ha, hb, hab⟩ := hfin g1 hg1
  have := hall g1 hg1 a b ha hb
  have hlo : a = lo := Ext.fin.inj (ha.symm.trans hg1e)
  rw [hlo] at hab
  exact le_trans hab this.2

theorem boundary_encloses [LinearOrderedField F] (sc : Scene F) (hne : sc.geoms ≠ []) :
    ∃ lo hi : Vec3 F,
      (computeBoundary sc).boundary
        = { min_xyz := ⟨.fin lo.x, .fin lo.y, .fin lo.z⟩
            max_xyz := ⟨.fin hi.x, .fin hi.y, .fin hi.z⟩ } ∧
      lo.x ≤ hi.x ∧ lo.y ≤ hi.y ∧ lo.z ≤ hi.z ∧
      ∀ g ∈ sc.geoms, ∀ glo ghi : Vec3 F,
        geomExtremes g
          = ⟨.fin glo.x, .fin ghi.x, .fin glo.y, .fin ghi.y, .fin glo.z, .fin ghi.z⟩ →
        lo.x ≤ glo.x ∧ ghi.x ≤ hi.x ∧ lo.y ≤ glo.y ∧ ghi.y ≤ hi.y ∧
        lo.z ≤ glo.z ∧ ghi.z ≤ hi.z := by
  have hx := scene_coordinate sc.geoms hne (fun g => (geomExtremes g).x_min)
    (fun g => (geomExtremes g).x_max) (by
      intro g _
      obtain ⟨lo, hi, h, h1, _, _⟩ := geomExtremes_finite g
      exact ⟨lo.x, hi.x, by simp only [h], by simp only [h], h1⟩)
  have hy := scene_coordinate sc.geoms hne (fun g => (geomExtremes g).y_min)
    (fun g => (geomExtremes g).y_max) (by
      intro g _
      obtain ⟨lo, hi, h, _, h2, _⟩ := geomExtremes_finite g
      exact ⟨lo.y, hi.y, by simp only [h], by simp only [h], h2⟩)
  have hz := scene_coordinate sc.geoms hne (fun g => (geomExtremes g).z_min)
    (fun g => (geomExtremes g).z_max) (by
      intro g _
      obtain ⟨lo, hi, h, _, _, h3⟩ := geomExtremes_finite g
      exact ⟨lo.z, hi.z, by simp only [h], by simp only [h], h3⟩)
  obtain ⟨lx, ux, a1, a2, a3, a4⟩ := hx
  obtain ⟨ly, uy, b1, b2, b3, b4⟩ := hy
  obtain ⟨lz, uz, c1, c2, c3, c4⟩ := hz
  have hempty : sc.geoms.isEmpty = false := by
    cases hg : sc.geoms with
    | nil => exact absurd hg hne
    | cons g gs => rfl
  refine ⟨⟨lx, ly, lz⟩, ⟨ux, uy, uz⟩, ?_, a3, b3, c3, ?_⟩
  · simp only [computeBoundary, hempty, Bool.not_false, if_true, foldl_sceneStep,
      Extremes.init, a1, a2, b1, b2, c1, c2]
  · intro g hg glo ghi he
    have kx := a4 g hg glo.x ghi.x (by simp only [he]) (by simp only [he])
    have ky := b4 g hg glo.y ghi.y (by simp only [he]) (by simp only [he])
    have kz := c4 g hg glo.z ghi.z (by simp only [he]) (by simp only [he])
    exact ⟨kx.1, kx.2, ky.1, ky.2, kz.1, kz.2⟩

theorem rotateAboutZ_orthogonal [LinearOrderedField F] :
    (rotateAboutZ : Mat4 F).transpose.mul rotateAboutZ = Mat4.identity := by
  simp only [rotateAboutZ, Mat4.transpose, Mat4.mul, Mat4.mulVec, Mat4.identity]
  norm_num

theorem rotated_sphere_extremes [LinearOrderedField F] (geom : Geom F)
    (htype : geom.type = .SPHERE) (hT : geom.transform = rotateAboutZ) :
    geomExtremes geom
      = ⟨.fin (-(2 / 5)), .fin (2 / 5), .fin (-(2 / 5)), .fin (2 / 5),
         .fin (-(1 / 2)), .fin (1 / 2)⟩ := by
  simp only [geomExtremes, htype, hT, rotateAboutZ, sphere_endpoints, List.foldl_cons,
    List.foldl_nil, Extremes.init, Extremes.addPoint, Mat4.mulVec, Vec4.ofVec3,
    Vec4.toVec3, Ext.min_posInf, Ext.max_negInf, Ext.min_fin, Ext.max_fin]
  norm_num

theorem rotated_point [LinearOrderedField F] :
    transformPoint (rotateAboutZ : Mat4 F) ⟨3 / 10, -(2 / 5), 0⟩ = ⟨1 / 2, 0, 0⟩ := by
  simp only [transformPoint, rotateAboutZ, Mat4.mulVec, Vec4.ofVec3, Vec4.toVec3]
  norm_num

theorem sceneLoop_ignored [LinearOrderedField F] (env : Env F) (fuel : Nat)
    (line : String) (lines : List String)
    (ms : List (Material F)) (gs : List (Geom F)) (st : RenderState F) (bd : BoundingBox F)
    (h : line = "" ∨ ∃ key args, env.tokenizeString line = key :: args ∧
      key ≠ "MATERIAL" ∧ key ≠ "OBJECT" ∧ key ≠ "CAMERA") :
    sceneLoop env (fuel + 1) ⟨⟨line :: lines, true⟩, ms, gs, st, bd⟩
      = sceneLoop env fuel ⟨⟨lines, true⟩, ms, gs, st, bd⟩ := by
  rw [sceneLoop]
  rcases h with rfl | ⟨key, args, htok, h1, h2, h3⟩
  · simp only [safeGetline, if_true, ne_eq, not_true_eq_false, if_false]
  · by_cases hne : line = ""
    · subst hne
      simp only [safeGetline, if_true, ne_eq, not_true_eq_false, if_false]
    · simp only [safeGetline, if_true, ne_eq, hne, not_false_eq_true, htok, tokenAt,
        List.get?_cons_zero, bind, Except.bind, h1, h2, h3, if_false]

theorem sceneLoop_material_mismatch [LinearOrderedField F] (env : Env F) (fuel : Nat)
    (header idtok : String) (more lines : List String)
    (ms : List (Material F)) (gs : List (Geom F)) (st : RenderState F) (bd : BoundingBox F)
    (hne : header ≠ "") (htok : env.tokenizeString header = "MATERIAL" :: idtok :: more)
    (hid : env.atoi idtok ≠ (ms.length : Int)) (hsize : ms.length < 2 ^ 63) :
    sceneLoop env (fuel + 1) ⟨⟨header :: lines, true⟩, ms, gs, st, bd⟩
      = sceneLoop env fuel ⟨⟨lines, true⟩, ms, gs, st, bd⟩ := by
  have hr := env.atoi_int idtok
  have hmod : env.atoi idtok % 2 ^ 64 ≠ (ms.length : Int) := by
    have h63 : ((ms.length : Nat) : Int) < 2 ^ 63 := by exact_mod_cast hsize
    omega
  rw [sceneLoop]
  simp only [safeGetline, if_true, ne_eq, hne, not_false_eq_true, htok, tokenAt,
    List.get?_cons_zero, List.get?_cons_succ, bind, Except.bind, loadMaterial, hmod,
    pure, Except.pure]

theorem sceneLoop_properties [LinearOrderedField F] (env : Env F) (props : List String) :
    ∀ (fuel : Nat) (lines : List String)
      (ms : List (Material F)) (gs : List (Geom F)) (st : RenderState F) (bd : BoundingBox F),
      props.all (materialPropertyLine env) = true →
      sceneLoop env (fuel + props.length) ⟨⟨props ++ lines, true⟩, ms, gs, st, bd⟩
        = sceneLoop env fuel ⟨⟨lines, true⟩, ms, gs, st, bd⟩ := by
  induction props with
  | nil => intro fuel lines ms gs st bd _; rfl
  | cons p ps ih =>
    intro fuel lines ms gs st bd hall
    simp only [List.all_cons, Bool.and_eq_true] at hall
    have hp := hall.1
    unfold materialPropertyLine at hp
    rw [List.length_cons, ← Nat.add_assoc, List.cons_append]
    rw [sceneLoop_ignored env (fuel + ps.length) p (ps ++ lines) ms gs st bd]
    · exact ih fuel lines ms gs st bd hall.2
    · right
      cases htok : env.tokenizeString p with
      | nil => simp [htok] at hp
      | cons key args =>
        simp only [htok, Bool.and_eq_true, decide_eq_true_eq] at hp
        refine ⟨key, args, rfl, ?_, ?_, ?_⟩ <;>
          (intro hk; subst hk; exact absurd hp.1 (by decide))

theorem sceneLoop_materialBlocks_then [LinearOrderedField F] (env : Env F)
    (blocks : List MaterialBlock) :
    ∀ (fuel : Nat) (rest : List String) (ms : List (Material F)) (gs : List (Geom F))
      (st : RenderState F) (bd : BoundingBox F),
      wellFormedBlocks env ms.length blocks = true →
      sceneLoop env (fuel + blockRounds blocks)
          ⟨⟨blocks.flatMap MaterialBlock.lines ++ rest, true⟩, ms, gs, st, bd⟩
        = sceneLoop env fuel
          ⟨⟨rest, true⟩, ms ++ blocks.map (fun b => blockMaterial env b.props), gs, st, bd⟩ := by
  induction blocks with
  | nil =>
    intro fuel rest ms gs st bd _
    simp [blockRounds]
  | cons b bs ih =>
    intro fuel rest ms gs st bd hwf
    simp only [wellFormedBlocks, MaterialBlock.wellFormed, Bool.and_eq_true,
      decide_eq_true_eq] at hwf
    obtain ⟨⟨⟨⟨hne, hhead⟩, h7⟩, hprops⟩, hrest⟩ := hwf
    have hfuel : fuel + blockRounds (b :: bs) = ((fuel + blockRounds bs) + b.blanks) + 1 := by
      simp only [blockRounds]
      omega
    rw [hfuel]
    cases htok : env.tokenizeString b.header with
    | nil => simp [htok] at hhead
    | cons key more =>
      cases more with
      | nil => simp [htok] at hhead
      | cons idtok more =>
        simp only [htok, Bool.and_eq_true, decide_eq_true_eq] at hhead
        obtain ⟨hkey, hid⟩ := hhead
        subst hkey
        have hmod : env.atoi idtok % 2 ^ 64 = (ms.length : Int) := by
          rw [hid]
          have hr := (env.atoi_int idtok).2
          rw [hid] at hr
          omega
        have hloop := materialLoop_block env b.props []
          (List.replicate b.blanks "" ++ (bs.flatMap MaterialBlock.lines ++ rest)) true hprops
        rw [h7, blockMaterial_nil] at hloop
        simp only [List.flatMap_cons, MaterialBlock.lines, List.cons_append, List.append_assoc]
        rw [sceneLoop]
        simp only [safeGetline, if_true, ne_eq, hne, not_false_eq_true, htok, tokenAt,
          List.get?_cons_zero, List.get?_cons_succ, bind, Except.bind, loadMaterial, hmod,
          not_true_eq_false, if_false, hloop, pure, Except.pure, List.nil_append]
        rw [sceneLoop_blanks]
        have hwf2 : wellFormedBlocks env (ms ++ [blockMaterial env b.props]).length bs
            = true := by
          simpa using hrest
        have := ih fuel rest (ms ++ [blockMaterial env b.props]) gs st bd hwf2
        rw [this]
        simp

theorem exampleMaterials_prefix (rest : List String) (fuel : Nat) :
    sceneLoop realEnv (fuel + 3)
        (Scene.start realEnv (exampleMaterials.flatMap MaterialBlock.lines ++ rest))
      = sceneLoop realEnv fuel ⟨⟨rest, true⟩, exampleLoaded, [], realEnv.state,
          realEnv.boundary⟩ :=
  sceneLoop_materialBlocks_then realEnv exampleMaterials fuel rest [] [] realEnv.state
    realEnv.boundary (by decide)

end Lemmas

/-! ## Properties of loadMaterial -/

section Proofs

variable {F : Type}

/-- C1. A scene file made of N well-formed MATERIAL blocks (header `MATERIAL i` and 7
property lines, blank lines allowed after a block) with ids 0, 1, ..., N-1 in that
order loads, and the material list has length N with the property values of the block
declared with id `i` at index `i`. -/
theorem Scene_materials_in_order [LinearOrderedField F] (env : Env F)
    (blocks : List MaterialBlock) (hwf : wellFormedBlocks env 0 blocks = true) :
    ∃ sc, Scene.Scene env (some (blocks.flatMap MaterialBlock.lines)) = .ok sc ∧
      sc.materials.length = blocks.length ∧
      ∀ (i : Nat) (h : i < blocks.length),
        sc.materials[i]? = some (blockMaterial env (blocks.get ⟨i, h⟩).props) := by
  have hloop := sceneLoop_materialBlocks env blocks
    ((blocks.flatMap MaterialBlock.lines).length + 2) [] [] env.state env.boundary hwf
    (Nat.le_refl _)
  refine ⟨⟨⟨[], false⟩, blocks.map (fun b => blockMaterial env b.props), [], env.state,
    env.boundary⟩, ?_, ?_, ?_⟩
  · simp only [Scene.Scene, Scene.start, bind, Except.bind, hloop, List.nil_append]
    rfl
  · simp
  · intro i h
    simp [List.getElem?_map, List.getElem?_eq_getElem h]

/-- C1 at the example file of two MATERIAL blocks with ids 0 and 1. -/
theorem Scene_materials_in_order_witness :
    wellFormedBlocks realEnv 0 exampleMaterials = true ∧
    ∃ sc, Scene.Scene realEnv (some (exampleMaterials.flatMap MaterialBlock.lines)) = .ok sc ∧
      sc.materials.length = exampleMaterials.length ∧
      ∀ (i : Nat) (h : i < exampleMaterials.length),
        sc.materials[i]? = some (blockMaterial realEnv (exampleMaterials.get ⟨i, h⟩).props) :=
  ⟨by decide, Scene_materials_in_order realEnv exampleMaterials (by decide)⟩

/-- C2. A MATERIAL header whose id differs from the number of materials loaded so far
makes `loadMaterial` return -1 and leaves the whole scene (materials, geometries, render
state with the camera, boundary and stream position) as it was. -/
theorem loadMaterial_id_mismatch (env : Env F) (sc : Scene F) (materialid : String)
    (hsize : sc.materials.length < 2 ^ 63)
    (hid : env.atoi materialid ≠ (sc.materials.length : Int)) :
    loadMaterial env materialid sc = .ok (sc, -1) := by
  have hr := env.atoi_int materialid
  have hne : env.atoi materialid % 2 ^ 64 ≠ (sc.materials.length : Int) := by
    have h63 : ((sc.materials.length : Nat) : Int) < 2 ^ 63 := by exact_mod_cast hsize
    omega
  simp only [loadMaterial]
  rw [if_pos hne]
  rfl

/-- C2 at the header `MATERIAL 3` read while no material is loaded. -/
theorem loadMaterial_id_mismatch_witness :
    ((Scene.start realEnv ["RGB 1 1 1"]).materials.length < 2 ^ 63 ∧
      realEnv.atoi "3" ≠ ((Scene.start realEnv ["RGB 1 1 1"]).materials.length : Int)) ∧
    loadMaterial realEnv "3" (Scene.start realEnv ["RGB 1 1 1"])
      = .ok (Scene.start realEnv ["RGB 1 1 1"], -1) :=
  ⟨⟨by decide, by decide⟩,
   loadMaterial_id_mismatch realEnv _ "3" (by decide) (by decide)⟩

/-! ## Properties of loadObjMesh and loadGeom -/

theorem finRange_three : List.finRange 3 = [0, 1, 2] := by decide

/-- C3 (the code at the failing input). For the mesh of one shape with one triangular
face, `loadObjMesh` returns three records, not one: record `k` carries vertex `k` and
normal `k` of the face in slot `k`, and its two other slots keep the value of a fresh
`Geom` (zero in the example environment). -/
theorem loadObjMesh_one_record_per_vertex :
    (loadObjMesh realEnv "triangle.obj" "triangle.mtl").length = 3 ∧
    (loadObjMesh realEnv "triangle.obj" "triangle.mtl").map
        (fun g => [g.triangle.vertices 0, g.triangle.vertices 1, g.triangle.vertices 2])
      = [[⟨0, 1, 0⟩, Vec3.zero, Vec3.zero], [Vec3.zero, ⟨1, 2, 0⟩, Vec3.zero],
         [Vec3.zero, Vec3.zero, ⟨2, 3, 0⟩]] ∧
    (loadObjMesh realEnv "triangle.obj" "triangle.mtl").map
        (fun g => [g.triangle.normals 0, g.triangle.normals 1, g.triangle.normals 2])
      = [[⟨0, 0, 1⟩, Vec3.zero, Vec3.zero], [Vec3.zero, ⟨0, 0, 1⟩, Vec3.zero],
         [Vec3.zero, Vec3.zero, ⟨0, 0, 1⟩]] := by
  refine ⟨?_, ?_, ?_⟩
  · simp [loadObjMesh, realEnv, exampleEnv, exampleLoader, shapeStep, faceStep, vertexLoop,
      finRange_three, List.range, List.range.loop]
  · simp [loadObjMesh, realEnv, exampleEnv, exampleLoader, shapeStep, faceStep, vertexLoop,
      finRange_three, zeroGeom, List.range, List.range.loop, Function.update, Vec3.zero]
    norm_num
  · simp [loadObjMesh, realEnv, exampleEnv, exampleLoader, shapeStep, faceStep, vertexLoop,
      finRange_three, zeroGeom, List.range, List.range.loop, Function.update, Vec3.zero]

/-- C4. For a `mesh_obj` OBJECT block (type line, material line binding material `m`,
well-formed transformation lines, then a blank line or the end of the file) `loadGeom`
returns 1 and appends one triangle per record of `loadObjMesh`, in order; every appended
triangle carries material id `m` and the composed world transform `T` of the block, and
each of its 3 vertices is `T` applied to the corresponding imported vertex as a
homogeneous point with w = 1. -/
theorem loadGeom_mesh_vertices [LinearOrderedField F] (env : Env F) (sc : Scene F)
    (objectid typeLine matLine file_path material_path mkey mtok : String)
    (more more2 trans rest : List String)
    (hfp : sc.fp_in = ⟨typeLine :: matLine :: (trans ++ rest), true⟩)
    (hrest : rest = [] ∨ ∃ r, rest = "" :: r)
    (htype : typeLine ≠ "")
    (htok : env.tokenizeString typeLine = "mesh_obj" :: file_path :: material_path :: more)
    (hmat : matLine ≠ "")
    (hmtok : env.tokenizeString matLine = mkey :: mtok :: more2)
    (htrans : trans.all (wellFormedTransform env) = true) :
    ∃ sc' added, loadGeom env objectid sc = .ok (sc', 1) ∧ sc'.geoms = sc.geoms ++ added ∧
      List.Forall₂ (fun imported stored =>
          stored.materialid = env.atoi mtok ∧
          stored.transform = blockTransform env trans ∧
          ∀ i : Fin 3, stored.triangle.vertices i =
            ((blockTransform env trans).mulVec
              (Vec4.ofVec3 (imported.triangle.vertices i) 1)).toVec3)
        (loadObjMesh env file_path material_path) added := by
  refine ⟨_, _, loadGeom_mesh_block env sc objectid typeLine matLine file_path material_path
    mkey mtok more more2 trans rest hfp hrest htype htok hmat hmtok htrans, rfl, ?_⟩
  rw [List.forall₂_map_right_iff, List.forall₂_same]
  intro imported _
  exact ⟨rfl, rfl, fun _ => rfl⟩

/-- C4 at the block `mesh_obj triangle.obj ..`, `material 1`, `TRANS 1 2 3`, `SCALE 2 2 2`
followed by a blank line. -/
theorem loadGeom_mesh_vertices_witness :
    ∃ sc' added,
      loadGeom realEnv "0" (Scene.start realEnv
        ["mesh_obj triangle.obj triangle.mtl", "material 1", "TRANS 1 2 3", "SCALE 2 2 2", "",
          "CAMERA"]) = .ok (sc', 1) ∧
      sc'.geoms = [] ++ added ∧
      List.Forall₂ (fun imported stored =>
          stored.materialid = realEnv.atoi "1" ∧
          stored.transform = blockTransform realEnv ["TRANS 1 2 3", "SCALE 2 2 2"] ∧
          ∀ i : Fin 3, stored.triangle.vertices i =
            ((blockTransform realEnv ["TRANS 1 2 3", "SCALE 2 2 2"]).mulVec
              (Vec4.ofVec3 (imported.triangle.vertices i) 1)).toVec3)
        (loadObjMesh realEnv "triangle.obj" "triangle.mtl") added :=
  loadGeom_mesh_vertices realEnv
    (Scene.start realEnv
      ["mesh_obj triangle.obj triangle.mtl", "material 1", "TRANS 1 2 3", "SCALE 2 2 2", "",
        "CAMERA"])
    "0" "mesh_obj triangle.obj triangle.mtl" "material 1" "triangle.obj" "triangle.mtl"
    "material" "1" [] [] ["TRANS 1 2 3", "SCALE 2 2 2"] ["", "CAMERA"]
    rfl (Or.inr ⟨["CAMERA"], rfl⟩) (by decide) (by decide) (by decide) (by decide) (by decide)

theorem exampleMesh_eq :
    loadObjMesh realEnv "triangle.obj" "triangle.mtl"
      = [exampleRecord 0, exampleRecord 1, exampleRecord 2] := by
  simp [loadObjMesh, realEnv, exampleEnv, exampleLoader, shapeStep, faceStep, vertexLoop,
      finRange_three, List.range, List.range.loop, exampleRecord, zeroGeom]

/-- C5 (amended). For a `mesh_obj` OBJECT block with composed world transform `T`,
every appended triangle stores `inverseTranspose(T)` and each of its 3 normals is
`inverseTranspose(T)` applied to the corresponding imported normal as a direction
(w = 0); the code does not normalize the product. -/
theorem loadGeom_mesh_normals [LinearOrderedField F] (env : Env F) (sc : Scene F)
    (objectid typeLine matLine file_path material_path mkey mtok : String)
    (more more2 trans rest : List String)
    (hfp : sc.fp_in = ⟨typeLine :: matLine :: (trans ++ rest), true⟩)
    (hrest : rest = [] ∨ ∃ r, rest = "" :: r)
    (htype : typeLine ≠ "")
    (htok : env.tokenizeString typeLine = "mesh_obj" :: file_path :: material_path :: more)
    (hmat : matLine ≠ "")
    (hmtok : env.tokenizeString matLine = mkey :: mtok :: more2)
    (htrans : trans.all (wellFormedTransform env) = true) :
    ∃ sc' added, loadGeom env objectid sc = .ok (sc', 1) ∧ sc'.geoms = sc.geoms ++ added ∧
      List.Forall₂ (fun imported stored =>
          stored.invTranspose = env.inverseTranspose (blockTransform env trans) ∧
          ∀ i : Fin 3, stored.triangle.normals i =
            ((env.inverseTranspose (blockTransform env trans)).mulVec
              (Vec4.ofVec3 (imported.triangle.normals i) 0)).toVec3)
        (loadObjMesh env file_path material_path) added := by
  refine ⟨_, _, loadGeom_mesh_block env sc objectid typeLine matLine file_path material_path
    mkey mtok more more2 trans rest hfp hrest htype htok hmat hmtok htrans, rfl, ?_⟩
  rw [List.forall₂_map_right_iff, List.forall₂_same]
  intro imported _
  exact ⟨rfl, fun _ => rfl⟩

/-- C5 (amended) at the block `mesh_obj triangle.obj ..`, `material 0`, `SCALE 2 2 2` that
ends the file. -/
theorem loadGeom_mesh_normals_witness :
    ∃ sc' added,
      loadGeom realEnv "0" (Scene.start realEnv
        ["mesh_obj triangle.obj triangle.mtl", "material 0", "SCALE 2 2 2"]) = .ok (sc', 1) ∧
      sc'.geoms = [] ++ added ∧
      List.Forall₂ (fun imported stored =>
          stored.invTranspose = realEnv.inverseTranspose (blockTransform realEnv ["SCALE 2 2 2"]) ∧
          ∀ i : Fin 3, stored.triangle.normals i =
            ((realEnv.inverseTranspose (blockTransform realEnv ["SCALE 2 2 2"])).mulVec
              (Vec4.ofVec3 (imported.triangle.normals i) 0)).toVec3)
        (loadObjMesh realEnv "triangle.obj" "triangle.mtl") added :=
  loadGeom_mesh_normals realEnv
    (Scene.start realEnv ["mesh_obj triangle.obj triangle.mtl", "material 0", "SCALE 2 2 2"])
    "0" "mesh_obj triangle.obj triangle.mtl" "material 0" "triangle.obj" "triangle.mtl"
    "material" "0" [] [] ["SCALE 2 2 2"] []
    rfl (Or.inl rfl) (by decide) (by decide) (by decide) (by decide) (by decide)

/-- C5 (counterexample). The block `mesh_obj triangle.obj ..` with `SCALE 2 2 2`: the
world transform is the invertible scale by 2, its inverse-transpose maps the imported
normal (0, 0, 1) to the non-zero (0, 0, 1/2), and that is the stored normal; it is not
the normalized (0, 0, 1) and its squared length is 1/4, not 1. -/
theorem loadGeom_normal_not_normalized :
    ∃ sc' g,
      loadGeom realEnv "0" (Scene.start realEnv
        ["mesh_obj triangle.obj triangle.mtl", "material 0", "SCALE 2 2 2"]) = .ok (sc', 1) ∧
      sc'.geoms.head? = some g ∧
      (loadObjMesh realEnv "triangle.obj" "triangle.mtl").head?.map
        (fun imported => imported.triangle.normals 0) = some ⟨0, 0, 1⟩ ∧
      g.transform = ⟨⟨2, 0, 0, 0⟩, ⟨0, 2, 0, 0⟩, ⟨0, 0, 2, 0⟩, ⟨0, 0, 0, 1⟩⟩ ∧
      g.invTranspose.transpose.mul g.transform = Mat4.identity ∧
      (g.invTranspose.mulVec (Vec4.ofVec3 ⟨0, 0, 1⟩ 0)).toVec3 = ⟨0, 0, 1 / 2⟩ ∧
      Vec3.normalize Real.sqrt (g.invTranspose.mulVec (Vec4.ofVec3 ⟨0, 0, 1⟩ 0)).toVec3
        = ⟨0, 0, 1⟩ ∧
      g.triangle.normals 0 = ⟨0, 0, 1 / 2⟩ ∧
      g.triangle.normals 0
        ≠ Vec3.normalize Real.sqrt (g.invTranspose.mulVec (Vec4.ofVec3 ⟨0, 0, 1⟩ 0)).toVec3 ∧
      (g.triangle.normals 0).dot (g.triangle.normals 0) ≠ 1 := by
  have hload := loadGeom_mesh_block realEnv
    (Scene.start realEnv ["mesh_obj triangle.obj triangle.mtl", "material 0", "SCALE 2 2 2"])
    "0" "mesh_obj triangle.obj triangle.mtl" "material 0" "triangle.obj" "triangle.mtl"
    "material" "0" [] [] ["SCALE 2 2 2"] []
    rfl (Or.inl rfl) (by decide) (by decide) (by decide) (by decide) (by decide)
  have hT : blockTransform realEnv ["SCALE 2 2 2"]
      = ⟨⟨2, 0, 0, 0⟩, ⟨0, 2, 0, 0⟩, ⟨0, 0, 2, 0⟩, ⟨0, 0, 0, 1⟩⟩ := by
    simp [blockTransform, realEnv, exampleEnv, lastProperty, tokenizeChars, vec3Of,
      exampleAtof, decimalValue, unrotatedTransform, zeroGeom, Vec3.zero]
  have hbuild : realEnv.buildTransformationMatrix
      (blockGeom realEnv { realEnv.newGeom with materialid := realEnv.atoi "0" }
        ["SCALE 2 2 2"]).translation
      (blockGeom realEnv { realEnv.newGeom with materialid := realEnv.atoi "0" }
        ["SCALE 2 2 2"]).rotation
      (blockGeom realEnv { realEnv.newGeom with materialid := realEnv.atoi "0" }
        ["SCALE 2 2 2"]).scale = blockTransform realEnv ["SCALE 2 2 2"] := rfl
  have hIT : realEnv.inverseTranspose
      (⟨⟨2, 0, 0, 0⟩, ⟨0, 2, 0, 0⟩, ⟨0, 0, 2, 0⟩, ⟨0, 0, 0, 1⟩⟩ : Mat4 ℝ)
      = ⟨⟨1 / 2, 0, 0, 0⟩, ⟨0, 1 / 2, 0, 0⟩, ⟨0, 0, 1 / 2, 0⟩, ⟨0, 0, 0, 1⟩⟩ := by
    simp [realEnv, exampleEnv, unrotatedInverse, Mat4.transpose]
  have hg : (bakeTriangle realEnv
      (blockGeom realEnv { realEnv.newGeom with materialid := realEnv.atoi "0" }
        ["SCALE 2 2 2"]) (exampleRecord 0)).invTranspose
      = ⟨⟨1 / 2, 0, 0, 0⟩, ⟨0, 1 / 2, 0, 0⟩, ⟨0, 0, 1 / 2, 0⟩, ⟨0, 0, 0, 1⟩⟩ := by
    simp only [bakeTriangle, hbuild, hT, hIT]
  have hn : (bakeTriangle realEnv
      (blockGeom realEnv { realEnv.newGeom with materialid := realEnv.atoi "0" }
        ["SCALE 2 2 2"]) (exampleRecord 0)).triangle.normals 0 = ⟨0, 0, 1 / 2⟩ := by
    simp only [bakeTriangle, hbuild, hT, hIT]
    simp [exampleRecord, Mat4.mulVec, Vec4.ofVec3, Vec4.toVec3]
  refine ⟨_, bakeTriangle realEnv
    (blockGeom realEnv { realEnv.newGeom with materialid := realEnv.atoi "0" } ["SCALE 2 2 2"])
    (exampleRecord 0), hload, ?_, ?_, ?_, ?_, ?_, ?_, ?_, ?_, ?_⟩
  · simp [exampleMesh_eq, Scene.start]
  · simp [exampleMesh_eq, exampleRecord]
  · exact hT
  · rw [hg]
    simp only [bakeTriangle, hbuild, hT]
    simp [Mat4.transpose, Mat4.mul, Mat4.mulVec, Mat4.identity]
  · rw [hg]
    simp [Mat4.mulVec, Vec4.ofVec3, Vec4.toVec3]
  · rw [hg]
    simp [Mat4.mulVec, Vec4.ofVec3, Vec4.toVec3, Vec3.normalize, Vec3.dot]
  · exact hn
  · rw [hn, hg]
    simp [Mat4.mulVec, Vec4.ofVec3, Vec4.toVec3, Vec3.normalize, Vec3.dot]
  · rw [hn]
    simp [Vec3.dot]
    norm_num

/-! ## Properties of the scene bounding box -/

/-- C6. For a geometry list of exactly one cube or sphere whose world transform is the
identity matrix, the computed scene bounding box has min = (-0.5, -0.5, -0.5) and
max = (0.5, 0.5, 0.5). -/
theorem boundary_unit_cube_or_sphere [LinearOrderedField F] (sc : Scene F) (g : Geom F)
    (hgeoms : sc.geoms = [g]) (htype : g.type = .CUBE ∨ g.type = .SPHERE)
    (hT : g.transform = Mat4.identity) :
    (computeBoundary sc).boundary
      = { min_xyz := ⟨.fin (-0.5), .fin (-0.5), .fin (-0.5)⟩
          max_xyz := ⟨.fin 0.5, .fin 0.5, .fin 0.5⟩ } := by
  rcases htype with h | h
  · simp [computeBoundary, hgeoms, sceneStep, geomExtremes, h, hT, box_vertices,
      Extremes.init, Extremes.addPoint, Mat4.identity, Mat4.mulVec, Vec4.ofVec3, Vec4.toVec3,
      Ext.min_posInf, Ext.max_negInf, Ext.min_fin, Ext.max_fin]
    norm_num
  · simp [computeBoundary, hgeoms, sceneStep, geomExtremes, h, hT, sphere_endpoints,
      Extremes.init, Extremes.addPoint, Mat4.identity, Mat4.mulVec, Vec4.ofVec3, Vec4.toVec3,
      Ext.min_posInf, Ext.max_negInf, Ext.min_fin, Ext.max_fin]
    norm_num

/-- C6 at the scene of one sphere with the identity transform. -/
theorem boundary_unit_cube_or_sphere_witness :
    ({ Scene.start realEnv [] with geoms := [exampleGeom .SPHERE Mat4.identity] }
        : Scene ℝ).geoms = [exampleGeom .SPHERE Mat4.identity] ∧
    ((exampleGeom .SPHERE Mat4.identity : Geom ℝ).type = .CUBE ∨
      (exampleGeom .SPHERE Mat4.identity : Geom ℝ).type = .SPHERE) ∧
    (exampleGeom .SPHERE Mat4.identity : Geom ℝ).transform = Mat4.identity ∧
    (computeBoundary ({ Scene.start realEnv [] with
        geoms := [exampleGeom .SPHERE Mat4.identity] } : Scene ℝ)).boundary
      = { min_xyz := ⟨.fin (-0.5), .fin (-0.5), .fin (-0.5)⟩
          max_xyz := ⟨.fin 0.5, .fin 0.5, .fin 0.5⟩ } :=
  ⟨rfl, Or.inr rfl, rfl,
   boundary_unit_cube_or_sphere _ (exampleGeom .SPHERE Mat4.identity) rfl (Or.inr rfl) rfl⟩

/-- C7. For every non-empty geometry list each coordinate of the min corner of the
scene bounding box is the minimum, and each coordinate of the max corner the maximum,
of that coordinate over the per-geometry extents. For a cube scaled by 2 at the origin
(extent -1 .. 1 on every axis) and a sphere translated by (3, 0, 0) (extent 2.5 .. 3.5
in x, -0.5 .. 0.5 in y and z) the box is x in [-1, 3.5], y and z in [-1, 1]. -/
theorem boundary_is_componentwise_fold (F : Type) [LinearOrderedField F] :
    (∀ sc : Scene F, sc.geoms ≠ [] →
      IsMinOf (computeBoundary sc).boundary.min_xyz.x
        (sc.geoms.map (fun g => (geomExtremes g).x_min)) ∧
      IsMinOf (computeBoundary sc).boundary.min_xyz.y
        (sc.geoms.map (fun g => (geomExtremes g).y_min)) ∧
      IsMinOf (computeBoundary sc).boundary.min_xyz.z
        (sc.geoms.map (fun g => (geomExtremes g).z_min)) ∧
      IsMaxOf (computeBoundary sc).boundary.max_xyz.x
        (sc.geoms.map (fun g => (geomExtremes g).x_max)) ∧
      IsMaxOf (computeBoundary sc).boundary.max_xyz.y
        (sc.geoms.map (fun g => (geomExtremes g).y_max)) ∧
      IsMaxOf (computeBoundary sc).boundary.max_xyz.z
        (sc.geoms.map (fun g => (geomExtremes g).z_max))) ∧
    (∀ (sc : Scene F) (cube sphere : Geom F), sc.geoms = [cube, sphere] →
      cube.type = .CUBE → cube.transform = scaleByTwo →
      sphere.type = .SPHERE → sphere.transform = translateByThree →
      geomExtremes cube = ⟨.fin (-1), .fin 1, .fin (-1), .fin 1, .fin (-1), .fin 1⟩ ∧
      geomExtremes sphere
        = ⟨.fin 2.5, .fin 3.5, .fin (-0.5), .fin 0.5, .fin (-0.5), .fin 0.5⟩ ∧
      (computeBoundary sc).boundary
        = { min_xyz := ⟨.fin (-1), .fin (-1), .fin (-1)⟩
            max_xyz := ⟨.fin 3.5, .fin 1, .fin 1⟩ }) := by
  constructor
  · intro sc hne
    have hmap : ∀ f : Geom F → Ext F, sc.geoms.map f ≠ [] := by
      intro f h
      exact hne (List.map_eq_nil_iff.mp h)
    have hempty : sc.geoms.isEmpty = false := by
      cases hg : sc.geoms with
      | nil => exact absurd hg hne
      | cons g gs => rfl
    simp only [computeBoundary, hempty, Bool.not_false, if_true, foldl_sceneStep,
      Extremes.init]
    exact ⟨foldl_min_isMinOf _ (hmap _), foldl_min_isMinOf _ (hmap _),
      foldl_min_isMinOf _ (hmap _), foldl_max_isMaxOf _ (hmap _),
      foldl_max_isMaxOf _ (hmap _), foldl_max_isMaxOf _ (hmap _)⟩
  · intro sc cube sphere hgeoms hc hcT hs hsT
    have h1 : geomExtremes cube
        = ⟨.fin (-1), .fin 1, .fin (-1), .fin 1, .fin (-1), .fin 1⟩ := by
      simp [geomExtremes, hc, hcT, scaleByTwo, box_vertices, Extremes.init,
        Extremes.addPoint, Mat4.mulVec, Vec4.ofVec3, Vec4.toVec3, Ext.min_posInf,
        Ext.max_negInf, Ext.min_fin, Ext.max_fin]
      norm_num
    have h2 : geomExtremes sphere
        = ⟨.fin 2.5, .fin 3.5, .fin (-0.5), .fin 0.5, .fin (-0.5), .fin 0.5⟩ := by
      simp [geomExtremes, hs, hsT, translateByThree, sphere_endpoints, Extremes.init,
        Extremes.addPoint, Mat4.mulVec, Vec4.ofVec3, Vec4.toVec3, Ext.min_posInf,
        Ext.max_negInf, Ext.min_fin, Ext.max_fin]
      norm_num
    refine ⟨h1, h2, ?_⟩
    simp [computeBoundary, hgeoms, sceneStep, h1, h2, Extremes.init, Ext.min_posInf,
      Ext.max_negInf, Ext.min_fin, Ext.max_fin]
    norm_num

/-- C7 at the scene of the cube scaled by 2 and the sphere translated by (3, 0, 0). -/
theorem boundary_is_componentwise_fold_witness :
    ({ Scene.start realEnv [] with
        geoms := [exampleGeom .CUBE scaleByTwo, exampleGeom .SPHERE translateByThree] }
        : Scene ℝ).geoms ≠ [] ∧
    IsMinOf (computeBoundary ({ Scene.start realEnv [] with
        geoms := [exampleGeom .CUBE scaleByTwo, exampleGeom .SPHERE translateByThree] }
        : Scene ℝ)).boundary.min_xyz.x
      ([exampleGeom .CUBE scaleByTwo, exampleGeom .SPHERE translateByThree].map
        (fun g => (geomExtremes g).x_min)) ∧
    (computeBoundary ({ Scene.start realEnv [] with
        geoms := [exampleGeom .CUBE scaleByTwo, exampleGeom .SPHERE translateByThree] }
        : Scene ℝ)).boundary
      = { min_xyz := ⟨.fin (-1), .fin (-1), .fin (-1)⟩
          max_xyz := ⟨.fin 3.5, .fin 1, .fin 1⟩ } :=
  ⟨by simp,
   ((boundary_is_componentwise_fold ℝ).1 _ (by simp)).1,
   ((boundary_is_componentwise_fold ℝ).2 _ (exampleGeom .CUBE scaleByTwo)
      (exampleGeom .SPHERE translateByThree) rfl rfl rfl rfl rfl).2.2⟩

/-- C8 (amended). When the finished geometry list is empty the bounding step assigns
nothing: the boundary (and the rest of the scene) keeps the value it had, whatever
that value is; no marker of absence is stored. -/
theorem boundary_unassigned_when_empty [LinearOrderedField F] (sc : Scene F)
    (hgeoms : sc.geoms = []) :
    computeBoundary sc = sc ∧ (computeBoundary sc).boundary = sc.boundary := by
  simp [computeBoundary, hgeoms]

/-- C8 (amended) at the scene of the empty file. -/
theorem boundary_unassigned_when_empty_witness :
    (Scene.start realEnv []).geoms = [] ∧
    computeBoundary (Scene.start realEnv []) = Scene.start realEnv [] ∧
    (computeBoundary (Scene.start realEnv [])).boundary = (Scene.start realEnv []).boundary :=
  ⟨rfl, boundary_unassigned_when_empty (Scene.start realEnv []) rfl⟩

/-- C8 (counterexample). With a zero-initialised boundary member, the scene of the empty
file (no geometry) ends with the box min = max = (0, 0, 0), and so does the scene of a
file with one cube scaled by 0: the result for the empty list is the same value as a
zero-sized box at the origin computed for a non-empty list. -/
theorem empty_boundary_equals_zero_box :
    (Scene.Scene realEnv (some [])).map (fun sc => (sc.geoms.length, sc.boundary))
      = .ok (0, zeroBox) ∧
    (Scene.Scene realEnv (some ["OBJECT 0", "cube", "material 0", "SCALE 0 0 0"])).map
        (fun sc => (sc.geoms.length, sc.boundary))
      = .ok (1, zeroBox) := by
  constructor
  · simp [Scene.Scene, Scene.start, sceneLoop, safeGetline, computeBoundary, realEnv, exampleEnv,
      bind, Except.bind, pure, Except.pure, Except.map]
  · simp [Scene.Scene, Scene.start, sceneLoop, safeGetline, realEnv, exampleEnv,
      bind, Except.bind, pure, Except.pure, Except.map, tokenizeChars, tokenAt, loadGeom,
      geomTypeLine, transformLoop, transformLine, exampleAtof, decimalValue, exampleAtoi,
      digitsValue, unrotatedTransform, zeroGeom, Vec3.zero,
      computeBoundary, sceneStep, geomExtremes, box_vertices,
      Extremes.init, Extremes.addPoint, Mat4.mulVec, Vec4.ofVec3, Vec4.toVec3,
      Ext.min_posInf, Ext.max_negInf, Ext.min_fin, Ext.max_fin, zeroBox]

/-! ## Properties of loadCamera -/

theorem half_angle_mismatch :
    Real.tan (Real.arctan (1 * 800 / 600) * 180 / Real.pi / 2 * (Real.pi / 180))
      ≠ Real.tan (45 / 2 * (Real.pi / 180)) * (800 / 600) := by
  have hpi : Real.pi ≠ 0 := Real.pi_ne_zero
  have e1 : Real.arctan (1 * 800 / 600) * 180 / Real.pi / 2 * (Real.pi / 180)
      = Real.arctan (4 / 3) / 2 := by
    have : (1 * 800 / 600 : ℝ) = 4 / 3 := by norm_num
    rw [this]
    field_simp
    ring
  have e2 : (45 / 2 * (Real.pi / 180) : ℝ) = Real.pi / 8 := by ring
  rw [e1, e2]
  have hs := Real.tan_two_mul (x := Real.arctan (4 / 3) / 2)
  rw [mul_div_cancel₀ _ (two_ne_zero), Real.tan_arctan] at hs
  have ht := Real.tan_two_mul (x := Real.pi / 8)
  have e3 : 2 * (Real.pi / 8) = Real.pi / 4 := by ring
  rw [e3, Real.tan_pi_div_four] at ht
  intro h
  have e4 : (800 / 600 : ℝ) = 4 / 3 := by norm_num
  rw [e4] at h
  rw [h] at hs
  generalize Real.tan (Real.pi / 8) = t at hs ht
  have hd1 : (1 - t ^ 2) ≠ 0 := by
    intro h0
    rw [h0, div_zero] at ht
    exact one_ne_zero ht
  have hd2 : (1 - (t * (4 / 3)) ^ 2) ≠ 0 := by
    intro h0
    rw [h0, div_zero] at hs
    norm_num at hs
  rw [eq_div_iff hd1] at ht
  rw [eq_div_iff hd2] at hs
  have ht2 : t = 1 / 2 := by
    ring_nf at hs ht
    linarith
  rw [ht2] at ht
  norm_num at ht

/-- C9 (amended). For a CAMERA block (5 well-formed static lines, well-formed vector
lines, then a blank line or the end of the file) with resolution width, height > 0 and
width * height below 2^31, `loadCamera` returns 1 and stores a horizontal field of view
`fovx` with tan(fovx · π/180) = tan(fovy · π/180) · (width / height) over the reals: the
angles enter whole, not halved. -/
theorem loadCamera_fov (env : Env ℝ) (sc : Scene ℝ) (statics vectors rest : List String)
    (w h : Int)
    (htan : env.tan = Real.tan) (hatan : env.atan = Real.arctan) (hpi : env.PI = Real.pi)
    (hfp : sc.fp_in = ⟨statics ++ (vectors ++ rest), true⟩)
    (hrest : rest = [] ∨ ∃ r, rest = "" :: r)
    (hlen : statics.length = num_static_prop)
    (hstatics : statics.all (wellFormedStatic env) = true)
    (hvectors : vectors.all (wellFormedVector env) = true)
    (hres : resolutionOf env sc.state.camera.resolution (lastProperty env "RES" statics)
      = ⟨w, h⟩)
    (hw : 0 < w) (hh : 0 < h) (hwh : w * h < 2 ^ 31) :
    ∃ sc', loadCamera env sc = .ok (sc', 1) ∧
      sc'.state.camera.resolution = ⟨w, h⟩ ∧
      sc'.state.camera.fov.y = scalarOf env env.fovy (lastProperty env "FOVY" statics) ∧
      Real.tan (sc'.state.camera.fov.x * (Real.pi / 180))
        = Real.tan (sc'.state.camera.fov.y * (Real.pi / 180)) * ((w : ℝ) / (h : ℝ)) := by
  have hr : (blockStatic env (sc.state, env.fovy) statics).1.camera.resolution = ⟨w, h⟩ := hres
  have hload := loadCamera_block env sc statics vectors rest hfp hrest hlen hstatics hvectors
    (by rw [hr]; exact le_of_lt (Int.mul_pos hw hh)) (by rw [hr]; exact hwh)
  refine ⟨_, hload, hr, rfl, ?_⟩
  simp only [cameraDerive, blockCamera, hr, htan, hatan, hpi]
  have hpi0 : Real.pi ≠ 0 := Real.pi_ne_zero
  have e : Real.arctan (Real.tan ((blockStatic env (sc.state, env.fovy) statics).2
      * (Real.pi / 180)) * (w : ℝ) / (h : ℝ)) * 180 / Real.pi * (Real.pi / 180)
      = Real.arctan (Real.tan ((blockStatic env (sc.state, env.fovy) statics).2
      * (Real.pi / 180)) * (w : ℝ) / (h : ℝ)) := by
    field_simp
  rw [e, Real.tan_arctan, mul_div_assoc]

/-- C9 (amended) at the CAMERA block with RES 800 600 and FOVY 45. -/
theorem loadCamera_fov_witness :
    ∃ sc', loadCamera realEnv (Scene.start realEnv exampleCamera) = .ok (sc', 1) ∧
      sc'.state.camera.resolution = ⟨800, 600⟩ ∧
      sc'.state.camera.fov.y
        = scalarOf realEnv realEnv.fovy (lastProperty realEnv "FOVY" (exampleCamera.take 5)) ∧
      Real.tan (sc'.state.camera.fov.x * (Real.pi / 180))
        = Real.tan (sc'.state.camera.fov.y * (Real.pi / 180))
          * (((800 : Int) : ℝ) / ((600 : Int) : ℝ)) :=
  loadCamera_fov realEnv (Scene.start realEnv exampleCamera) (exampleCamera.take 5)
    (exampleCamera.drop 5) [] 800 600 rfl rfl rfl rfl (Or.inl rfl) rfl (by decide)
    (by decide) (by decide) (by decide) (by decide) (by decide)

/-- C9 (counterexample). For RES 800 600 and FOVY 45 the stored `fovx` does not satisfy
the half-angle relation: tan(fovx/2 · π/180) is 1/2, and tan(fovy/2 · π/180) · (800/600)
is 4 (√2 - 1) / 3. -/
theorem loadCamera_fov_half_angle_fails :
    ∃ sc', loadCamera realEnv (Scene.start realEnv exampleCamera) = .ok (sc', 1) ∧
      sc'.state.camera.resolution = ⟨800, 600⟩ ∧
      sc'.state.camera.fov.y = 45 ∧
      Real.tan (sc'.state.camera.fov.x / 2 * (Real.pi / 180))
        ≠ Real.tan (sc'.state.camera.fov.y / 2 * (Real.pi / 180)) * (800 / 600) := by
  have hload := loadCamera_block realEnv (Scene.start realEnv exampleCamera)
    (exampleCamera.take 5) (exampleCamera.drop 5) [] rfl (Or.inl rfl) rfl (by decide)
    (by decide) (by decide) (by decide)
  have hfovy : (blockStatic realEnv ((Scene.start realEnv exampleCamera).state, realEnv.fovy)
      (exampleCamera.take 5)).2 = 45 := by
    simp [blockStatic, exampleCamera, lastProperty, realEnv, exampleEnv, tokenizeChars,
      scalarOf, exampleAtof, decimalValue]
  have hr : (blockStatic realEnv ((Scene.start realEnv exampleCamera).state, realEnv.fovy)
      (exampleCamera.take 5)).1.camera.resolution = ⟨800, 600⟩ := by decide
  refine ⟨_, hload, hr, hfovy, ?_⟩
  simp only [cameraDerive, blockCamera, hr, hfovy]
  have e : realEnv.tan (45 * (realEnv.PI / 180)) = 1 := by
    show Real.tan (45 * (Real.pi / 180)) = 1
    have : (45 * (Real.pi / 180) : ℝ) = Real.pi / 4 := by ring
    rw [this, Real.tan_pi_div_four]
  rw [e]
  exact half_angle_mismatch

/-- C10 (the code at the failing input). A scene file with two CAMERA blocks, the first
looking along z and the second along x, both with up = (0, 1, 0): after the load the view
is (1, 0, 0) and `right` is (-1, 0, 0), computed from the view (0, 0, 1) of the first
block. The value normalize(cross(view, up)) for the final view is (0, 0, 1), and
dot(right, view) is -1, not 0. -/
theorem loadCamera_right_from_stale_view :
    (Scene.Scene realEnv (some twoCameras)).map
        (fun sc => (sc.state.camera.view, sc.state.camera.up, sc.state.camera.right))
      = .ok (⟨1, 0, 0⟩, ⟨0, 1, 0⟩, ⟨-1, 0, 0⟩) ∧
    Vec3.normalize Real.sqrt (Vec3.cross (⟨1, 0, 0⟩ : Vec3 ℝ) ⟨0, 1, 0⟩) = ⟨0, 0, 1⟩ ∧
    Vec3.dot (⟨-1, 0, 0⟩ : Vec3 ℝ) ⟨1, 0, 0⟩ = -1 := by
  refine ⟨?_, ?_, ?_⟩
  · have h1 : loadCamera realEnv
        ⟨⟨twoCameras.drop 1, true⟩, [], [], realEnv.state, realEnv.boundary⟩
        = .ok (⟨⟨"CAMERA" :: twoCameras.drop 11, true⟩, [], [],
            { (blockStatic realEnv (realEnv.state, realEnv.fovy)
                ((twoCameras.drop 1).take 5)).1 with
              camera := cameraDerive realEnv
                (blockCamera realEnv (blockStatic realEnv (realEnv.state, realEnv.fovy)
                  ((twoCameras.drop 1).take 5)).1.camera ((twoCameras.drop 6).take 3))
                (blockStatic realEnv (realEnv.state, realEnv.fovy)
                  ((twoCameras.drop 1).take 5)).2
              image := resizeAndFill (blockStatic realEnv (realEnv.state, realEnv.fovy)
                  ((twoCameras.drop 1).take 5)).1.image
                ((blockStatic realEnv (realEnv.state, realEnv.fovy)
                  ((twoCameras.drop 1).take 5)).1.camera.resolution.x *
                 (blockStatic realEnv (realEnv.state, realEnv.fovy)
                  ((twoCameras.drop 1).take 5)).1.camera.resolution.y).toNat },
            realEnv.boundary⟩, 1) :=
      loadCamera_block realEnv
        ⟨⟨twoCameras.drop 1, true⟩, [], [], realEnv.state, realEnv.boundary⟩
        ((twoCameras.drop 1).take 5) ((twoCameras.drop 6).take 3) (twoCameras.drop 9)
        rfl (Or.inr ⟨_, rfl⟩) rfl (by decide) (by decide) (by decide) (by decide)
    have hstep1 := sceneLoop_camera realEnv 20 "CAMERA" (twoCameras.drop 1) []
      [] [] realEnv.state realEnv.boundary (by decide) (by decide)
    generalize hst1 : ({ (blockStatic realEnv (realEnv.state, realEnv.fovy)
                ((twoCameras.drop 1).take 5)).1 with
              camera := cameraDerive realEnv
                (blockCamera realEnv (blockStatic realEnv (realEnv.state, realEnv.fovy)
                  ((twoCameras.drop 1).take 5)).1.camera ((twoCameras.drop 6).take 3))
                (blockStatic realEnv (realEnv.state, realEnv.fovy)
                  ((twoCameras.drop 1).take 5)).2
              image := resizeAndFill (blockStatic realEnv (realEnv.state, realEnv.fovy)
                  ((twoCameras.drop 1).take 5)).1.image
                ((blockStatic realEnv (realEnv.state, realEnv.fovy)
                  ((twoCameras.drop 1).take 5)).1.camera.resolution.x *
                 (blockStatic realEnv (realEnv.state, realEnv.fovy)
                  ((twoCameras.drop 1).take 5)).1.camera.resolution.y).toNat }
              : RenderState ℝ) = st1 at h1
    have hview1 : st1.camera.view = ⟨0, 0, 1⟩ := by
      rw [← hst1]
      simp [cameraDerive, blockCamera, blockStatic, twoCameras, lastProperty, realEnv,
        exampleEnv, tokenizeChars, vec3Of, exampleAtof, decimalValue, zeroState,
        Vec3.zero, Vec3.normalize, Vec3.sub, Vec3.dot]
    have hres2 : (blockStatic realEnv (st1, realEnv.fovy)
        ((twoCameras.drop 11).take 5)).1.camera.resolution = ⟨800, 600⟩ := by
      simp [blockStatic, twoCameras, lastProperty, realEnv, exampleEnv, tokenizeChars,
        resolutionOf, exampleAtoi, digitsValue]
    have h2 := loadCamera_block realEnv
      ⟨⟨twoCameras.drop 11, true⟩, [], [], st1, realEnv.boundary⟩
      ((twoCameras.drop 11).take 5) ((twoCameras.drop 16).take 3) []
      rfl (Or.inl rfl) rfl (by decide) (by decide)
      (by rw [hres2]; decide) (by rw [hres2]; decide)
    have hstep2 := sceneLoop_camera realEnv 19 "CAMERA" (twoCameras.drop 11) []
      [] [] st1 realEnv.boundary (by decide) (by decide)
    have hloop : sceneLoop realEnv (twoCameras.length + 2) (Scene.start realEnv twoCameras)
        = .ok ({ (⟨⟨twoCameras.drop 11, true⟩, [], [], st1, realEnv.boundary⟩ : Scene ℝ) with
            fp_in := afterBlock []
            state := { (blockStatic realEnv (st1, realEnv.fovy)
                ((twoCameras.drop 11).take 5)).1 with
              camera := cameraDerive realEnv
                (blockCamera realEnv (blockStatic realEnv (st1, realEnv.fovy)
                  ((twoCameras.drop 11).take 5)).1.camera ((twoCameras.drop 16).take 3))
                (blockStatic realEnv (st1, realEnv.fovy) ((twoCameras.drop 11).take 5)).2
              image := resizeAndFill (blockStatic realEnv (st1, realEnv.fovy)
                  ((twoCameras.drop 11).take 5)).1.image
                ((blockStatic realEnv (st1, realEnv.fovy)
                  ((twoCameras.drop 11).take 5)).1.camera.resolution.x *
                 (blockStatic realEnv (st1, realEnv.fovy)
                  ((twoCameras.drop 11).take 5)).1.camera.resolution.y).toNat } }) := by
      refine hstep1.trans ?_
      rw [h1]
      refine (hstep2.trans ?_)
      rw [h2]
      exact sceneLoop_done realEnv 18 _ _ _ _ _
    simp only [Scene.Scene, bind, Except.bind, hloop, pure, Except.pure, Except.map,
      computeBoundary, List.isEmpty, Bool.not_true]
    simp [cameraDerive, blockCamera, blockStatic, hview1, twoCameras, lastProperty, realEnv,
        exampleEnv, tokenizeChars, vec3Of, exampleAtof, decimalValue,
        Vec3.zero, Vec3.normalize, Vec3.sub, Vec3.dot, Vec3.cross]
  · simp [Vec3.normalize, Vec3.cross, Vec3.dot]
  · simp [Vec3.dot]

/-- C11 (amended). For a CAMERA block (5 well-formed static lines, well-formed vector
lines, then a blank line or the end of the file) with resolution width × height and
0 ≤ width · height < 2^31, `loadCamera` returns 1 and the pixel buffer afterwards has
exactly width · height entries, every one the zero vector, whatever the buffer held
before. -/
theorem loadCamera_image [LinearOrderedField F] (env : Env F) (sc : Scene F)
    (statics vectors rest : List String) (w h : Int)
    (hfp : sc.fp_in = ⟨statics ++ (vectors ++ rest), true⟩)
    (hrest : rest = [] ∨ ∃ r, rest = "" :: r)
    (hlen : statics.length = num_static_prop)
    (hstatics : statics.all (wellFormedStatic env) = true)
    (hvectors : vectors.all (wellFormedVector env) = true)
    (hres : resolutionOf env sc.state.camera.resolution (lastProperty env "RES" statics)
      = ⟨w, h⟩)
    (h0 : 0 ≤ w * h) (h1 : w * h < 2 ^ 31) :
    ∃ sc', loadCamera env sc = .ok (sc', 1) ∧
      sc'.state.camera.resolution = ⟨w, h⟩ ∧
      (sc'.state.image.length : Int) = w * h ∧
      ∀ v ∈ sc'.state.image, v = Vec3.zero := by
  have hr : (blockStatic env (sc.state, env.fovy) statics).1.camera.resolution = ⟨w, h⟩ := hres
  have hload := loadCamera_block env sc statics vectors rest hfp hrest hlen hstatics hvectors
    (by rw [hr]; exact h0) (by rw [hr]; exact h1)
  refine ⟨_, hload, hr, ?_, ?_⟩
  · simp only [resizeAndFill_length, hr]
    exact Int.toNat_of_nonneg h0
  · exact resizeAndFill_zero _ _

/-- C11 (amended) at the CAMERA block with RES 800 600, read while the buffer holds one
non-zero pixel. -/
theorem loadCamera_image_witness :
    ∃ sc', loadCamera realEnv
        { Scene.start realEnv exampleCamera with
          state := { (zeroState : RenderState ℝ) with image := [⟨1, 2, 3⟩] } } = .ok (sc', 1) ∧
      sc'.state.camera.resolution = ⟨800, 600⟩ ∧
      (sc'.state.image.length : Int) = 800 * 600 ∧
      ∀ v ∈ sc'.state.image, v = Vec3.zero :=
  loadCamera_image realEnv
    { Scene.start realEnv exampleCamera with
      state := { (zeroState : RenderState ℝ) with image := [⟨1, 2, 3⟩] } }
    (exampleCamera.take 5) (exampleCamera.drop 5) [] 800 600 rfl (Or.inl rfl) rfl (by decide)
    (by decide) (by decide) (by decide) (by decide)

/-- C11 (counterexample). For RES 65536 65536 the product width · height is 2^32, the
`int arraylen` overflows, and `loadCamera` does not produce a buffer of 2^32 entries. -/
theorem loadCamera_image_overflow :
    (resolutionOf realEnv (Scene.start realEnv hugeCamera).state.camera.resolution
        (lastProperty realEnv "RES" (hugeCamera.take 5)) = ⟨65536, 65536⟩) ∧
    loadCamera realEnv (Scene.start realEnv hugeCamera) = .error .intOverflow := by
  have hr : (blockStatic realEnv ((Scene.start realEnv hugeCamera).state, realEnv.fovy)
      (hugeCamera.take 5)).1.camera.resolution = ⟨65536, 65536⟩ := by decide
  refine ⟨hr, ?_⟩
  rw [loadCamera_loops realEnv (Scene.start realEnv hugeCamera) (hugeCamera.take 5)
    (hugeCamera.drop 5) [] rfl (Or.inl rfl) rfl (by decide) (by decide), hr]
  rfl

/-- C15. For a `mesh_obj` OBJECT block whose mesh importer reports not-ready,
`loadObjMesh` returns the empty sequence, and `loadGeom` returns 1 and leaves the
geometry list as it was. -/
theorem loadGeom_mesh_not_ready [LinearOrderedField F] (env : Env F) (sc : Scene F)
    (objectid typeLine matLine file_path material_path mkey mtok : String)
    (more more2 trans rest : List String)
    (hfp : sc.fp_in = ⟨typeLine :: matLine :: (trans ++ rest), true⟩)
    (hrest : rest = [] ∨ ∃ r, rest = "" :: r)
    (htype : typeLine ≠ "")
    (htok : env.tokenizeString typeLine = "mesh_obj" :: file_path :: material_path :: more)
    (hmat : matLine ≠ "")
    (hmtok : env.tokenizeString matLine = mkey :: mtok :: more2)
    (htrans : trans.all (wellFormedTransform env) = true)
    (hready : (env.objLoader file_path material_path).isReady = false) :
    loadObjMesh env file_path material_path = [] ∧
    ∃ sc', loadGeom env objectid sc = .ok (sc', 1) ∧ sc'.geoms = sc.geoms := by
  have hmesh : loadObjMesh env file_path material_path = [] := by
    simp [loadObjMesh, hready]
  refine ⟨hmesh, _, loadGeom_mesh_block env sc objectid typeLine matLine file_path
    material_path mkey mtok more more2 trans rest hfp hrest htype htok hmat hmtok htrans, ?_⟩
  simp [hmesh]

/-- C15 at the block `mesh_obj missing.obj ..` read while one geometry is loaded. -/
theorem loadGeom_mesh_not_ready_witness :
    (realEnv.objLoader "missing.obj" "missing.mtl").isReady = false ∧
    loadObjMesh realEnv "missing.obj" "missing.mtl" = [] ∧
    ∃ sc', loadGeom realEnv "1"
        { Scene.start realEnv ["mesh_obj missing.obj missing.mtl", "material 0", "TRANS 0 1 0"]
          with geoms := [exampleGeom .CUBE Mat4.identity] } = .ok (sc', 1) ∧
      sc'.geoms = [exampleGeom .CUBE Mat4.identity] :=
  ⟨by decide,
   loadGeom_mesh_not_ready realEnv
    { Scene.start realEnv ["mesh_obj missing.obj missing.mtl", "material 0", "TRANS 0 1 0"]
      with geoms := [exampleGeom .CUBE Mat4.identity] }
    "1" "mesh_obj missing.obj missing.mtl" "material 0" "missing.obj" "missing.mtl"
    "material" "0" [] [] ["TRANS 0 1 0"] []
    rfl (Or.inl rfl) (by decide) (by decide) (by decide) (by decide) (by decide) (by decide)⟩

/-- C12 (the code at the failing input). The mesh `quad_triangle.obj` is one shape with a
quad (4 vertices) followed by a triangle, so the triangle owns the flattened vertices 4,
5, 6 at (4, 5, 0), (5, 6, 0), (6, 7, 0). The quad is skipped by `continue` before
`idx_offset += num_vertices`, and the records of the triangle hold the vertices 0, 1, 2
of the quad: (0, 1, 0), (1, 2, 0), (2, 3, 0). -/
theorem loadObjMesh_offset_after_skipped_face :
    (realEnv.objLoader "quad_triangle.obj" "quad_triangle.mtl").isReady = true ∧
    (List.range ((realEnv.objLoader "quad_triangle.obj" "quad_triangle.mtl").numFaces 0)).map
      ((realEnv.objLoader "quad_triangle.obj" "quad_triangle.mtl").numVertices 0) = [4, 3] ∧
    [4, 5, 6].map ((realEnv.objLoader "quad_triangle.obj" "quad_triangle.mtl").getVertexPos 0)
      = [⟨4, 5, 0⟩, ⟨5, 6, 0⟩, ⟨6, 7, 0⟩] ∧
    (loadObjMesh realEnv "quad_triangle.obj" "quad_triangle.mtl").map
        (fun g => [g.triangle.vertices 0, g.triangle.vertices 1, g.triangle.vertices 2])
      = [[⟨0, 1, 0⟩, Vec3.zero, Vec3.zero], [Vec3.zero, ⟨1, 2, 0⟩, Vec3.zero],
         [Vec3.zero, Vec3.zero, ⟨2, 3, 0⟩]] := by
  refine ⟨by decide, by decide, ?_, ?_⟩
  · simp [realEnv, exampleEnv, exampleLoader]
    norm_num
  · simp [loadObjMesh, realEnv, exampleEnv, exampleLoader, shapeStep, faceStep, vertexLoop,
      finRange_three, zeroGeom, List.range, List.range.loop, Function.update, Vec3.zero]
    norm_num

/-- C14 (the code at the failing input). A MATERIAL block with the expected id 0, two
property lines and the terminating blank line: the loop of `loadMaterial` reads the
blank line as its third line, the token list is empty, and `tokens[0]` is indexed (the
error `vectorIndex`); the load of the file stops there, no material is appended. -/
theorem loadMaterial_short_block_indexes_empty :
    realEnv.tokenizeString "" = [] ∧
    loadMaterial realEnv "0" (Scene.start realEnv ["RGB 1 1 1", "SPECEX 0", "", "MATERIAL 1"])
      = .error .vectorIndex ∧
    Scene.Scene realEnv (some ["MATERIAL 0", "RGB 1 1 1", "SPECEX 0", "", "MATERIAL 1"])
      = .error .vectorIndex := by
  refine ⟨by decide, ?_, ?_⟩
  · simp [loadMaterial, Scene.start, materialLoop, safeGetline, materialProperty, tokenAt,
      realEnv, exampleEnv, tokenizeChars, exampleAtoi, digitsValue, bind, Except.bind, pure,
      Except.pure]
  · simp [Scene.Scene, sceneLoop, loadMaterial, Scene.start, materialLoop, safeGetline,
      materialProperty, tokenAt,
      realEnv, exampleEnv, tokenizeChars, exampleAtoi, digitsValue, bind, Except.bind, pure,
      Except.pure]

/-- C16. For every cube geometry, whatever its world transform T, the extent computed
from the 8 transformed corners is finite and is the minimal axis-aligned box around the
transformed cube: every point T·p with p in [-0.5, 0.5]^3 lies inside it, and on each
axis its min and its max are attained by a transformed corner. -/
theorem cube_extent_is_minimal_box [LinearOrderedField F] (geom : Geom F)
    (htype : geom.type = .CUBE) :
    ∃ lo hi : Vec3 F,
      geomExtremes geom
        = ⟨.fin lo.x, .fin hi.x, .fin lo.y, .fin hi.y, .fin lo.z, .fin hi.z⟩ ∧
      (∀ p : Vec3 F, -(1 / 2) ≤ p.x → p.x ≤ 1 / 2 → -(1 / 2) ≤ p.y → p.y ≤ 1 / 2 →
        -(1 / 2) ≤ p.z → p.z ≤ 1 / 2 →
        lo.x ≤ (transformPoint geom.transform p).x ∧
        (transformPoint geom.transform p).x ≤ hi.x ∧
        lo.y ≤ (transformPoint geom.transform p).y ∧
        (transformPoint geom.transform p).y ≤ hi.y ∧
        lo.z ≤ (transformPoint geom.transform p).z ∧
        (transformPoint geom.transform p).z ≤ hi.z) ∧
      (∃ v ∈ (box_vertices : List (Vec3 F)), (transformPoint geom.transform v).x = lo.x) ∧
      (∃ v ∈ (box_vertices : List (Vec3 F)), (transformPoint geom.transform v).x = hi.x) ∧
      (∃ v ∈ (box_vertices : List (Vec3 F)), (transformPoint geom.transform v).y = lo.y) ∧
      (∃ v ∈ (box_vertices : List (Vec3 F)), (transformPoint geom.transform v).y = hi.y) ∧
      (∃ v ∈ (box_vertices : List (Vec3 F)), (transformPoint geom.transform v).z = lo.z) ∧
      (∃ v ∈ (box_vertices : List (Vec3 F)), (transformPoint geom.transform v).z = hi.z) := by
  have hne : (box_vertices : List (Vec3 F)) ≠ [] := by simp [box_vertices]
  obtain ⟨lx, hx, a1, a2, a3, a4, a5⟩ :=
    coordinate_extremes (fun v => (transformPoint geom.transform v).x) box_vertices hne
  obtain ⟨ly, hy, b1, b2, b3, b4, b5⟩ :=
    coordinate_extremes (fun v => (transformPoint geom.transform v).y) box_vertices hne
  obtain ⟨lz, hz, c1, c2, c3, c4, c5⟩ :=
    coordinate_extremes (fun v => (transformPoint geom.transform v).z) box_vertices hne
  refine ⟨⟨lx, ly, lz⟩, ⟨hx, hy, hz⟩, ?_, ?_, a3, a4, b3, b4, c3, c4⟩
  · have hfold := foldl_addPoint (transformPoint geom.transform) box_vertices Extremes.init
    simp only [Extremes.init] at hfold
    rw [a1, a2, b1, b2, c1, c2] at hfold
    simp only [geomExtremes, htype]
    exact hfold
  · intro p hx0 hx1 hy0 hy1 hz0 hz1
    have key : ∀ q : Vec3 F,
        (transformPoint geom.transform q).x
          = geom.transform.c0.x * q.x + geom.transform.c1.x * q.y
            + geom.transform.c2.x * q.z + geom.transform.c3.x ∧
        (transformPoint geom.transform q).y
          = geom.transform.c0.y * q.x + geom.transform.c1.y * q.y
            + geom.transform.c2.y * q.z + geom.transform.c3.y ∧
        (transformPoint geom.transform q).z
          = geom.transform.c0.z * q.x + geom.transform.c1.z * q.y
            + geom.transform.c2.z * q.z + geom.transform.c3.z := by
      intro q
      simp [transformPoint, Mat4.mulVec, Vec4.ofVec3, Vec4.toVec3]
    rw [(key p).1, (key p).2.1, (key p).2.2]
    refine ⟨?_, ?_, ?_, ?_, ?_, ?_⟩
    · apply affine_ge_corners _ _ _ _ _ _ p.x p.y p.z hx0 hx1 hy0 hy1 hz0 hz1
      intro sx sy sz h1 h2 h3
      have := (a5 _ (corner_mem_box_vertices sx sy sz h1 h2 h3)).1
      rwa [(key _).1] at this
    · apply affine_le_corners _ _ _ _ _ _ p.x p.y p.z hx0 hx1 hy0 hy1 hz0 hz1
      intro sx sy sz h1 h2 h3
      have := (a5 _ (corner_mem_box_vertices sx sy sz h1 h2 h3)).2
      rwa [(key _).1] at this
    · apply affine_ge_corners _ _ _ _ _ _ p.x p.y p.z hx0 hx1 hy0 hy1 hz0 hz1
      intro sx sy sz h1 h2 h3
      have := (b5 _ (corner_mem_box_vertices sx sy sz h1 h2 h3)).1
      rwa [(key _).2.1] at this
    · apply affine_le_corners _ _ _ _ _ _ p.x p.y p.z hx0 hx1 hy0 hy1 hz0 hz1
      intro sx sy sz h1 h2 h3
      have := (b5 _ (corner_mem_box_vertices sx sy sz h1 h2 h3)).2
      rwa [(key _).2.1] at this
    · apply affine_ge_corners _ _ _ _ _ _ p.x p.y p.z hx0 hx1 hy0 hy1 hz0 hz1
      intro sx sy sz h1 h2 h3
      have := (c5 _ (corner_mem_box_vertices sx sy sz h1 h2 h3)).1
      rwa [(key _).2.2] at this
    · apply affine_le_corners _ _ _ _ _ _ p.x p.y p.z hx0 hx1 hy0 hy1 hz0 hz1
      intro sx sy sz h1 h2 h3
      have := (c5 _ (corner_mem_box_vertices sx sy sz h1 h2 h3)).2
      rwa [(key _).2.2] at this

/-- C16 at the cube scaled by 2. -/
theorem cube_extent_is_minimal_box_witness :
    (exampleGeom .CUBE scaleByTwo : Geom ℝ).type = .CUBE ∧
    ∃ lo hi : Vec3 ℝ,
      geomExtremes (exampleGeom .CUBE scaleByTwo : Geom ℝ)
        = ⟨.fin lo.x, .fin hi.x, .fin lo.y, .fin hi.y, .fin lo.z, .fin hi.z⟩ ∧
      (∀ p : Vec3 ℝ, -(1 / 2) ≤ p.x → p.x ≤ 1 / 2 → -(1 / 2) ≤ p.y → p.y ≤ 1 / 2 →
        -(1 / 2) ≤ p.z → p.z ≤ 1 / 2 →
        lo.x ≤ (transformPoint (exampleGeom .CUBE scaleByTwo : Geom ℝ).transform p).x ∧
        (transformPoint (exampleGeom .CUBE scaleByTwo : Geom ℝ).transform p).x ≤ hi.x ∧
        lo.y ≤ (transformPoint (exampleGeom .CUBE scaleByTwo : Geom ℝ).transform p).y ∧
        (transformPoint (exampleGeom .CUBE scaleByTwo : Geom ℝ).transform p).y ≤ hi.y ∧
        lo.z ≤ (transformPoint (exampleGeom .CUBE scaleByTwo : Geom ℝ).transform p).z ∧
        (transformPoint (exampleGeom .CUBE scaleByTwo : Geom ℝ).transform p).z ≤ hi.z) :=
  ⟨rfl,
   (cube_extent_is_minimal_box (exampleGeom .CUBE scaleByTwo : Geom ℝ) rfl).imp
    (fun _ h => h.imp (fun _ k => ⟨k.1, k.2.1⟩))⟩

/-- C17. For every sphere geometry whose world transform is a translation `t` composed
with an axis-aligned scale `s` (no rotation), the extent computed from the 6 transformed
axis points is min = t - |s|/2, max = t + |s|/2 on every axis, and it contains T·p for
every point p of the sphere of radius 0.5 (dot(p, p) ≤ 0.5^2). -/
theorem sphere_extent_unrotated [LinearOrderedField F] (geom : Geom F)
    (t r s : Vec3 F) (htype : geom.type = .SPHERE)
    (hT : geom.transform = unrotatedTransform t r s) :
    geomExtremes geom
      = ⟨.fin (t.x - |s.x| / 2), .fin (t.x + |s.x| / 2),
         .fin (t.y - |s.y| / 2), .fin (t.y + |s.y| / 2),
         .fin (t.z - |s.z| / 2), .fin (t.z + |s.z| / 2)⟩ ∧
    ∀ p : Vec3 F, p.dot p ≤ (1 / 2) ^ 2 →
      t.x - |s.x| / 2 ≤ (transformPoint geom.transform p).x ∧
      (transformPoint geom.transform p).x ≤ t.x + |s.x| / 2 ∧
      t.y - |s.y| / 2 ≤ (transformPoint geom.transform p).y ∧
      (transformPoint geom.transform p).y ≤ t.y + |s.y| / 2 ∧
      t.z - |s.z| / 2 ≤ (transformPoint geom.transform p).z ∧
      (transformPoint geom.transform p).z ≤ t.z + |s.z| / 2 := by
  constructor
  · simp only [geomExtremes, htype, hT, sphere_endpoints, List.foldl_cons, List.foldl_nil,
      Extremes.init, Extremes.addPoint, unrotatedTransform, Mat4.mulVec, Vec4.ofVec3,
      Vec4.toVec3, Ext.min_posInf, Ext.max_negInf, Ext.min_fin, Ext.max_fin]
    have e1 : (-0.5 : F) = -(1 / 2) := by norm_num
    have e2 : (0.5 : F) = 1 / 2 := by norm_num
    simp only [e1, e2, mul_zero, zero_mul, add_zero, zero_add, mul_one]
    rw [(axis_points_min s.x t.x).1, (axis_points_min s.y t.y).2.1,
      (axis_points_min s.z t.z).2.2, (axis_points_max s.x t.x).1,
      (axis_points_max s.y t.y).2.1, (axis_points_max s.z t.z).2.2]
  · intro p hp
    have hsq : ∀ a : F, 0 ≤ a * a := fun a => mul_self_nonneg a
    simp only [Vec3.dot] at hp
    have hx := sq_le_quarter p.x (p.y * p.y + p.z * p.z) (by linarith [hsq p.y, hsq p.z])
      (by linarith)
    have hy := sq_le_quarter p.y (p.x * p.x + p.z * p.z) (by linarith [hsq p.x, hsq p.z])
      (by linarith)
    have hz := sq_le_quarter p.z (p.x * p.x + p.y * p.y) (by linarith [hsq p.x, hsq p.y])
      (by linarith)
    have kx := scaled_coordinate_bounds s.x t.x p.x hx.1 hx.2
    have ky := scaled_coordinate_bounds s.y t.y p.y hy.1 hy.2
    have kz := scaled_coordinate_bounds s.z t.z p.z hz.1 hz.2
    simp only [hT, transformPoint, unrotatedTransform, Mat4.mulVec, Vec4.ofVec3, Vec4.toVec3,
      mul_zero, zero_mul, add_zero, zero_add, mul_one]
    exact ⟨kx.1, kx.2, ky.1, ky.2, kz.1, kz.2⟩

/-- C17 at the sphere translated by (3, 0, 0) and scaled by (2, 1, -1). -/
theorem sphere_extent_unrotated_witness :
    (exampleGeom .SPHERE (unrotatedTransform ⟨3, 0, 0⟩ ⟨0, 0, 0⟩ ⟨2, 1, -1⟩) : Geom ℝ).type
      = .SPHERE ∧
    geomExtremes
        (exampleGeom .SPHERE (unrotatedTransform ⟨3, 0, 0⟩ ⟨0, 0, 0⟩ ⟨2, 1, -1⟩) : Geom ℝ)
      = ⟨.fin (3 - |2| / 2), .fin (3 + |2| / 2), .fin (0 - |1| / 2), .fin (0 + |1| / 2),
         .fin (0 - |(-1)| / 2), .fin (0 + |(-1)| / 2)⟩ :=
  ⟨rfl,
   (sphere_extent_unrotated
    (exampleGeom .SPHERE (unrotatedTransform ⟨3, 0, 0⟩ ⟨0, 0, 0⟩ ⟨2, 1, -1⟩) : Geom ℝ)
    ⟨3, 0, 0⟩ ⟨0, 0, 0⟩ ⟨2, 1, -1⟩ rfl rfl).1⟩

/-- C18. There is a sphere geometry whose world transform is a rotation (about the z
axis, by the angle with cosine 3/5 and sine 4/5, about 53 degrees) for which the computed
extent is too small: the 6 transformed axis points give x in [-2/5, 2/5], and the point
p = (3/10, -2/5, 0) of the sphere surface (dot(p, p) = 0.5^2) is mapped to (1/2, 0, 0),
strictly outside. -/
theorem sphere_extent_rotated_too_small (F : Type) [LinearOrderedField F] :
    ∃ (geom : Geom F) (p : Vec3 F),
      geom.type = .SPHERE ∧ geom.transform = rotateAboutZ ∧
      (rotateAboutZ : Mat4 F).transpose.mul rotateAboutZ = Mat4.identity ∧
      p.dot p = (1 / 2) ^ 2 ∧
      geomExtremes geom
        = ⟨.fin (-(2 / 5)), .fin (2 / 5), .fin (-(2 / 5)), .fin (2 / 5),
           .fin (-(1 / 2)), .fin (1 / 2)⟩ ∧
      transformPoint geom.transform p = ⟨1 / 2, 0, 0⟩ ∧
      (2 / 5 : F) < (transformPoint geom.transform p).x := by
  have htype : (exampleGeom .SPHERE rotateAboutZ : Geom F).type = .SPHERE := rfl
  have hT : (exampleGeom .SPHERE rotateAboutZ : Geom F).transform = rotateAboutZ := rfl
  refine ⟨exampleGeom .SPHERE rotateAboutZ, ⟨3 / 10, -(2 / 5), 0⟩, htype, hT,
    rotateAboutZ_orthogonal, ?_, rotated_sphere_extremes _ htype hT, ?_, ?_⟩
  · simp only [Vec3.dot]
    norm_num
  · rw [hT]
    exact rotated_point
  · rw [hT, rotated_point]
    norm_num

/-- C19. A geometry whose shape kind is none of triangle, cube, sphere has the extent
min = max = (0, 0, 0), whatever its transform, and the scene bounding box of a list that
holds such a geometry is finite and contains the origin. -/
theorem unknown_kind_zero_extent [LinearOrderedField F] (sc : Scene F) (g : Geom F)
    (hmem : g ∈ sc.geoms)
    (hkind : g.type ≠ .TRIANGLE ∧ g.type ≠ .CUBE ∧ g.type ≠ .SPHERE) :
    geomExtremes g = ⟨.fin 0, .fin 0, .fin 0, .fin 0, .fin 0, .fin 0⟩ ∧
    ∃ lo hi : Vec3 F,
      (computeBoundary sc).boundary
        = { min_xyz := ⟨.fin lo.x, .fin lo.y, .fin lo.z⟩
            max_xyz := ⟨.fin hi.x, .fin hi.y, .fin hi.z⟩ } ∧
      lo.x ≤ 0 ∧ 0 ≤ hi.x ∧ lo.y ≤ 0 ∧ 0 ≤ hi.y ∧ lo.z ≤ 0 ∧ 0 ≤ hi.z := by
  have hzero : geomExtremes g = ⟨.fin 0, .fin 0, .fin 0, .fin 0, .fin 0, .fin 0⟩ := by
    cases htype : g.type with
    | TRIANGLE => exact absurd htype hkind.1
    | CUBE => exact absurd htype hkind.2.1
    | SPHERE => exact absurd htype hkind.2.2
    | OTHER tag => simp only [geomExtremes, htype]
  refine ⟨hzero, ?_⟩
  obtain ⟨lo, hi, hb, _, _, _, hall⟩ := boundary_encloses sc (List.ne_nil_of_mem hmem)
  exact ⟨lo, hi, hb, hall g hmem ⟨0, 0, 0⟩ ⟨0, 0, 0⟩ hzero⟩

/-- C19 at the scene of a geometry of unknown kind scaled by 2 and a sphere translated
by (3, 0, 0). -/
theorem unknown_kind_zero_extent_witness :
    (exampleGeom (.OTHER 7) scaleByTwo : Geom ℝ) ∈
      ({ Scene.start realEnv [] with
          geoms := [exampleGeom (.OTHER 7) scaleByTwo, exampleGeom .SPHERE translateByThree] }
        : Scene ℝ).geoms ∧
    geomExtremes (exampleGeom (.OTHER 7) scaleByTwo : Geom ℝ)
      = ⟨.fin 0, .fin 0, .fin 0, .fin 0, .fin 0, .fin 0⟩ ∧
    ∃ lo hi : Vec3 ℝ,
      (computeBoundary ({ Scene.start realEnv [] with
          geoms := [exampleGeom (.OTHER 7) scaleByTwo, exampleGeom .SPHERE translateByThree] }
        : Scene ℝ)).boundary
        = { min_xyz := ⟨.fin lo.x, .fin lo.y, .fin lo.z⟩
            max_xyz := ⟨.fin hi.x, .fin hi.y, .fin hi.z⟩ } ∧
      lo.x ≤ 0 ∧ 0 ≤ hi.x ∧ lo.y ≤ 0 ∧ 0 ≤ hi.y ∧ lo.z ≤ 0 ∧ 0 ≤ hi.z :=
  ⟨List.mem_cons_self _ _,
   unknown_kind_zero_extent _ (exampleGeom (.OTHER 7) scaleByTwo) (List.mem_cons_self _ _)
    ⟨by simp [exampleGeom], by simp [exampleGeom], by simp [exampleGeom]⟩⟩

/-- C20. For every non-empty geometry list the computed scene bounding box is a valid
box: both corners are finite (neither infinite start value of the fold is left) and
min ≤ max on each of the three axes. -/
theorem boundary_valid_box [LinearOrderedField F] (sc : Scene F) (hne : sc.geoms ≠ []) :
    ∃ lo hi : Vec3 F,
      (computeBoundary sc).boundary
        = { min_xyz := ⟨.fin lo.x, .fin lo.y, .fin lo.z⟩
            max_xyz := ⟨.fin hi.x, .fin hi.y, .fin hi.z⟩ } ∧
      lo.x ≤ hi.x ∧ lo.y ≤ hi.y ∧ lo.z ≤ hi.z := by
  obtain ⟨lo, hi, hb, h1, h2, h3, _⟩ := boundary_encloses sc hne
  exact ⟨lo, hi, hb, h1, h2, h3⟩

/-- C20 at the scene of the cube scaled by 2 and the sphere translated by (3, 0, 0). -/
theorem boundary_valid_box_witness :
    ({ Scene.start realEnv [] with
        geoms := [exampleGeom .CUBE scaleByTwo, exampleGeom .SPHERE translateByThree] }
      : Scene ℝ).geoms ≠ [] ∧
    ∃ lo hi : Vec3 ℝ,
      (computeBoundary ({ Scene.start realEnv [] with
          geoms := [exampleGeom .CUBE scaleByTwo, exampleGeom .SPHERE translateByThree] }
        : Scene ℝ)).boundary
        = { min_xyz := ⟨.fin lo.x, .fin lo.y, .fin lo.z⟩
            max_xyz := ⟨.fin hi.x, .fin hi.y, .fin hi.z⟩ } ∧
      lo.x ≤ hi.x ∧ lo.y ≤ hi.y ∧ lo.z ≤ hi.z :=
  ⟨List.cons_ne_nil _ _, boundary_valid_box _ (List.cons_ne_nil _ _)⟩

/-- C13. Let the top-level loop read the prefix `pre` of a scene file in `n` rounds and
arrive, whatever follows `pre`, with the materials `ms`, the geometries `gs` and the
render state `st`. If a well-formed MATERIAL block (header and 7 property lines with keys
among RGB, SPECEX, SPECRGB, REFL, REFR, REFRIOR, EMITTANCE) follows whose id differs
from the number of materials `ms`, the load of the file gives exactly the result of the
load of the file without that block. -/
theorem Scene_skips_mismatched_material [LinearOrderedField F] (env : Env F)
    (pre props post : List String) (header idtok : String) (more : List String) (n : Nat)
    (ms : List (Material F)) (gs : List (Geom F)) (st : RenderState F) (bd : BoundingBox F)
    (hpre : ∀ (rest : List String) (fuel : Nat),
      sceneLoop env (fuel + n) (Scene.start env (pre ++ rest))
        = sceneLoop env fuel ⟨⟨rest, true⟩, ms, gs, st, bd⟩)
    (hn : n ≤ pre.length)
    (hheader : header ≠ "")
    (htok : env.tokenizeString header = "MATERIAL" :: idtok :: more)
    (hid : env.atoi idtok ≠ (ms.length : Int)) (hsize : ms.length < 2 ^ 63)
    (hprops7 : props.length = 7)
    (hprops : props.all (materialPropertyLine env) = true) :
    Scene.Scene env (some (pre ++ (header :: props ++ post)))
      = Scene.Scene env (some (pre ++ post)) := by
  have hskip : ∀ fuel : Nat,
      sceneLoop env (fuel + 8) ⟨⟨header :: props ++ post, true⟩, ms, gs, st, bd⟩
        = sceneLoop env fuel ⟨⟨post, true⟩, ms, gs, st, bd⟩ := by
    intro fuel
    have h1 := sceneLoop_material_mismatch env (fuel + 7) header idtok more (props ++ post)
      ms gs st bd hheader htok hid hsize
    have h2 := sceneLoop_properties env props fuel post ms gs st bd hprops
    rw [hprops7] at h2
    rw [← h2, ← h1]
    rfl
  have hwith : (pre ++ (header :: props ++ post)).length + 2
      = ((pre.length - n + post.length + 2) + 8) + n := by
    simp only [List.length_append, List.length_cons, hprops7]
    omega
  have hwithout : (pre ++ post).length + 2 = (pre.length - n + post.length + 2) + n := by
    simp only [List.length_append]
    omega
  simp only [Scene.Scene]
  rw [hwith, hwithout, hpre, hpre, hskip]

/-- C13 at the file of the two example blocks followed by a block with id 5, a blank
line and the block with id 2: both files load, with 3 materials. -/
theorem Scene_skips_mismatched_material_witness :
    realEnv.atoi "5" ≠ (exampleLoaded.length : Int) ∧
    Scene.Scene realEnv (some (exampleMaterials.flatMap MaterialBlock.lines ++
        ("MATERIAL 5" :: strayMaterial.tail ++ ("" :: thirdMaterial.lines))))
      = Scene.Scene realEnv (some (exampleMaterials.flatMap MaterialBlock.lines ++
        ("" :: thirdMaterial.lines))) ∧
    ∃ sc, Scene.Scene realEnv (some (exampleMaterials.flatMap MaterialBlock.lines ++
        ("" :: thirdMaterial.lines))) = .ok sc ∧ sc.materials.length = 3 := by
  have hlen : exampleLoaded.length = 2 := rfl
  refine ⟨by rw [hlen]; decide,
    Scene_skips_mismatched_material realEnv (exampleMaterials.flatMap MaterialBlock.lines)
      strayMaterial.tail ("" :: thirdMaterial.lines) "MATERIAL 5" "5" [] 3
      exampleLoaded [] realEnv.state realEnv.boundary
      exampleMaterials_prefix
      (by decide) (by decide) (by decide) (by rw [hlen]; decide) (by rw [hlen]; decide)
      (by decide) (by decide), ?_⟩
  have h1 := exampleMaterials_prefix ("" :: thirdMaterial.lines) 25
  have h2 := sceneLoop_blanks realEnv 1 24 thirdMaterial.lines exampleLoaded [] realEnv.state
    realEnv.boundary
  have h3 := sceneLoop_materialBlocks realEnv [thirdMaterial] 24 exampleLoaded [] realEnv.state
    realEnv.boundary (by rw [hlen]; decide) (by decide)
  have hrun : sceneLoop realEnv
      ((exampleMaterials.flatMap MaterialBlock.lines ++ ("" :: thirdMaterial.lines)).length + 2)
      (Scene.start realEnv
        (exampleMaterials.flatMap MaterialBlock.lines ++ ("" :: thirdMaterial.lines)))
      = .ok ⟨⟨[], false⟩,
          exampleLoaded ++ [thirdMaterial].map (fun b => blockMaterial realEnv b.props), [],
          realEnv.state, realEnv.boundary⟩ :=
    h1.trans (h2.trans h3)
  refine ⟨⟨⟨[], false⟩,
    exampleLoaded ++ [thirdMaterial].map (fun b => blockMaterial realEnv b.props), [],
    realEnv.state, realEnv.boundary⟩, ?_, ?_⟩
  · simp only [Scene.Scene, bind, Except.bind, hrun]
    rfl
  · simp [hlen]

end Proofs

end PathTracer
